import Mathlib

/-!
# Rotating log writer (`logger.go`)

A shallow embedding of `SeanLogger` and its four methods `StartLog`,
`LogMessage`, `newFile` and `pruneFile`.

* The writer struct is the record `SeanLogger`; every method takes the record
  and returns the updated record (explicit state passing).
* The file system, the clock and `utils.TimeStampFileName` are outside the
  program.  The file system is the record `World` (existing files with their
  durable content, plus the chronological list of observable events); what the
  clock, the name generator and the fallible system calls answer during one
  method call is the record `Env`.
* `uint64` and `int64` fields are `Nat` and `Int`; every arithmetic operation
  of the source is followed by the wrap-around of its machine type.
* A Go run-time panic (nil pointer dereference) is the result `none`.
* A Go string is a sequence of bytes; it is rendered as the Lean string with
  one character per byte, so that `String.length` is Go's `len`.
* The buffered writer is `bufio.Writer` with its default size of 4096 bytes
  and its sticky error: bytes reach the file when the buffer overflows or is
  flushed, and only then can a write fail.  `os.Create`, a write to a file and
  `os.Remove` fail when the environment says so; a failing write writes
  nothing.  `Close`, whose result the source ignores, always succeeds.
* A handle is identified with the name it was created under and a write
  through it appends to the file of that name; this is what happens as long as
  no name is created twice.
-/

namespace Logger

/-! ## Machine integers -/

/-- Wrap-around of `uint64` arithmetic. -/
def wrapU64 (n : Nat) : Nat := n % 2 ^ 64

/-- Wrap-around of `int64` arithmetic (two's complement). -/
def wrapI64 (z : Int) : Int := (z + 2 ^ 63) % 2 ^ 64 - 2 ^ 63

/-- The range of an `int64`. -/
def inI64 (z : Int) : Prop := -(2 ^ 63) ≤ z ∧ z < 2 ^ 63

instance (z : Int) : Decidable (inI64 z) := by unfold inI64; infer_instance

/-! ## The world outside the writer -/

/-- Go `error` values, identified by their message. -/
abbrev Error := String

/-- Everything the writer does that can be observed from outside, in the order
in which it happens.  The three `call…` events mark the entry of a method;
`write` is a write of `data` to the file `name` (`(*os.File).Write`). -/
inductive Event where
  | callLogMessage
  | callNewFile
  | callPruneFile
  | create (name : String) (ok : Bool)
  | write (name : String) (data : String) (ok : Bool)
  | close (name : String) (content : Option String)
  | remove (name : String) (ok : Bool)
  | stdout (line : String)
deriving DecidableEq, Repr

/-- The file store: `files name` is the durable content of the file `name`
when it exists; `trace` lists the events so far, oldest first. -/
structure World where
  files : String → Option String
  trace : List Event

/-- Record one event at the end of the trace. -/
def World.emit (w : World) (e : Event) : World :=
  { w with trace := w.trace ++ [e] }

/-- What the environment answers during one method call. -/
structure Env where
  /-- Result of `time.Now().Unix()`. -/
  now : Int
  /-- Result of `utils.TimeStampFileName base extension` at this moment. -/
  TimeStampFileName : String → String → String
  /-- Error of `os.Create`, if it fails. -/
  createErr : Option Error
  /-- Error of a write to a file, `(*os.File).Write`, if it fails. -/
  writeErr : Option Error
  /-- Error of `os.Remove`, if it fails. -/
  removeErr : Option Error

/-- An open file handle, `*os.File`; `nil` is `none : Option File`. -/
structure File where
  name : String
deriving DecidableEq, Repr

/-- A buffered writer, `*bufio.Writer`: the handle it writes to, the bytes not
yet flushed and the error of the first failed write, which it keeps; `nil` is
`none : Option Writer`. -/
structure Writer where
  wr : File
  buf : String
  err : Option Error
deriving DecidableEq, Repr

/-- The size of the buffer of a `bufio.Writer` made by `bufio.NewWriter`. -/
def defaultBufSize : Nat := 4096

/-- The first `n` bytes of `s`, Go's `s[:n]`. -/
def takeBytes (n : Nat) (s : String) : String := ⟨s.data.take n⟩

/-- The bytes of `s` after the first `n`, Go's `s[n:]`. -/
def dropBytes (n : Nat) (s : String) : String := ⟨s.data.drop n⟩

/-- Model of `os.Create`: on success the file exists and is empty (an existing
file of that name is truncated). -/
def osCreate (w : World) (env : Env) (name : String) : Except Error File × World :=
  match env.createErr with
  | some err => (.error err, w.emit (.create name false))
  | none =>
    (.ok ⟨name⟩,
      { files := fun n => if n = name then some "" else w.files n,
        trace := w.trace ++ [.create name true] })

/-- Model of `os.Remove`: on success the file no longer exists. -/
def osRemove (w : World) (env : Env) (name : String) : Option Error × World :=
  match env.removeErr with
  | some err => (some err, w.emit (.remove name false))
  | none =>
    (none,
      { files := fun n => if n = name then none else w.files n,
        trace := w.trace ++ [.remove name true] })

/-- Model of `(*os.File).Write`: on success the bytes are appended to the
file; on failure nothing is written. -/
def fileWrite (w : World) (env : Env) (f : File) (data : String) : Option Error × World :=
  match env.writeErr with
  | some err => (some err, w.emit (.write f.name data false))
  | none =>
    (none,
      { files := fun n => if n = f.name then (w.files n).map (fun c => c ++ data) else w.files n,
        trace := w.trace ++ [.write f.name data true] })

/-- Model of `bufio.NewWriter`. -/
def NewWriter (f : File) : Writer := ⟨f, "", none⟩

/-- Model of `(*bufio.Writer).Flush`: nothing happens after an earlier error or
on an empty buffer; otherwise the buffer is written to the file and emptied, or
kept, with the error, when the write fails. -/
def Flush (w : World) (env : Env) (b : Writer) : Option Error × Writer × World :=
  match b.err with
  | some err => (some err, b, w)
  | none =>
    if b.buf.length = 0 then (none, b, w)
    else
      match fileWrite w env b.wr b.buf with
      | (some err, w1) => (some err, { b with err := some err }, w1)
      | (none, w1) => (none, { b with buf := "" }, w1)

/-- Model of `(*bufio.Writer).Write`.  Bytes that fit the free part of the
buffer are buffered.  Otherwise, with an empty buffer they are written to the
file directly; with a non-empty buffer the buffer is filled up and flushed and
the remaining bytes are buffered, or written directly when they exceed the
buffer.  After an error nothing more is written. -/
def Writer.Write (w : World) (env : Env) (b : Writer) (p : String) :
    Option Error × Writer × World :=
  match b.err with
  | some err => (some err, b, w)
  | none =>
    if p.length ≤ defaultBufSize - b.buf.length then
      (none, { b with buf := b.buf ++ p }, w)
    else if b.buf.length = 0 then
      match fileWrite w env b.wr p with
      | (some err, w1) => (some err, { b with err := some err }, w1)
      | (none, w1) => (none, b, w1)
    else
      match Flush w env
          { b with buf := b.buf ++ takeBytes (defaultBufSize - b.buf.length) p } with
      | (some err, b1, w1) => (some err, b1, w1)
      | (none, b1, w1) =>
        if (dropBytes (defaultBufSize - b.buf.length) p).length ≤ defaultBufSize then
          (none, { b1 with buf := dropBytes (defaultBufSize - b.buf.length) p }, w1)
        else
          match fileWrite w1 env b.wr (dropBytes (defaultBufSize - b.buf.length) p) with
          | (some err, w2) => (some err, { b1 with err := some err }, w2)
          | (none, w2) => (none, b1, w2)

/-- Model of `fmt.Fprintln(writer, message)`: one `Write` of the message and a
newline.  A nil writer panics. -/
def Fprintln (w : World) (env : Env) (writer : Option Writer) (message : String) :
    Option (Option Error × Writer × World) :=
  match writer with
  | none => none
  | some b => some (Writer.Write w env b (message ++ "\n"))

/-- Model of `(*os.File).Close`; on a nil handle it only returns an error. -/
def Close (w : World) (f : Option File) : World :=
  match f with
  | none => w
  | some h => w.emit (.close h.name (w.files h.name))

/-! ## The writer -/

/-- The struct `SeanLogger`. -/
structure SeanLogger where
  MaxLogFileCount : Nat
  MaxLogMessageCount : Nat
  MaxLogDuration : Int
  baseLogName : String
  logFileCount : Nat
  logFileNames : List String
  logMessageCount : Nat
  logDuration : Int
  logStamp : Int
  log : Option File
  writer : Option Writer
deriving DecidableEq, Repr

/-- The constant `LOG_EXTENSION`. -/
def LOG_EXTENSION : String := ".log"

/-- The zero value of the struct with the three public fields set. -/
def fresh (maxFiles maxMessages : Nat) (maxDuration : Int) : SeanLogger :=
  { MaxLogFileCount := maxFiles
    MaxLogMessageCount := maxMessages
    MaxLogDuration := maxDuration
    baseLogName := ""
    logFileCount := 0
    logFileNames := []
    logMessageCount := 0
    logDuration := 0
    logStamp := 0
    log := none
    writer := none }

/-- The method `StartLog`. -/
def StartLog (sl : SeanLogger) (w : World) (env : Env) (logBaseName : String) :
    Option Error × SeanLogger × World :=
  let logFileName := env.TimeStampFileName logBaseName LOG_EXTENSION
  match osCreate w env logFileName with
  | (.error err, w1) => (some err, sl, w1)
  | (.ok filePtr, w1) =>
    (none,
      { sl with
        baseLogName := logBaseName
        logFileCount := 0
        logDuration := 0
        logStamp := env.now
        log := some filePtr
        writer := some (NewWriter filePtr)
        logFileNames := sl.logFileNames ++ [logFileName] },
      w1)

/-- The method `pruneFile`.  `Front()` of an empty list is nil and `Remove(nil)`
panics. -/
def pruneFile (sl : SeanLogger) (w : World) (env : Env) :
    Option (Option Error × SeanLogger × World) :=
  let w0 := w.emit .callPruneFile
  match sl.logFileNames with
  | [] => none
  | oldestLog :: rest =>
    let sl1 := { sl with logFileNames := rest }
    let logFileName := oldestLog
    let w1 := w0.emit (.stdout ("Deleting oldest log file: %v " ++ logFileName ++ "\n"))
    let (err, w2) := osRemove w1 env logFileName
    some (err, sl1, w2)

/-- The method `newFile`.  `Flush` on a nil writer panics. -/
def newFile (sl : SeanLogger) (w : World) (env : Env) :
    Option (Option Error × SeanLogger × World) :=
  let w0 := w.emit .callNewFile
  let logFileName := env.TimeStampFileName sl.baseLogName LOG_EXTENSION
  match osCreate w0 env logFileName with
  | (.error err, w1) => some (some err, sl, w1)
  | (.ok filePtr, w1) =>
    match sl.writer with
    | none => none
    | some b =>
      let w2 := (Flush w1 env b).2.2
      let w3 := Close w2 sl.log
      let sl1 :=
        { sl with
          log := some filePtr
          writer := some (NewWriter filePtr)
          logMessageCount := 0
          logFileCount := wrapU64 (sl.logFileCount + 1)
          logFileNames := sl.logFileNames ++ [logFileName] }
      if sl1.logFileCount ≥ sl1.MaxLogFileCount then
        match pruneFile sl1 w3 env with
        | none => none
        | some (some err, sl2, w4) => some (some err, sl2, w4)
        | some (none, sl2, w4) => some (none, sl2, w4)
      else
        some (none, sl1, w3)

/-- The method `LogMessage`; it has no result, the results of `Fprintln` and
`newFile` are dropped. -/
def LogMessage (sl : SeanLogger) (w : World) (env : Env) (message : String) :
    Option (SeanLogger × World) :=
  let w0 := w.emit .callLogMessage
  let now := env.now
  match Fprintln w0 env sl.writer message with
  | none => none
  | some (_, b, w1) =>
    let sl1 :=
      { sl with
        writer := some b
        logMessageCount := wrapU64 (sl.logMessageCount + 1)
        logDuration := wrapI64 (sl.logDuration + wrapI64 (now - sl.logStamp))
        logStamp := now }
    if sl1.logMessageCount ≥ sl1.MaxLogMessageCount ∨
        sl1.logDuration ≥ sl1.MaxLogDuration then
      match newFile sl1 w1 env with
      | none => none
      | some (_, sl2, w2) => some (sl2, w2)
    else
      some (sl1, w1)

/-! ## Runs and observations -/

/-- A fresh writer with the given bounds, started once with base name
`logBaseName` on a file store holding `files`, with an empty trace. -/
def startFresh (maxFiles maxMessages : Nat) (maxDuration : Int)
    (files : String → Option String) (env0 : Env) (logBaseName : String) :
    Option Error × SeanLogger × World :=
  StartLog (fresh maxFiles maxMessages maxDuration) ⟨files, []⟩ env0 logBaseName

/-- One `LogMessage` call: what the environment answers and the message. -/
abbrev Call := Env × String

/-- A sequence of `LogMessage` calls, one after another. -/
def run (sl : SeanLogger) (w : World) (calls : List Call) : Option (SeanLogger × World) :=
  calls.foldl (fun st c => st.bind fun p => LogMessage p.1 p.2 c.1 c.2) (some (sl, w))

/-- Number of times `newFile` was entered. -/
def newFileCalls (t : List Event) : Nat := t.count .callNewFile

/-- Number of times `pruneFile` was entered. -/
def pruneFileCalls (t : List Event) : Nat := t.count .callPruneFile

/-- The names handed to `os.Remove`, in order. -/
def removedNames (t : List Event) : List String :=
  t.filterMap fun e => match e with
    | .remove name _ => some name
    | _ => none

/-- The names handed to `os.Create`, in order. -/
def createdNames (t : List Event) : List String :=
  t.filterMap fun e => match e with
    | .create name _ => some name
    | _ => none

/-- The bytes written to the file `name`, in order, by the successful writes
among the events `t`. -/
def writtenBytes (name : String) : List Event → String
  | [] => ""
  | .write n d true :: t => if n = name then d ++ writtenBytes name t else writtenBytes name t
  | _ :: t => writtenBytes name t

/-- Events that are neither the entry of `newFile` or `pruneFile` nor a
creation, a closing or a removal: the entry of `LogMessage` and the writes. -/
def quiet (e : Event) : Prop :=
  e = .callLogMessage ∨ ∃ n d ok, e = .write n d ok

/-- The files closed so far with their content at that moment, in order. -/
def closedFiles (t : List Event) : List (String × Option String) :=
  t.filterMap fun e => match e with
    | .close name content => some (name, content)
    | _ => none

/-- A writer is started when a buffered writer is installed. -/
def Started (sl : SeanLogger) : Prop := sl.writer.isSome = true

instance (sl : SeanLogger) : Decidable (Started sl) := by unfold Started; infer_instance


/-- A run together with its submissions: for every call made, the active file
(the field `log`) at the time of the call and the message submitted. -/
def runLogged (sl : SeanLogger) (w : World) (calls : List Call) :
    Option (SeanLogger × World) × List (Option File × String) :=
  calls.foldl
    (fun acc c =>
      match acc.1 with
      | none => acc
      | some p => (LogMessage p.1 p.2 c.1 c.2, acc.2 ++ [(p.1.log, c.2)]))
    (some (sl, w), [])

/-- The submissions of a run, in the order of the calls. -/
def submissions (sl : SeanLogger) (w : World) (calls : List Call) :
    List (Option File × String) :=
  (runLogged sl w calls).2

/-- What the file `name` is to hold: each message submitted while `name` was
the active file, followed by a newline, in submission order. -/
def expectedContent (subs : List (Option File × String)) (name : String) : String :=
  String.join ((subs.filter fun p => p.1 = some ⟨name⟩).map fun p => p.2 ++ "\n")

/-! ## Helper definitions for the proofs -/

/-- The writer as `newFile` leaves it after a successful creation, before the
pruning test. -/
def rotated (sl : SeanLogger) (name : String) : SeanLogger :=
  { sl with
    log := some ⟨name⟩
    writer := some (NewWriter ⟨name⟩)
    logMessageCount := 0
    logFileCount := wrapU64 (sl.logFileCount + 1)
    logFileNames := sl.logFileNames ++ [name] }

/-- The file store as `newFile` leaves it after a successful creation, flush
and close, before the pruning test. -/
def rotatedWorld (sl : SeanLogger) (w : World) (env : Env) (b : Writer) : World :=
  Close (Flush (osCreate (w.emit .callNewFile) env
    (env.TimeStampFileName sl.baseLogName LOG_EXTENSION)).2 env b).2.2 sl.log

/-- The writer as `LogMessage` leaves it before the rotation test. -/
def logged (sl : SeanLogger) (env : Env) (b : Writer) : SeanLogger :=
  { sl with
    writer := some b
    logMessageCount := wrapU64 (sl.logMessageCount + 1)
    logDuration := wrapI64 (sl.logDuration + wrapI64 (env.now - sl.logStamp))
    logStamp := env.now }

/-- A file store without files and without history. -/
def noFiles : World := ⟨fun _ => none, []⟩

/-- An environment in which every system call succeeds: the clock reads `t`
and the name generator puts `stamp` between base name and extension. -/
def envAt (t : Int) (stamp : String) : Env :=
  { now := t
    TimeStampFileName := fun base ext => base ++ stamp ++ ext
    createErr := none
    writeErr := none
    removeErr := none }

/-- An environment like `envAt` in which `os.Create` fails. -/
def envCreateFails (t : Int) (stamp : String) (err : Error) : Env :=
  { envAt t stamp with createErr := some err }

/-- Scenario 2: a fresh writer with `MaxLogDuration = 5` and a large message
bound, started at clock reading 100. -/
def scenario2Start : Option Error × SeanLogger × World :=
  StartLog (fresh 2 1000 5) noFiles (envAt 100 "-100") "app"

/-- Scenario 1: six calls at clock readings 101 to 106, every system call
succeeding, the generated names distinct. -/
def scenario1Calls : List Call :=
  [(envAt 101 "-101", "m1"), (envAt 102 "-102", "m2"), (envAt 103 "-103", "m3"),
   (envAt 104 "-104", "m4"), (envAt 105 "-105", "m5"), (envAt 106 "-106", "m6")]

/-- Scenario 1: a fresh writer with `MaxLogFileCount = 2`,
`MaxLogMessageCount = 3` and a duration bound of 1000 seconds, started at clock
reading 100 on an empty file store. -/
def scenario1Start : Option Error × SeanLogger × World :=
  startFresh 2 3 1000 (fun _ => none) (envAt 100 "-100") "app"

/-- A started writer with `MaxLogFileCount = 1`. -/
def pruneStart : Option Error × SeanLogger × World :=
  startFresh 1 3 1000 (fun _ => none) (envAt 100 "-100") "app"

/-- A started writer with `MaxLogFileCount = 0` and `MaxLogMessageCount = 1`. -/
def zeroFilesStart : Option Error × SeanLogger × World :=
  startFresh 0 1 1000 (fun _ => none) (envAt 100 "-100") "app"

/-- An environment in which every system call succeeds: the clock reads `t`
and the name generator returns `name`. -/
def envNamed (t : Int) (name : String) : Env :=
  { now := t
    TimeStampFileName := fun _ _ => name
    createErr := none
    writeErr := none
    removeErr := none }

/-- The invariant behind the round trip, for a writer started on a file store
that held `files0`, after the submissions `subs`: the active file `a` is the
last name of the history and the last name created; what it holds on disk
followed by the buffer of its writer is its messages; the files created before
it are the closed ones, each closed with its own messages as content; the
other names of the history still hold their messages; no other file was
touched. -/
def RoundTrip (files0 : String → Option String) (subs : List (Option File × String))
    (sl : SeanLogger) (w : World) : Prop :=
  ∃ a b c, sl.log = some ⟨a⟩ ∧ sl.writer = some b ∧ b.wr = ⟨a⟩ ∧ b.err = none ∧
    w.files a = some c ∧ c ++ b.buf = expectedContent subs a ∧
    sl.logFileNames.getLast? = some a ∧
    sl.logFileNames.Sublist (createdNames w.trace) ∧
    createdNames w.trace = (closedFiles w.trace).map Prod.fst ++ [a] ∧
    (∀ p ∈ closedFiles w.trace, p.2 = some (expectedContent subs p.1)) ∧
    (∀ n ∈ sl.logFileNames, n ≠ a → w.files n = some (expectedContent subs n)) ∧
    (∀ n, n ∉ createdNames w.trace → w.files n = files0 n) ∧
    (∀ p ∈ subs, ∃ n, p.1 = some ⟨n⟩ ∧ n ∈ createdNames w.trace)

/-- What the caller of `LogMessage` receives: the method has no result, so
nothing, unless the call panics. -/
def callerSees (r : Option (SeanLogger × World)) : Option Unit :=
  r.map fun _ => ()

/-- An environment like `envAt` in which a write to a file fails. -/
def envWriteFails (t : Int) (stamp : String) (err : Error) : Env :=
  { envAt t stamp with writeErr := some err }

/-- An environment like `envAt` in which `os.Remove` fails. -/
def envRemoveFails (t : Int) (stamp : String) (err : Error) : Env :=
  { envAt t stamp with removeErr := some err }

/-- A started writer (buffered writer and handle on `active.log`) whose
history is empty. -/
def emptyHistoryWriter : SeanLogger :=
  { fresh 0 1 5 with log := some ⟨"active.log"⟩, writer := some (NewWriter ⟨"active.log"⟩) }

/-- Clock readings that never go back and never overflow: the reading of each
call is not earlier than `stamp`, the reading of the call before it, and both
the difference and the duration accumulated from `dur` fit an `int64`. -/
def clocksOk (stamp dur : Int) : List Call → Prop
  | [] => True
  | c :: rest =>
    stamp ≤ c.1.now ∧ inI64 (c.1.now - stamp) ∧ inI64 (dur + (c.1.now - stamp)) ∧
      clocksOk c.1.now (dur + (c.1.now - stamp)) rest

instance clocksOkDecidable : (stamp dur : Int) → (calls : List Call) →
    Decidable (clocksOk stamp dur calls)
  | _, _, [] => isTrue trivial
  | stamp, dur, c :: rest =>
    have := clocksOkDecidable c.1.now (dur + (c.1.now - stamp)) rest
    by unfold clocksOk; infer_instance

/-- Scenario 2 after its first call: the duration bound of 5 seconds has been
reached at clock reading 106. -/
def scenario2Rotated : Option (SeanLogger × World) :=
  LogMessage scenario2Start.2.1 scenario2Start.2.2 (envAt 106 "-106") "hello"

/-- Three more calls for scenario 2, the second one meeting a failing
`os.Create`. -/
def scenario2Calls : List Call :=
  [(envAt 106 "-106b", "m1"), (envCreateFails 107 "-107" "disk full", "m2"),
   (envAt 110 "-110", "m3")]

/-- The writer and the file store after the first call of scenario 2. -/
def scenario2After : SeanLogger × World :=
  scenario2Rotated.getD (scenario2Start.2.1, scenario2Start.2.2)

/-- The fields of a started writer that steer rotation and pruning, spelled
out: the three bounds, the base name, the two counters, the history, the
duration, the time stamp and the name of the active file. -/
def Control (sl : SeanLogger) (maxFiles maxMessages : Nat) (maxDuration : Int)
    (base : String) (fileCount : Nat) (history : List String) (count : Nat)
    (duration stamp : Int) (active : String) : Prop :=
  sl.MaxLogFileCount = maxFiles ∧ sl.MaxLogMessageCount = maxMessages ∧
  sl.MaxLogDuration = maxDuration ∧ sl.baseLogName = base ∧
  sl.logFileCount = fileCount ∧ sl.logFileNames = history ∧
  sl.logMessageCount = count ∧ sl.logDuration = duration ∧ sl.logStamp = stamp ∧
  sl.log = some ⟨active⟩ ∧ ∃ b, sl.writer = some b


/-- The files after a successful rotation, before pruning: `new` is created
empty and the buffered bytes `buf` are written to the file `old`, the two
names being distinct. -/
def rotatedFiles (files : String → Option String) (old new buf : String) (n : String) :
    Option String :=
  if n = old then (files n).map (fun c => c ++ buf)
  else if n = new then some "" else files n

/-- A message of 5000 bytes, more than the buffer of the writer holds. -/
def longMessage : String := ⟨List.replicate 5000 'x'⟩

/-- A message of 2499 bytes: two of them, with their newlines, make 5000
bytes. -/
def halfMessage : String := ⟨List.replicate 2499 'x'⟩

/-! ## Basic facts about the file store and the buffered writer -/

theorem newFileCalls_append (s t : List Event) :
    newFileCalls (s ++ t) = newFileCalls s + newFileCalls t := by
  simp [newFileCalls]

theorem createdNames_append (s t : List Event) :
    createdNames (s ++ t) = createdNames s ++ createdNames t := by
  simp [createdNames, List.filterMap_append]

theorem removedNames_append (s t : List Event) :
    removedNames (s ++ t) = removedNames s ++ removedNames t := by
  simp [removedNames, List.filterMap_append]

theorem closedFiles_append (s t : List Event) :
    closedFiles (s ++ t) = closedFiles s ++ closedFiles t := by
  simp [closedFiles, List.filterMap_append]

theorem pruneFileCalls_append (s t : List Event) :
    pruneFileCalls (s ++ t) = pruneFileCalls s + pruneFileCalls t := by
  simp [pruneFileCalls]

theorem writtenBytes_append (name : String) (s t : List Event) :
    writtenBytes name (s ++ t) = writtenBytes name s ++ writtenBytes name t := by
  induction s with
  | nil => simp [writtenBytes]
  | cons e s ih =>
    cases e with
    | write n d ok =>
      cases ok with
      | true =>
        by_cases h : n = name
        · simp [writtenBytes, h, ih, String.append_assoc]
        · simp [writtenBytes, h, ih]
      | false => simp [writtenBytes, ih]
    | _ => simp [writtenBytes, ih]

/-- Quiet events change none of the observations. -/
theorem quiet_observed (evs : List Event) (h : ∀ e ∈ evs, quiet e) :
    newFileCalls evs = 0 ∧ pruneFileCalls evs = 0 ∧ createdNames evs = [] ∧
    removedNames evs = [] ∧ closedFiles evs = [] ∧
    .callNewFile ∉ evs := by
  induction evs with
  | nil => simp [newFileCalls, pruneFileCalls, createdNames, removedNames, closedFiles]
  | cons e evs ih =>
    obtain ⟨h1, h2, h3, h4, h5, h6⟩ := ih (fun e' he' => h e' (List.mem_cons_of_mem _ he'))
    unfold newFileCalls pruneFileCalls at *
    rcases h e (List.mem_cons_self _ _) with rfl | ⟨n, d, ok, rfl⟩
    · simp_all [createdNames, removedNames, closedFiles]
    · simp_all [createdNames, removedNames, closedFiles]

theorem takeBytes_append_dropBytes (n : Nat) (p : String) :
    takeBytes n p ++ dropBytes n p = p := by
  apply String.ext
  simp [takeBytes, dropBytes, String.data_append]

theorem eq_empty_of_length_eq_zero (s : String) (h : s.length = 0) : s = "" := by
  apply String.ext
  exact List.length_eq_zero.mp h

/-- What a write to a file does, whatever its outcome: one `write` event; no
file appears or disappears; the other files are untouched. -/
theorem fileWrite_spec (w : World) (env : Env) (f : File) (data : String) :
    (∃ ok, (fileWrite w env f data).2.trace = w.trace ++ [.write f.name data ok]) ∧
    (∀ n, n ≠ f.name → (fileWrite w env f data).2.files n = w.files n) ∧
    (∀ n, ((fileWrite w env f data).2.files n).isSome = (w.files n).isSome) := by
  cases h : env.writeErr with
  | some err => simp [fileWrite, h, World.emit]
  | none =>
    refine ⟨⟨true, by simp [fileWrite, h]⟩, ?_, ?_⟩
    · intro n hn
      simp [fileWrite, h, hn]
    · intro n
      by_cases hn : n = f.name <;> simp [fileWrite, h, hn]

/-- A write to a file that succeeds. -/
theorem fileWrite_ok (w : World) (env : Env) (f : File) (data : String)
    (h : env.writeErr = none) :
    (fileWrite w env f data).1 = none ∧
    (fileWrite w env f data).2.trace = w.trace ++ [.write f.name data true] ∧
    (fileWrite w env f data).2.files f.name = (w.files f.name).map (fun c => c ++ data) := by
  simp [fileWrite, h]

theorem Flush_of_err (w : World) (env : Env) (b : Writer) (err : Error)
    (hb : b.err = some err) : Flush w env b = (some err, b, w) := by
  simp only [Flush, hb]

theorem Flush_of_empty (w : World) (env : Env) (b : Writer)
    (hb : b.err = none) (hl : b.buf.length = 0) : Flush w env b = (none, b, w) := by
  simp only [Flush, hb, if_pos hl]

theorem Flush_of_data (w : World) (env : Env) (b : Writer)
    (hb : b.err = none) (hl : ¬ b.buf.length = 0) :
    Flush w env b =
      match fileWrite w env b.wr b.buf with
      | (some err, w1) => (some err, { b with err := some err }, w1)
      | (none, w1) => (none, { b with buf := "" }, w1) := by
  simp only [Flush, hb, if_neg hl]

/-- What `Flush` does, whatever its outcome. -/
theorem Flush_spec (w : World) (env : Env) (b : Writer) :
    (∃ evs, (Flush w env b).2.2.trace = w.trace ++ evs ∧ ∀ e ∈ evs, quiet e) ∧
    (Flush w env b).2.1.wr = b.wr ∧
    (∀ n, n ≠ b.wr.name → (Flush w env b).2.2.files n = w.files n) ∧
    (∀ n, ((Flush w env b).2.2.files n).isSome = (w.files n).isSome) := by
  obtain ⟨⟨ok, h1⟩, h2, h3⟩ := fileWrite_spec w env b.wr b.buf
  cases hb : b.err with
  | some err =>
    rw [Flush_of_err w env b err hb]
    exact ⟨⟨[], by simp⟩, rfl, fun _ _ => rfl, fun _ => rfl⟩
  | none =>
    by_cases hl : b.buf.length = 0
    · rw [Flush_of_empty w env b hb hl]
      exact ⟨⟨[], by simp⟩, rfl, fun _ _ => rfl, fun _ => rfl⟩
    · rw [Flush_of_data w env b hb hl]
      cases hf : fileWrite w env b.wr b.buf with
      | mk e w1 =>
        rw [hf] at h1 h2 h3
        have hq : ∀ e ∈ [Event.write b.wr.name b.buf ok], quiet e := by
          intro e he
          rw [List.mem_singleton] at he
          exact Or.inr ⟨_, _, _, he⟩
        cases e with
        | some err => exact ⟨⟨_, h1, hq⟩, rfl, h2, h3⟩
        | none => exact ⟨⟨_, h1, hq⟩, rfl, h2, h3⟩

/-- A `Flush` that succeeds: the buffered bytes are on the file. -/
theorem Flush_ok (w : World) (env : Env) (b : Writer)
    (hb : b.err = none) (hw : env.writeErr = none) :
    (Flush w env b).1 = none ∧
    (Flush w env b).2.2.files b.wr.name = (w.files b.wr.name).map (fun c => c ++ b.buf) ∧
    (∃ evs, (Flush w env b).2.2.trace = w.trace ++ evs ∧
      writtenBytes b.wr.name evs = b.buf) := by
  obtain ⟨h1, h2, h3⟩ := fileWrite_ok w env b.wr b.buf hw
  by_cases hl : b.buf.length = 0
  · have hempty := eq_empty_of_length_eq_zero _ hl
    rw [Flush_of_empty w env b hb hl]
    refine ⟨rfl, ?_, [], by simp, ?_⟩
    · rw [hempty]
      cases w.files b.wr.name <;> simp
    · rw [hempty]; rfl
  · rw [Flush_of_data w env b hb hl]
    cases hf : fileWrite w env b.wr b.buf with
    | mk e w1 =>
      rw [hf] at h1 h2 h3
      simp only at h1
      subst h1
      exact ⟨rfl, h3, _, h2, by simp [writtenBytes]⟩

theorem Write_of_err (w : World) (env : Env) (b : Writer) (p : String) (err : Error)
    (hb : b.err = some err) : Writer.Write w env b p = (some err, b, w) := by
  simp only [Writer.Write, hb]

theorem Write_fits (w : World) (env : Env) (b : Writer) (p : String)
    (hb : b.err = none) (hfit : p.length ≤ defaultBufSize - b.buf.length) :
    Writer.Write w env b p = (none, { b with buf := b.buf ++ p }, w) := by
  simp only [Writer.Write, hb, if_pos hfit]

theorem Write_direct (w : World) (env : Env) (b : Writer) (p : String)
    (hb : b.err = none) (hfit : ¬ p.length ≤ defaultBufSize - b.buf.length)
    (hl : b.buf.length = 0) :
    Writer.Write w env b p =
      match fileWrite w env b.wr p with
      | (some err, w1) => (some err, { b with err := some err }, w1)
      | (none, w1) => (none, b, w1) := by
  simp only [Writer.Write, hb, if_neg hfit, if_pos hl]

theorem Write_fill (w : World) (env : Env) (b : Writer) (p : String)
    (hb : b.err = none) (hfit : ¬ p.length ≤ defaultBufSize - b.buf.length)
    (hl : ¬ b.buf.length = 0) :
    Writer.Write w env b p =
      match Flush w env
          { b with buf := b.buf ++ takeBytes (defaultBufSize - b.buf.length) p } with
      | (some err, b1, w1) => (some err, b1, w1)
      | (none, b1, w1) =>
        if (dropBytes (defaultBufSize - b.buf.length) p).length ≤ defaultBufSize then
          (none, { b1 with buf := dropBytes (defaultBufSize - b.buf.length) p }, w1)
        else
          match fileWrite w1 env b.wr (dropBytes (defaultBufSize - b.buf.length) p) with
          | (some err, w2) => (some err, { b1 with err := some err }, w2)
          | (none, w2) => (none, b1, w2) := by
  simp only [Writer.Write, hb, if_neg hfit, if_neg hl]

/-- What `Write` on the buffered writer does, whatever its outcome: its events
are writes; the handle stays; no file appears or disappears; the files other
than the writer's are untouched. -/
theorem Write_spec (w : World) (env : Env) (b : Writer) (p : String) :
    (∃ evs, (Writer.Write w env b p).2.2.trace = w.trace ++ evs ∧ ∀ e ∈ evs, quiet e) ∧
    (Writer.Write w env b p).2.1.wr = b.wr ∧
    (∀ n, n ≠ b.wr.name → (Writer.Write w env b p).2.2.files n = w.files n) ∧
    (∀ n, ((Writer.Write w env b p).2.2.files n).isSome = (w.files n).isSome) := by
  have hq1 : ∀ (x d : String) (ok : Bool), ∀ e ∈ [Event.write x d ok], quiet e := by
    intro x d ok e he
    rw [List.mem_singleton] at he
    exact Or.inr ⟨_, _, _, he⟩
  cases hb : b.err with
  | some err =>
    rw [Write_of_err w env b p err hb]
    exact ⟨⟨[], by simp⟩, rfl, fun _ _ => rfl, fun _ => rfl⟩
  | none =>
    by_cases hfit : p.length ≤ defaultBufSize - b.buf.length
    · rw [Write_fits w env b p hb hfit]
      exact ⟨⟨[], by simp⟩, rfl, fun _ _ => rfl, fun _ => rfl⟩
    · by_cases hl : b.buf.length = 0
      · rw [Write_direct w env b p hb hfit hl]
        obtain ⟨⟨ok, h1⟩, h2, h3⟩ := fileWrite_spec w env b.wr p
        cases hf : fileWrite w env b.wr p with
        | mk e w1 =>
          rw [hf] at h1 h2 h3
          cases e with
          | some err => exact ⟨⟨_, h1, hq1 _ _ _⟩, rfl, h2, h3⟩
          | none => exact ⟨⟨_, h1, hq1 _ _ _⟩, rfl, h2, h3⟩
      · rw [Write_fill w env b p hb hfit hl]
        obtain ⟨⟨evs, h1, hq⟩, hwr, h2, h3⟩ := Flush_spec w env
          { b with buf := b.buf ++ takeBytes (defaultBufSize - b.buf.length) p }
        cases hf : Flush w env
            { b with buf := b.buf ++ takeBytes (defaultBufSize - b.buf.length) p } with
        | mk e r =>
          obtain ⟨b1, w1⟩ := r
          rw [hf] at h1 hwr h2 h3
          simp only at h1 hwr h2 h3
          cases e with
          | some err => exact ⟨⟨evs, h1, hq⟩, hwr, h2, h3⟩
          | none =>
            simp only
            split
            · exact ⟨⟨evs, h1, hq⟩, hwr, h2, h3⟩
            · obtain ⟨⟨ok, g1⟩, g2, g3⟩ := fileWrite_spec w1 env b.wr
                (dropBytes (defaultBufSize - b.buf.length) p)
              have hq' : ∀ e ∈ evs ++ [Event.write b.wr.name
                  (dropBytes (defaultBufSize - b.buf.length) p) ok], quiet e := by
                intro e he
                rcases List.mem_append.mp he with h | h
                · exact hq e h
                · exact hq1 _ _ _ e h
              cases hg : fileWrite w1 env b.wr (dropBytes (defaultBufSize - b.buf.length) p) with
              | mk e2 w2 =>
                rw [hg] at g1 g2 g3
                simp only at g1 g2 g3
                have htr : w2.trace = w.trace ++ (evs ++ [Event.write b.wr.name
                    (dropBytes (defaultBufSize - b.buf.length) p) ok]) := by
                  rw [g1, h1, List.append_assoc]
                have hoth : ∀ n, n ≠ b.wr.name → w2.files n = w.files n :=
                  fun n hn => (g2 n hn).trans (h2 n hn)
                have hsome : ∀ n, (w2.files n).isSome = (w.files n).isSome :=
                  fun n => (g3 n).trans (h3 n)
                cases e2 with
                | some err => exact ⟨⟨_, htr, hq'⟩, hwr, hoth, hsome⟩
                | none => exact ⟨⟨_, htr, hq'⟩, hwr, hoth, hsome⟩

/-- A `Write` on the buffered writer that succeeds: the bytes written to the
file by it, followed by the bytes left in the buffer, are the bytes buffered
before followed by the new ones; the same holds of the file itself. -/
theorem Write_ok (w : World) (env : Env) (b : Writer) (p : String)
    (hb : b.err = none) (hw : env.writeErr = none) :
    (Writer.Write w env b p).1 = none ∧ (Writer.Write w env b p).2.1.err = none ∧
    ((Writer.Write w env b p).2.2.files b.wr.name).map
        (fun c => c ++ (Writer.Write w env b p).2.1.buf)
      = (w.files b.wr.name).map (fun c => c ++ (b.buf ++ p)) ∧
    (∃ evs, (Writer.Write w env b p).2.2.trace = w.trace ++ evs ∧
      writtenBytes b.wr.name evs ++ (Writer.Write w env b p).2.1.buf = b.buf ++ p) := by
  by_cases hfit : p.length ≤ defaultBufSize - b.buf.length
  · rw [Write_fits w env b p hb hfit]
    exact ⟨rfl, hb, rfl, [], by simp, by simp [writtenBytes]⟩
  · by_cases hl : b.buf.length = 0
    · rw [Write_direct w env b p hb hfit hl]
      have hempty := eq_empty_of_length_eq_zero _ hl
      obtain ⟨h1, h2, h3⟩ := fileWrite_ok w env b.wr p hw
      cases hf : fileWrite w env b.wr p with
      | mk e w1 =>
        rw [hf] at h1 h2 h3
        simp only at h1 h2 h3
        subst h1
        refine ⟨rfl, hb, ?_, _, h2, ?_⟩
        · simp only [h3, hempty, Option.map_map]
          cases w.files b.wr.name <;> simp [Function.comp]
        · simp [writtenBytes, hempty]
    · rw [Write_fill w env b p hb hfit hl]
      have hne : ¬ (b.buf ++ takeBytes (defaultBufSize - b.buf.length) p).length = 0 := by
        rw [String.length_append]; omega
      have hF := Flush_of_data w env
        { b with buf := b.buf ++ takeBytes (defaultBufSize - b.buf.length) p } hb hne
      obtain ⟨h1, h2, h3⟩ := fileWrite_ok w env b.wr
        (b.buf ++ takeBytes (defaultBufSize - b.buf.length) p) hw
      rw [hF]
      cases hf : fileWrite w env b.wr
          (b.buf ++ takeBytes (defaultBufSize - b.buf.length) p) with
      | mk e w1 =>
        rw [hf] at h1 h2 h3
        simp only at h1 h2 h3
        subst h1
        simp only
        have hsplit : b.buf ++ takeBytes (defaultBufSize - b.buf.length) p ++
            dropBytes (defaultBufSize - b.buf.length) p = b.buf ++ p := by
          rw [String.append_assoc, takeBytes_append_dropBytes]
        split
        · refine ⟨rfl, hb, ?_, _, h2, ?_⟩
          · simp only [h3, Option.map_map]
            cases w.files b.wr.name <;> simp [Function.comp, String.append_assoc, ← hsplit]
          · simp [writtenBytes, hsplit]
        · obtain ⟨g1, g2, g3⟩ := fileWrite_ok w1 env b.wr
            (dropBytes (defaultBufSize - b.buf.length) p) hw
          cases hg : fileWrite w1 env b.wr (dropBytes (defaultBufSize - b.buf.length) p) with
          | mk e2 w2 =>
            rw [hg] at g1 g2 g3
            simp only at g1 g2 g3
            subst g1
            refine ⟨rfl, hb, ?_, _, by rw [g2, h2, List.append_assoc], ?_⟩
            · simp only [g3, h3, Option.map_map]
              cases w.files b.wr.name <;> simp [Function.comp, String.append_assoc, ← hsplit]
            · simp [writtenBytes, hsplit]

/-! ## Basic facts about the methods -/

theorem newFile_create_fails (sl : SeanLogger) (w : World) (env : Env) (err : Error)
    (hc : env.createErr = some err) :
    newFile sl w env = some (some err, sl,
      (w.emit .callNewFile).emit
        (.create (env.TimeStampFileName sl.baseLogName LOG_EXTENSION) false)) := by
  simp [newFile, osCreate, hc]

theorem newFile_no_prune (sl : SeanLogger) (w : World) (env : Env) (b : Writer)
    (hc : env.createErr = none) (hb : sl.writer = some b)
    (hp : ¬ wrapU64 (sl.logFileCount + 1) ≥ sl.MaxLogFileCount) :
    newFile sl w env = some (none,
      rotated sl (env.TimeStampFileName sl.baseLogName LOG_EXTENSION),
      rotatedWorld sl w env b) := by
  simp only [newFile, osCreate, hc, hb, rotated, rotatedWorld]
  rw [if_neg hp]

theorem newFile_prune (sl : SeanLogger) (w : World) (env : Env) (b : Writer)
    (x : String) (rest : List String)
    (hc : env.createErr = none) (hb : sl.writer = some b)
    (hp : wrapU64 (sl.logFileCount + 1) ≥ sl.MaxLogFileCount)
    (hx : sl.logFileNames ++ [env.TimeStampFileName sl.baseLogName LOG_EXTENSION] = x :: rest) :
    newFile sl w env = some (env.removeErr,
      { rotated sl (env.TimeStampFileName sl.baseLogName LOG_EXTENSION) with
        logFileNames := rest },
      (osRemove (((rotatedWorld sl w env b).emit .callPruneFile).emit
        (.stdout ("Deleting oldest log file: %v " ++ x ++ "\n"))) env x).2) := by
  simp only [newFile, osCreate, hc, hb, rotated, rotatedWorld]
  rw [if_pos hp]
  simp only [pruneFile, hx, osRemove]
  cases env.removeErr <;> rfl

theorem osRemove_trace (w : World) (env : Env) (x : String) :
    ∃ ok, (osRemove w env x).2.trace = w.trace ++ [.remove x ok] := by
  cases h : env.removeErr <;> simp [osRemove, h, World.emit]

/-- The events of a rotation after the creation has succeeded, up to the
pruning test: the entry of `newFile` and the creation, then writes and at most
the closing of the old file. -/
theorem rotatedWorld_trace (sl : SeanLogger) (w : World) (env : Env) (b : Writer)
    (hc : env.createErr = none) :
    ∃ evs, (rotatedWorld sl w env b).trace =
      w.trace ++ [.callNewFile,
        .create (env.TimeStampFileName sl.baseLogName LOG_EXTENSION) true] ++ evs ∧
      (∀ e ∈ evs, quiet e ∨ ∃ n c, e = .close n c) := by
  obtain ⟨⟨evs, h1, hq⟩, -, -, -⟩ := Flush_spec
    (osCreate (w.emit .callNewFile) env
      (env.TimeStampFileName sl.baseLogName LOG_EXTENSION)).2 env b
  have h0 : (osCreate (w.emit .callNewFile) env
      (env.TimeStampFileName sl.baseLogName LOG_EXTENSION)).2.trace =
      w.trace ++ [.callNewFile,
        .create (env.TimeStampFileName sl.baseLogName LOG_EXTENSION) true] := by
    simp [osCreate, hc, World.emit]
  rw [h0] at h1
  cases hl : sl.log with
  | none =>
    refine ⟨evs, ?_, fun e he => Or.inl (hq e he)⟩
    unfold rotatedWorld
    rw [hl]
    simp only [Close]
    exact h1
  | some f =>
    refine ⟨evs ++ [.close f.name ((Flush (osCreate (w.emit .callNewFile) env
      (env.TimeStampFileName sl.baseLogName LOG_EXTENSION)).2 env b).2.2.files f.name)],
      ?_, ?_⟩
    · unfold rotatedWorld
      rw [hl]
      simp only [Close]
      show (Flush (osCreate (w.emit Event.callNewFile) env _).2 env b).2.2.trace ++ [_] = _
      rw [h1, List.append_assoc]
    · intro e he
      rcases List.mem_append.mp he with h | h
      · exact Or.inl (hq e h)
      · rw [List.mem_singleton] at h
        exact Or.inr ⟨_, _, h⟩

/-- Writes and closings change none of the counts and name lists. -/
theorem calm_observed (evs : List Event)
    (h : ∀ e ∈ evs, quiet e ∨ ∃ n c, e = Event.close n c) :
    newFileCalls evs = 0 ∧ pruneFileCalls evs = 0 ∧ createdNames evs = [] ∧
    removedNames evs = [] ∧ .callNewFile ∉ evs := by
  induction evs with
  | nil => simp [newFileCalls, pruneFileCalls, createdNames, removedNames]
  | cons e evs ih =>
    obtain ⟨h1, h2, h3, h4, h5⟩ := ih (fun e' he' => h e' (List.mem_cons_of_mem _ he'))
    unfold newFileCalls pruneFileCalls at *
    rcases h e (List.mem_cons_self _ _) with (rfl | ⟨n, d, ok, rfl⟩) | ⟨n, c, rfl⟩
    · simp_all [createdNames, removedNames]
    · simp_all [createdNames, removedNames]
    · simp_all [createdNames, removedNames]

/-- The counts and name lists after a rotation whose creation has succeeded,
up to the pruning test. -/
theorem rotatedWorld_observed (sl : SeanLogger) (w : World) (env : Env) (b : Writer)
    (hc : env.createErr = none) :
    pruneFileCalls (rotatedWorld sl w env b).trace = pruneFileCalls w.trace ∧
    removedNames (rotatedWorld sl w env b).trace = removedNames w.trace ∧
    createdNames (rotatedWorld sl w env b).trace =
      createdNames w.trace ++ [env.TimeStampFileName sl.baseLogName LOG_EXTENSION] ∧
    newFileCalls (rotatedWorld sl w env b).trace = newFileCalls w.trace + 1 := by
  obtain ⟨evs, htr, hevs⟩ := rotatedWorld_trace sl w env b hc
  obtain ⟨h1, h2, h3, h4, -⟩ := calm_observed evs hevs
  rw [htr]
  refine ⟨?_, ?_, ?_, ?_⟩
  · rw [pruneFileCalls_append, pruneFileCalls_append, h2]; simp [pruneFileCalls]
  · rw [removedNames_append, removedNames_append, h4]; simp [removedNames]
  · rw [createdNames_append, createdNames_append, h3]; simp [createdNames]
  · rw [newFileCalls_append, newFileCalls_append, h1]; simp [newFileCalls]

/-- The result of `LogMessage` on a started writer, in terms of the `Write` on
the buffered writer and of `newFile`. -/
theorem LogMessage_written (sl : SeanLogger) (w : World) (env : Env) (message : String)
    (b : Writer) (hb : sl.writer = some b) :
    LogMessage sl w env message =
      if wrapU64 (sl.logMessageCount + 1) ≥ sl.MaxLogMessageCount ∨
          wrapI64 (sl.logDuration + wrapI64 (env.now - sl.logStamp)) ≥ sl.MaxLogDuration then
        (newFile
          (logged sl env (Writer.Write (w.emit .callLogMessage) env b (message ++ "\n")).2.1)
          (Writer.Write (w.emit .callLogMessage) env b (message ++ "\n")).2.2
          env).map fun r => (r.2.1, r.2.2)
      else
        some (logged sl env (Writer.Write (w.emit .callLogMessage) env b (message ++ "\n")).2.1,
          (Writer.Write (w.emit .callLogMessage) env b (message ++ "\n")).2.2) := by
  simp only [LogMessage, Fprintln, hb, logged]
  cases Writer.Write (w.emit .callLogMessage) env b (message ++ "\n") with
  | mk e r =>
    obtain ⟨b', w1⟩ := r
    simp only
    split
    · cases newFile _ w1 env <;> rfl
    · rfl

/-- Quiet events appended to a trace change none of the counts and name
lists. -/
theorem quiet_trace (t evs : List Event) (h : ∀ e ∈ evs, quiet e) :
    newFileCalls (t ++ evs) = newFileCalls t ∧ pruneFileCalls (t ++ evs) = pruneFileCalls t ∧
    createdNames (t ++ evs) = createdNames t ∧ removedNames (t ++ evs) = removedNames t ∧
    closedFiles (t ++ evs) = closedFiles t := by
  obtain ⟨h1, h2, h3, h4, h5, -⟩ := quiet_observed evs h
  rw [newFileCalls_append, pruneFileCalls_append, createdNames_append, removedNames_append,
    closedFiles_append, h1, h2, h3, h4, h5]
  simp

/-- The first half of `LogMessage` on a started writer: the writer `b'` and the
file store `w1` after the write.  Up to there events were only added, none of
the counts and name lists has changed, the handle stays, no file appears or
disappears and the files other than the writer's are untouched. -/
theorem LogMessage_started (sl : SeanLogger) (w : World) (env : Env) (message : String)
    (b : Writer) (hb : sl.writer = some b) :
    ∃ b' w1,
      (∃ evs, w1.trace = w.trace ++ evs) ∧
      (newFileCalls w1.trace = newFileCalls w.trace ∧
        pruneFileCalls w1.trace = pruneFileCalls w.trace ∧
        createdNames w1.trace = createdNames w.trace ∧
        removedNames w1.trace = removedNames w.trace ∧
        closedFiles w1.trace = closedFiles w.trace) ∧
      b'.wr = b.wr ∧
      (∀ n, (w1.files n).isSome = (w.files n).isSome) ∧
      (∀ n, n ≠ b.wr.name → w1.files n = w.files n) ∧
      LogMessage sl w env message =
        if wrapU64 (sl.logMessageCount + 1) ≥ sl.MaxLogMessageCount ∨
            wrapI64 (sl.logDuration + wrapI64 (env.now - sl.logStamp)) ≥ sl.MaxLogDuration then
          (newFile (logged sl env b') w1 env).map fun r => (r.2.1, r.2.2)
        else some (logged sl env b', w1) := by
  obtain ⟨⟨evs, h1, hq⟩, hwr, hoth, hsome⟩ :=
    Write_spec (w.emit .callLogMessage) env b (message ++ "\n")
  have htr : (Writer.Write (w.emit .callLogMessage) env b (message ++ "\n")).2.2.trace
      = w.trace ++ (.callLogMessage :: evs) := by
    rw [h1]
    simp [World.emit]
  have hq' : ∀ e ∈ Event.callLogMessage :: evs, quiet e := by
    intro e he
    rcases List.mem_cons.mp he with h | h
    · exact Or.inl h
    · exact hq e h
  refine ⟨_, _, ⟨_, htr⟩, ?_, hwr, hsome, hoth, LogMessage_written sl w env message b hb⟩
  rw [htr]
  exact quiet_trace w.trace _ hq'

/-- The events of one `newFile` call on a started writer: its own entry mark
followed by events among which there is no entry of `newFile`. -/
theorem newFile_trace (sl : SeanLogger) (w : World) (env : Env) (b : Writer)
    (hb : sl.writer = some b) :
    ∃ e sl' w' evs, newFile sl w env = some (e, sl', w') ∧
      w'.trace = w.trace ++ .callNewFile :: evs ∧
      .callNewFile ∉ evs := by
  cases hc : env.createErr with
  | some err =>
    refine ⟨_, _, _, [.create (env.TimeStampFileName sl.baseLogName LOG_EXTENSION) false],
      newFile_create_fails sl w env err hc, by simp [World.emit], by simp⟩
  | none =>
    obtain ⟨evs, htr, hevs⟩ := rotatedWorld_trace sl w env b hc
    obtain ⟨-, -, -, -, hno⟩ := calm_observed evs hevs
    by_cases hp : wrapU64 (sl.logFileCount + 1) ≥ sl.MaxLogFileCount
    · obtain ⟨x, rest, hx⟩ : ∃ x rest,
          sl.logFileNames ++ [env.TimeStampFileName sl.baseLogName LOG_EXTENSION] = x :: rest := by
        cases hl : sl.logFileNames with
        | nil => exact ⟨_, [], rfl⟩
        | cons y ys => exact ⟨y, _, rfl⟩
      obtain ⟨ok, hrm⟩ := osRemove_trace (((rotatedWorld sl w env b).emit .callPruneFile).emit
        (.stdout ("Deleting oldest log file: %v " ++ x ++ "\n"))) env x
      refine ⟨_, _, _,
        [.create (env.TimeStampFileName sl.baseLogName LOG_EXTENSION) true] ++ evs ++
          [.callPruneFile, .stdout ("Deleting oldest log file: %v " ++ x ++ "\n"),
            .remove x ok],
        newFile_prune sl w env b x rest hc hb hp hx, ?_, ?_⟩
      · rw [hrm]
        simp [World.emit, htr]
      · simp only [List.mem_cons, List.mem_append, not_or]
        refine ⟨⟨⟨by simp, by simp⟩, hno⟩, by simp, by simp, by simp, by simp⟩
    · refine ⟨_, _, _,
        [.create (env.TimeStampFileName sl.baseLogName LOG_EXTENSION) true] ++ evs,
        newFile_no_prune sl w env b hc hb hp, ?_, ?_⟩
      · rw [htr]
        simp
      · simp only [List.mem_cons, List.mem_append, not_or]
        exact ⟨⟨by simp, by simp⟩, hno⟩

theorem wrapU64_of_lt (n : Nat) (h : n < 2 ^ 64) : wrapU64 n = n :=
  Nat.mod_eq_of_lt h

theorem wrapI64_of_inI64 (z : Int) (h : inI64 z) : wrapI64 z = z := by
  unfold inI64 at h
  unfold wrapI64
  rw [Int.emod_eq_of_lt (by omega) (by omega)]
  omega


/-! ## The rotation test -/

/-- C1: on a started writer `LogMessage` returns, and it enters `newFile`
exactly once when the updated message count has reached `MaxLogMessageCount` or
the updated duration has reached `MaxLogDuration`, and not at all otherwise.
The updated fields are `logMessageCount + 1` and
`logDuration + (now - logStamp)` in the machine arithmetic of their types;
without overflow these are the plain sum and difference. -/
theorem LogMessage_rotates_iff (sl : SeanLogger) (w : World) (env : Env) (message : String)
    (h : Started sl) :
    ∃ sl' w', LogMessage sl w env message = some (sl', w') ∧
      newFileCalls w'.trace = newFileCalls w.trace +
        (if wrapU64 (sl.logMessageCount + 1) ≥ sl.MaxLogMessageCount ∨
            wrapI64 (sl.logDuration + wrapI64 (env.now - sl.logStamp)) ≥ sl.MaxLogDuration
          then 1 else 0) ∧
      (sl.logMessageCount + 1 < 2 ^ 64 → inI64 (env.now - sl.logStamp) →
        inI64 (sl.logDuration + (env.now - sl.logStamp)) →
        newFileCalls w'.trace = newFileCalls w.trace +
          (if sl.logMessageCount + 1 ≥ sl.MaxLogMessageCount ∨
              sl.logDuration + (env.now - sl.logStamp) ≥ sl.MaxLogDuration
            then 1 else 0)) := by
  unfold Started at h
  obtain ⟨b, hb⟩ := Option.isSome_iff_exists.mp h
  obtain ⟨b', w1, -, ⟨hnf1, -, -, -, -⟩, -, -, -, hLM⟩ :=
    LogMessage_started sl w env message b hb
  have key : ∃ sl' w', LogMessage sl w env message = some (sl', w') ∧
      newFileCalls w'.trace = newFileCalls w.trace +
        (if wrapU64 (sl.logMessageCount + 1) ≥ sl.MaxLogMessageCount ∨
            wrapI64 (sl.logDuration + wrapI64 (env.now - sl.logStamp)) ≥ sl.MaxLogDuration
          then 1 else 0) := by
    by_cases hcond : wrapU64 (sl.logMessageCount + 1) ≥ sl.MaxLogMessageCount ∨
        wrapI64 (sl.logDuration + wrapI64 (env.now - sl.logStamp)) ≥ sl.MaxLogDuration
    · obtain ⟨e, sl', w', evs, hnf, htr', hn1⟩ :=
        newFile_trace (logged sl env b') w1 env b' rfl
      refine ⟨sl', w', ?_, ?_⟩
      · rw [hLM, if_pos hcond, hnf]
        rfl
      · rw [if_pos hcond, htr', newFileCalls_append, hnf1]
        have : newFileCalls (Event.callNewFile :: evs) = 1 := by
          simp [newFileCalls, List.count_cons, List.count_eq_zero_of_not_mem hn1]
        rw [this]
    · refine ⟨logged sl env b', w1, ?_, ?_⟩
      · rw [hLM, if_neg hcond]
      · rw [if_neg hcond, hnf1]
        rfl
  obtain ⟨sl', w', h1, h2⟩ := key
  refine ⟨sl', w', h1, h2, ?_⟩
  intro hn hd1 hd2
  rw [h2, wrapU64_of_lt _ hn, wrapI64_of_inI64 _ hd1, wrapI64_of_inI64 _ hd2]

/-- Scenario 2 of C1: `MaxLogDuration = 5`, the writer is started at clock
reading 100 and the first message arrives at 106: `newFile` is entered on that
call although the message count is only 1, far below its bound of 1000. -/
theorem LogMessage_rotates_iff_witness :
    Started scenario2Start.2.1 ∧
    (∃ sl' w', LogMessage scenario2Start.2.1 scenario2Start.2.2 (envAt 106 "-106") "hello"
        = some (sl', w') ∧
      newFileCalls w'.trace = newFileCalls scenario2Start.2.2.trace + 1) := by
  refine ⟨by decide, ?_⟩
  obtain ⟨sl', w', h1, -, h3⟩ := LogMessage_rotates_iff scenario2Start.2.1 scenario2Start.2.2
    (envAt 106 "-106") "hello" (by decide)
  refine ⟨sl', w', h1, ?_⟩
  rw [h3 (by decide) (by decide) (by decide)]
  decide

/-! ## `StartLog` -/

/-- C7: when `os.Create` fails, `StartLog` returns that very error and the
writer it leaves is the writer it was given, equal in every field
(`baseLogName`, `logFileCount`, `logMessageCount`, `logDuration`, `logStamp`,
`log`, `writer`, `logFileNames` and the three bounds); the file store holds the
same files as before. -/
theorem StartLog_create_fails (sl : SeanLogger) (w : World) (env : Env)
    (logBaseName : String) (err : Error) (h : env.createErr = some err) :
    (StartLog sl w env logBaseName).1 = some err ∧
    (StartLog sl w env logBaseName).2.1 = sl ∧
    (StartLog sl w env logBaseName).2.2.files = w.files := by
  simp [StartLog, osCreate, h, World.emit]

/-- C7 at a concrete input: a fresh writer, `os.Create` answers
"permission denied". -/
theorem StartLog_create_fails_witness :
    (envCreateFails 100 "-100" "permission denied").createErr = some "permission denied" ∧
    (StartLog (fresh 2 3 5) noFiles (envCreateFails 100 "-100" "permission denied") "app").1
      = some "permission denied" ∧
    (StartLog (fresh 2 3 5) noFiles (envCreateFails 100 "-100" "permission denied") "app").2.1
      = fresh 2 3 5 ∧
    (StartLog (fresh 2 3 5) noFiles (envCreateFails 100 "-100" "permission denied") "app").2.2.files
      = noFiles.files :=
  ⟨rfl, StartLog_create_fails (fresh 2 3 5) noFiles
    (envCreateFails 100 "-100" "permission denied") "app" "permission denied" rfl⟩

/-- C8: when `os.Create` succeeds, `StartLog` returns no error; afterwards
`baseLogName` is the given base name, `logFileCount` and `logDuration` are 0,
`logStamp` is the clock reading, `log` is the handle `os.Create` returned with
a new buffered writer on it, and `logFileNames` is the former history with the
generated file name appended at the tail.  The file of that name exists and is
empty. -/
theorem StartLog_create_succeeds (sl : SeanLogger) (w : World) (env : Env)
    (logBaseName : String) (h : env.createErr = none) :
    (StartLog sl w env logBaseName).1 = none ∧
    (StartLog sl w env logBaseName).2.1.baseLogName = logBaseName ∧
    (StartLog sl w env logBaseName).2.1.logFileCount = 0 ∧
    (StartLog sl w env logBaseName).2.1.logDuration = 0 ∧
    (StartLog sl w env logBaseName).2.1.logStamp = env.now ∧
    (∃ filePtr,
      (osCreate w env (env.TimeStampFileName logBaseName LOG_EXTENSION)).1 = .ok filePtr ∧
      (StartLog sl w env logBaseName).2.1.log = some filePtr ∧
      (StartLog sl w env logBaseName).2.1.writer = some (NewWriter filePtr)) ∧
    (StartLog sl w env logBaseName).2.1.logFileNames =
      sl.logFileNames ++ [env.TimeStampFileName logBaseName LOG_EXTENSION] ∧
    (StartLog sl w env logBaseName).2.2.files
      (env.TimeStampFileName logBaseName LOG_EXTENSION) = some "" := by
  simp [StartLog, osCreate, h]

/-- C8 at a concrete input: a writer that already has a history is started
again at clock reading 100. -/
theorem StartLog_create_succeeds_witness :
    (envAt 100 "-100").createErr = none ∧
    (StartLog { fresh 2 3 5 with logFileNames := ["old.log"], logFileCount := 7 } noFiles
        (envAt 100 "-100") "app").2.1.logFileNames = ["old.log", "app-100.log"] ∧
    (StartLog { fresh 2 3 5 with logFileNames := ["old.log"], logFileCount := 7 } noFiles
        (envAt 100 "-100") "app").2.1.logFileCount = 0 :=
  ⟨rfl,
    (StartLog_create_succeeds { fresh 2 3 5 with logFileNames := ["old.log"], logFileCount := 7 }
      noFiles (envAt 100 "-100") "app" rfl).2.2.2.2.2.2.1,
    (StartLog_create_succeeds { fresh 2 3 5 with logFileNames := ["old.log"], logFileCount := 7 }
      noFiles (envAt 100 "-100") "app" rfl).2.2.1⟩

/-! ## Runs -/

theorem run_nil (sl : SeanLogger) (w : World) : run sl w [] = some (sl, w) := rfl

theorem run_cons (sl : SeanLogger) (w : World) (c : Call) (rest : List Call) :
    run sl w (c :: rest) =
      (LogMessage sl w c.1 c.2).bind fun p => run p.1 p.2 rest := by
  unfold run
  simp only [List.foldl_cons, Option.some_bind]
  cases LogMessage sl w c.1 c.2 with
  | some p => rfl
  | none =>
    simp only [Option.none_bind]
    induction rest with
    | nil => rfl
    | cons d ds ih => simpa using ih

theorem run_concat (sl : SeanLogger) (w : World) (calls : List Call) (c : Call) :
    run sl w (calls ++ [c]) = (run sl w calls).bind fun p => LogMessage p.1 p.2 c.1 c.2 := by
  simp [run, List.foldl_append]

/-- Induction along a run: a property of the calls made so far, the writer and
the file store that holds at the start and is carried over by every call holds
at the end, and the run does not panic. -/
theorem run_induction (P : List Call → SeanLogger → World → Prop)
    (sl0 : SeanLogger) (w0 : World) (calls : List Call)
    (h0 : P [] sl0 w0)
    (hstep : ∀ pre c sl w, pre ++ [c] <+: calls → run sl0 w0 pre = some (sl, w) → P pre sl w →
      ∃ sl' w', LogMessage sl w c.1 c.2 = some (sl', w') ∧ P (pre ++ [c]) sl' w') :
    ∃ sl w, run sl0 w0 calls = some (sl, w) ∧ P calls sl w := by
  induction calls using List.reverseRecOn with
  | nil => exact ⟨sl0, w0, rfl, h0⟩
  | append_singleton pre c ih =>
    obtain ⟨sl, w, hrun, hP⟩ := ih (fun pre' c' sl w hpre hr hp =>
      hstep pre' c' sl w (hpre.trans (List.prefix_append _ _)) hr hp)
    obtain ⟨sl', w', hLM, hP'⟩ := hstep pre c sl w (List.prefix_refl _) hrun hP
    exact ⟨sl', w', by rw [run_concat, hrun]; exact hLM, hP'⟩

theorem last_mem_of_isPrefix {α : Type} (pre : List α) (c : α) (calls : List α)
    (h : pre ++ [c] <+: calls) : c ∈ calls := by
  obtain ⟨t, rfl⟩ := h
  simp

/-! ## Messages that do not fit the buffer -/

theorem longMessage_length : (longMessage ++ "\n").length = 5001 := by
  have h : longMessage.length = 5000 := by
    unfold longMessage
    rw [String.length_mk, List.length_replicate]
  rw [String.length_append, h]
  rfl

theorem halfMessage_length : (halfMessage ++ "\n").length = 2500 := by
  have h : halfMessage.length = 2499 := by
    unfold halfMessage
    rw [String.length_mk, List.length_replicate]
  rw [String.length_append, h]
  rfl

theorem takeBytes_length (n : Nat) (s : String) : (takeBytes n s).length = min n s.length := by
  show (List.take n s.data).length = min n s.data.length
  exact List.length_take n s.data

theorem dropBytes_length (n : Nat) (s : String) : (dropBytes n s).length = s.length - n := by
  show (List.drop n s.data).length = s.data.length - n
  exact List.length_drop n s.data

/-- Bytes that do not fit the empty buffer go to the file at once. -/
theorem Write_through (w : World) (env : Env) (b : Writer) (p : String)
    (herr : b.err = none) (hbuf : b.buf = "")
    (hlong : defaultBufSize < p.length) (hw : env.writeErr = none) :
    Writer.Write w env b p =
      (none, b,
        ⟨fun n => if n = b.wr.name then (w.files n).map (fun c => c ++ p) else w.files n,
          w.trace ++ [.write b.wr.name p true]⟩) := by
  have hl : b.buf.length = 0 := by rw [hbuf]; rfl
  rw [Write_direct _ env b _ herr (by rw [hl]; simpa using hlong) hl]
  simp [fileWrite, hw]

/-- Bytes that do not fit the rest of a buffer in use fill it up; the full
buffer goes to the file and the remaining bytes, when they fit, are
buffered. -/
theorem Write_overflow (w : World) (env : Env) (b : Writer) (p : String)
    (herr : b.err = none) (hl : ¬ b.buf.length = 0)
    (hfit : ¬ p.length ≤ defaultBufSize - b.buf.length)
    (hrest : (dropBytes (defaultBufSize - b.buf.length) p).length ≤ defaultBufSize)
    (hw : env.writeErr = none) :
    Writer.Write w env b p =
      (none,
        { b with buf := dropBytes (defaultBufSize - b.buf.length) p },
        ⟨fun n => if n = b.wr.name then
              (w.files n).map
                (fun c => c ++ (b.buf ++ takeBytes (defaultBufSize - b.buf.length) p))
            else w.files n,
          w.trace ++
            [.write b.wr.name (b.buf ++ takeBytes (defaultBufSize - b.buf.length) p) true]⟩) := by
  have hl2 : ¬ (b.buf ++ takeBytes (defaultBufSize - b.buf.length) p).length = 0 := by
    rw [String.length_append]
    omega
  rw [Write_fill w env b p herr hfit hl,
    Flush_of_data w env { b with buf := b.buf ++ takeBytes (defaultBufSize - b.buf.length) p }
      herr hl2]
  simp [fileWrite, hw, hrest]

/-- Scenario 2 with a message of 5000 bytes and a failing `os.Create` at the
rotation: the message went to the old file at once and nothing is buffered. -/
theorem scenario2_longMessage :
    (LogMessage scenario2Start.2.1 scenario2Start.2.2
        (envCreateFails 106 "-106" "disk full") longMessage).map
      (fun p => (p.1.log, p.1.writer, p.2.files "app-100.log"))
      = some (some ⟨"app-100.log"⟩, some ⟨⟨"app-100.log"⟩, "", none⟩,
          some (longMessage ++ "\n")) := by
  rw [LogMessage_written _ _ _ _ (NewWriter ⟨"app-100.log"⟩) rfl,
    if_pos (Or.inr (by decide)),
    Write_through _ _ (NewWriter ⟨"app-100.log"⟩) _ rfl rfl
      (by rw [longMessage_length]; decide) rfl,
    newFile_create_fails _ _ _ "disk full" rfl]
  simp [logged, World.emit, NewWriter, scenario2Start, StartLog, osCreate, envAt, fresh,
    LOG_EXTENSION, noFiles]

/-- Scenario 1 with one message of 5000 bytes: it is on the file, nothing is
buffered. -/
theorem scenario1_longMessage :
    (run scenario1Start.2.1 scenario1Start.2.2 [(envAt 101 "-101", longMessage)]).map
      (fun p => (p.1.writer, p.2.files "app-100.log", createdNames p.2.trace))
      = some (some ⟨⟨"app-100.log"⟩, "", none⟩, some (longMessage ++ "\n"),
          ["app-100.log"]) := by
  rw [run_cons, LogMessage_written _ _ _ _ (NewWriter ⟨"app-100.log"⟩) rfl,
    if_neg (by decide),
    Write_through _ _ (NewWriter ⟨"app-100.log"⟩) _ rfl rfl
      (by rw [longMessage_length]; decide) rfl]
  simp [run_nil, logged, World.emit, NewWriter, scenario1Start, startFresh, StartLog, osCreate,
    envAt, fresh, LOG_EXTENSION, createdNames]

/-- Scenario 1 with two messages of 2499 bytes: the first message and the
first 1596 bytes of the second line are on the file, 4096 bytes in all; the
other 904 bytes are buffered. -/
theorem scenario1_halfMessages :
    (run scenario1Start.2.1 scenario1Start.2.2
        [(envAt 101 "-101", halfMessage), (envAt 102 "-102", halfMessage)]).map
      (fun p => (p.1.writer, p.2.files "app-100.log", createdNames p.2.trace))
      = some (some ⟨⟨"app-100.log"⟩, dropBytes 1596 (halfMessage ++ "\n"), none⟩,
          some ((halfMessage ++ "\n") ++ takeBytes 1596 (halfMessage ++ "\n")),
          ["app-100.log"]) ∧
    ((halfMessage ++ "\n") ++ takeBytes 1596 (halfMessage ++ "\n")).length = 4096 ∧
    (dropBytes 1596 (halfMessage ++ "\n")).length = 904 := by
  have hlen : ("" ++ (halfMessage ++ "\n")).length = 2500 := by
    rw [String.length_append, halfMessage_length]; rfl
  refine ⟨?_, ?_, ?_⟩
  · rw [run_cons, LogMessage_written _ _ _ _ (NewWriter ⟨"app-100.log"⟩) rfl,
      if_neg (by decide),
      Write_fits _ _ (NewWriter ⟨"app-100.log"⟩) _ rfl (by rw [halfMessage_length]; decide)]
    simp only [Option.some_bind]
    rw [run_cons, LogMessage_written _ _ _ _
        ⟨⟨"app-100.log"⟩, "" ++ (halfMessage ++ "\n"), none⟩ rfl,
      if_neg (by decide),
      Write_overflow _ _ ⟨⟨"app-100.log"⟩, "" ++ (halfMessage ++ "\n"), none⟩ _ rfl
        (by rw [hlen]; decide) (by rw [hlen, halfMessage_length]; decide)
        (by rw [dropBytes_length, hlen, halfMessage_length]; decide) rfl]
    rw [hlen]
    simp [run_nil, logged, World.emit, NewWriter, scenario1Start, startFresh, StartLog,
      osCreate, envAt, fresh, LOG_EXTENSION, createdNames, defaultBufSize]
  · rw [String.length_append, takeBytes_length, halfMessage_length]
    decide
  · rw [dropBytes_length, halfMessage_length]

/-- A rotation whose file creation succeeds: the result of `newFile` and the
shape of its events. -/
theorem newFile_created (sl : SeanLogger) (w : World) (env : Env) (b : Writer)
    (hc : env.createErr = none) (hb : sl.writer = some b) :
    ∃ e sl' w' evs, newFile sl w env = some (e, sl', w') ∧
      sl' = { rotated sl (env.TimeStampFileName sl.baseLogName LOG_EXTENSION) with
          logFileNames :=
            if wrapU64 (sl.logFileCount + 1) ≥ sl.MaxLogFileCount then
              (sl.logFileNames ++ [env.TimeStampFileName sl.baseLogName LOG_EXTENSION]).tail
            else sl.logFileNames ++ [env.TimeStampFileName sl.baseLogName LOG_EXTENSION] } ∧
      w'.trace = w.trace ++ .callNewFile :: evs ∧
      .callNewFile ∉ evs := by
  obtain ⟨e, sl', w', evs, hnf, htr, h1⟩ := newFile_trace sl w env b hb
  refine ⟨e, sl', w', evs, hnf, ?_, htr, h1⟩
  by_cases hp : wrapU64 (sl.logFileCount + 1) ≥ sl.MaxLogFileCount
  · obtain ⟨x, rest, hx⟩ : ∃ x rest,
        sl.logFileNames ++ [env.TimeStampFileName sl.baseLogName LOG_EXTENSION] = x :: rest := by
      cases hl : sl.logFileNames with
      | nil => exact ⟨_, [], rfl⟩
      | cons y ys => exact ⟨y, _, rfl⟩
    rw [newFile_prune sl w env b x rest hc hb hp hx] at hnf
    simp only [Option.some.injEq, Prod.mk.injEq] at hnf
    rw [if_pos hp, hx, ← hnf.2.1]
    rfl
  · rw [newFile_no_prune sl w env b hc hb hp] at hnf
    simp only [Option.some.injEq, Prod.mk.injEq] at hnf
    rw [if_neg hp, ← hnf.2.1]
    rfl

theorem run_append (sl : SeanLogger) (w : World) (pre post : List Call) :
    run sl w (pre ++ post) = (run sl w pre).bind fun p => run p.1 p.2 post := by
  induction post using List.reverseRecOn with
  | nil =>
    simp only [List.append_nil]
    cases run sl w pre with
    | none => rfl
    | some p => rfl
  | append_singleton post c ih =>
    rw [← List.append_assoc, run_concat, ih]
    cases run sl w pre with
    | none => rfl
    | some p =>
      simp only [Option.some_bind]
      rw [run_concat]

/-! ## Counting calls since the last rotation -/

/-- One `LogMessage` call whose file creation succeeds, on a started writer
whose message count is 0 or below its bound (itself a `uint64`): either
`newFile` is entered once and the count is 0 afterwards, or `newFile` is not
entered and the count has grown by one. -/
theorem LogMessage_count_step (sl : SeanLogger) (w : World) (env : Env) (message : String)
    (h : Started sl) (hc : env.createErr = none) (hmax : sl.MaxLogMessageCount < 2 ^ 64)
    (hinv : sl.logMessageCount = 0 ∨ sl.logMessageCount < sl.MaxLogMessageCount) :
    ∃ sl' w', LogMessage sl w env message = some (sl', w') ∧ Started sl' ∧
      sl'.MaxLogMessageCount = sl.MaxLogMessageCount ∧
      (sl'.logMessageCount = 0 ∨ sl'.logMessageCount < sl'.MaxLogMessageCount) ∧
      ((newFileCalls w'.trace = newFileCalls w.trace + 1 ∧ sl'.logMessageCount = 0) ∨
        (newFileCalls w'.trace = newFileCalls w.trace ∧
          sl'.logMessageCount = sl.logMessageCount + 1)) := by
  unfold Started at h
  obtain ⟨b, hb⟩ := Option.isSome_iff_exists.mp h
  obtain ⟨b', w1, -, ⟨hnf1, -, -, -, -⟩, -, -, -, hLM⟩ :=
    LogMessage_started sl w env message b hb
  by_cases hcond : wrapU64 (sl.logMessageCount + 1) ≥ sl.MaxLogMessageCount ∨
      wrapI64 (sl.logDuration + wrapI64 (env.now - sl.logStamp)) ≥ sl.MaxLogDuration
  · obtain ⟨e, sl', w', evs, hnf, hsl', htr', hn1⟩ :=
      newFile_created (logged sl env b') w1 env b' hc rfl
    have hz : sl'.logMessageCount = 0 := by rw [hsl']; rfl
    refine ⟨sl', w', by rw [hLM, if_pos hcond, hnf]; rfl, by rw [hsl']; rfl, by rw [hsl']; rfl,
      Or.inl hz, Or.inl ⟨?_, hz⟩⟩
    rw [htr', newFileCalls_append, hnf1]
    simp [newFileCalls, List.count_cons, List.count_eq_zero_of_not_mem hn1]
  · have hlt : sl.logMessageCount + 1 < 2 ^ 64 := by omega
    have hcount : (logged sl env b').logMessageCount = sl.logMessageCount + 1 :=
      wrapU64_of_lt _ hlt
    refine ⟨logged sl env b', w1, by rw [hLM, if_neg hcond], rfl, rfl, ?_,
      Or.inr ⟨hnf1, hcount⟩⟩
    right
    show wrapU64 (sl.logMessageCount + 1) < sl.MaxLogMessageCount
    have := not_or.mp hcond
    omega

/-- C2: a fresh writer is started once and then receives any sequence `calls`
of `LogMessage` calls, every file creation succeeding.  The run returns.  Split
`calls` anywhere into `pre` and `post`: if `pre` is empty or its last call
entered `newFile` (the most recent rotation-triggering call), and no call of
`post` entered `newFile`, then at the end `logMessageCount` is the number of
calls in `post`; in particular it is 0 right after a call that entered
`newFile` (`post` empty). -/
theorem logMessageCount_counts_calls (maxFiles maxMessages : Nat) (maxDuration : Int)
    (files : String → Option String) (env0 : Env) (logBaseName : String) (calls : List Call)
    (hmax : maxMessages < 2 ^ 64) (h0 : env0.createErr = none)
    (hcalls : ∀ c ∈ calls, c.1.createErr = none) :
    ∃ sl w,
      run (startFresh maxFiles maxMessages maxDuration files env0 logBaseName).2.1
        (startFresh maxFiles maxMessages maxDuration files env0 logBaseName).2.2 calls
        = some (sl, w) ∧
      ∀ pre post, calls = pre ++ post →
        ∃ sl1 w1,
          run (startFresh maxFiles maxMessages maxDuration files env0 logBaseName).2.1
            (startFresh maxFiles maxMessages maxDuration files env0 logBaseName).2.2 pre
            = some (sl1, w1) ∧
          ((pre = [] ∨ ∃ pre' c sl0 w0, pre = pre' ++ [c] ∧
              run (startFresh maxFiles maxMessages maxDuration files env0 logBaseName).2.1
                (startFresh maxFiles maxMessages maxDuration files env0 logBaseName).2.2 pre'
                = some (sl0, w0) ∧
              newFileCalls w1.trace = newFileCalls w0.trace + 1) →
            newFileCalls w.trace = newFileCalls w1.trace →
            sl.logMessageCount = post.length) := by
  obtain ⟨sl, w, hrun, -, -, -, -, hQ⟩ := run_induction
    (fun cs sl w => Started sl ∧ sl.MaxLogMessageCount = maxMessages ∧
      (sl.logMessageCount = 0 ∨ sl.logMessageCount < sl.MaxLogMessageCount) ∧
      (∀ pre post sl1 w1, cs = pre ++ post →
        run (startFresh maxFiles maxMessages maxDuration files env0 logBaseName).2.1
          (startFresh maxFiles maxMessages maxDuration files env0 logBaseName).2.2 pre
          = some (sl1, w1) → newFileCalls w1.trace ≤ newFileCalls w.trace) ∧
      (∀ pre post sl1 w1, cs = pre ++ post →
        run (startFresh maxFiles maxMessages maxDuration files env0 logBaseName).2.1
          (startFresh maxFiles maxMessages maxDuration files env0 logBaseName).2.2 pre
          = some (sl1, w1) →
        (pre = [] ∨ ∃ pre' c sl0 w0, pre = pre' ++ [c] ∧
          run (startFresh maxFiles maxMessages maxDuration files env0 logBaseName).2.1
            (startFresh maxFiles maxMessages maxDuration files env0 logBaseName).2.2 pre'
            = some (sl0, w0) ∧
          newFileCalls w1.trace = newFileCalls w0.trace + 1) →
        newFileCalls w.trace = newFileCalls w1.trace →
        sl.logMessageCount = post.length))
    (startFresh maxFiles maxMessages maxDuration files env0 logBaseName).2.1
    (startFresh maxFiles maxMessages maxDuration files env0 logBaseName).2.2 calls
    (by
      refine ⟨by simp [startFresh, StartLog, osCreate, h0, Started],
        by simp [startFresh, StartLog, osCreate, h0, fresh],
        by simp [startFresh, StartLog, osCreate, h0, fresh], ?_, ?_⟩
      · intro pre post sl1 w1 hsplit hr
        obtain ⟨rfl, rfl⟩ := List.append_eq_nil.mp hsplit.symm
        rw [run_nil] at hr
        simp only [Option.some.injEq, Prod.mk.injEq] at hr
        rw [← hr.2]
      · intro pre post sl1 w1 hsplit hr _ _
        obtain ⟨rfl, rfl⟩ := List.append_eq_nil.mp hsplit.symm
        simp [startFresh, StartLog, osCreate, h0, fresh])
    (by
      intro cs c sl w hpre hrun ⟨hs, hm, hinv, hM, hQ⟩
      obtain ⟨sl', w', hLM, hs', hm', hinv', hstep⟩ :=
        LogMessage_count_step sl w c.1 c.2 hs
          (hcalls c (last_mem_of_isPrefix cs c calls hpre)) (hm ▸ hmax) hinv
      have hrun' :
          run (startFresh maxFiles maxMessages maxDuration files env0 logBaseName).2.1
            (startFresh maxFiles maxMessages maxDuration files env0 logBaseName).2.2
            (cs ++ [c]) = some (sl', w') := by
        rw [run_concat, hrun]; exact hLM
      have hmono : newFileCalls w.trace ≤ newFileCalls w'.trace := by
        rcases hstep with ⟨h1, -⟩ | ⟨h1, -⟩ <;> omega
      refine ⟨sl', w', hLM, hs', hm'.trans hm, hinv', ?_, ?_⟩
      · intro pre post sl1 w1 hsplit hr
        rcases List.eq_nil_or_concat post with rfl | ⟨post', d, hpost⟩
        · rw [List.append_nil] at hsplit
          rw [← hsplit, hrun'] at hr
          simp only [Option.some.injEq, Prod.mk.injEq] at hr
          rw [← hr.2]
        · rw [List.concat_eq_append] at hpost
          subst hpost
          rw [← List.append_assoc] at hsplit
          obtain ⟨hcs, -⟩ := List.append_inj' hsplit rfl
          exact (hM pre post' sl1 w1 hcs hr).trans hmono
      · intro pre post sl1 w1 hsplit hr hbound hsame
        rcases List.eq_nil_or_concat post with rfl | ⟨post', d, hpost⟩
        · rw [List.append_nil] at hsplit
          have hr' := hr
          rw [← hsplit, hrun'] at hr'
          simp only [Option.some.injEq, Prod.mk.injEq] at hr'
          obtain ⟨rfl, rfl⟩ := hr'
          rcases hbound with hnil | ⟨pre', c', sl0, w0, hpre', hr0, hrot⟩
          · rw [hnil] at hsplit
            exact absurd hsplit (by simp)
          · rw [hpre'] at hsplit
            obtain ⟨hcs, -⟩ := List.append_inj' hsplit rfl
            rw [← hcs, hrun] at hr0
            simp only [Option.some.injEq, Prod.mk.injEq] at hr0
            obtain ⟨rfl, rfl⟩ := hr0
            rcases hstep with ⟨-, hz⟩ | ⟨h1, -⟩
            · rw [hz]; rfl
            · omega
        · rw [List.concat_eq_append] at hpost
          subst hpost
          rw [← List.append_assoc] at hsplit
          obtain ⟨hcs, -⟩ := List.append_inj' hsplit rfl
          have hle := hM pre post' sl1 w1 hcs hr
          rcases hstep with ⟨h1, -⟩ | ⟨h1, hcount⟩
          · omega
          · rw [hcount, hQ pre post' sl1 w1 hcs hr hbound (by omega)]
            simp)
  refine ⟨sl, w, hrun, ?_⟩
  intro pre post hsplit
  have hpre : ∃ p, run (startFresh maxFiles maxMessages maxDuration files env0 logBaseName).2.1
      (startFresh maxFiles maxMessages maxDuration files env0 logBaseName).2.2 pre = some p := by
    rw [hsplit, run_append] at hrun
    cases hr : run (startFresh maxFiles maxMessages maxDuration files env0 logBaseName).2.1
        (startFresh maxFiles maxMessages maxDuration files env0 logBaseName).2.2 pre with
    | none => rw [hr] at hrun; simp at hrun
    | some p => exact ⟨p, rfl⟩
  obtain ⟨⟨sl1, w1⟩, hr⟩ := hpre
  exact ⟨sl1, w1, hr, hQ pre post sl1 w1 hsplit hr⟩

/-- C2 at a concrete input: bound 3 on the messages and the first five calls
of scenario 1.  The third call rotates, the fourth and fifth do not, and the
count at the end is 2. -/
theorem logMessageCount_counts_calls_witness :
    ∃ sl w,
      run (startFresh 2 3 1000 (fun _ => none) (envAt 100 "-100") "app").2.1
        (startFresh 2 3 1000 (fun _ => none) (envAt 100 "-100") "app").2.2
        (scenario1Calls.take 5) = some (sl, w) ∧
      sl.logMessageCount = 2 ∧
      ∀ pre post, scenario1Calls.take 5 = pre ++ post →
        ∃ sl1 w1,
          run (startFresh 2 3 1000 (fun _ => none) (envAt 100 "-100") "app").2.1
            (startFresh 2 3 1000 (fun _ => none) (envAt 100 "-100") "app").2.2 pre
            = some (sl1, w1) ∧
          ((pre = [] ∨ ∃ pre' c sl0 w0, pre = pre' ++ [c] ∧
              run (startFresh 2 3 1000 (fun _ => none) (envAt 100 "-100") "app").2.1
                (startFresh 2 3 1000 (fun _ => none) (envAt 100 "-100") "app").2.2 pre'
                = some (sl0, w0) ∧
              newFileCalls w1.trace = newFileCalls w0.trace + 1) →
            newFileCalls w.trace = newFileCalls w1.trace →
            sl.logMessageCount = post.length) := by
  obtain ⟨sl, w, hrun, h⟩ := logMessageCount_counts_calls 2 3 1000 (fun _ => none)
    (envAt 100 "-100") "app" (scenario1Calls.take 5) (by decide) rfl (by decide)
  refine ⟨sl, w, hrun, ?_, h⟩
  have hev2 : (run (startFresh 2 3 1000 (fun _ => none) (envAt 100 "-100") "app").2.1
      (startFresh 2 3 1000 (fun _ => none) (envAt 100 "-100") "app").2.2
      (scenario1Calls.take 2)).map (fun p => newFileCalls p.2.trace) = some 0 := by decide
  have hev3 : (run (startFresh 2 3 1000 (fun _ => none) (envAt 100 "-100") "app").2.1
      (startFresh 2 3 1000 (fun _ => none) (envAt 100 "-100") "app").2.2
      (scenario1Calls.take 3)).map (fun p => newFileCalls p.2.trace) = some 1 := by decide
  have hev5 : (run (startFresh 2 3 1000 (fun _ => none) (envAt 100 "-100") "app").2.1
      (startFresh 2 3 1000 (fun _ => none) (envAt 100 "-100") "app").2.2
      (scenario1Calls.take 5)).map (fun p => newFileCalls p.2.trace) = some 1 := by decide
  obtain ⟨sl1, w1, hr1, himp⟩ := h (scenario1Calls.take 3) ((scenario1Calls.drop 3).take 2) rfl
  rw [hrun] at hev5
  rw [hr1] at hev3
  simp only [Option.map_some', Option.some.injEq] at hev3 hev5
  cases hr2 : run (startFresh 2 3 1000 (fun _ => none) (envAt 100 "-100") "app").2.1
      (startFresh 2 3 1000 (fun _ => none) (envAt 100 "-100") "app").2.2
      (scenario1Calls.take 2) with
  | none => rw [hr2] at hev2; simp at hev2
  | some p0 =>
    rw [hr2] at hev2
    simp only [Option.map_some', Option.some.injEq] at hev2
    exact himp (Or.inr ⟨scenario1Calls.take 2, (envAt 103 "-103", "m3"), p0.1, p0.2, rfl, hr2,
      by rw [hev3, hev2]⟩) (by rw [hev5, hev3])

/-! ## Pruning -/

/-- C3: in a rotation of a started writer whose file creation succeeds,
`pruneFile` is entered exactly once when the incremented `logFileCount` is at
least `MaxLogFileCount` and not at all otherwise.  When it is entered, the
history at that point (the former history with the new name at the tail) is
`oldest :: rest`, the history left is `rest`, and `oldest` is the one name
handed to `os.Remove`; when it is not entered, the history is the former one
with the new name at the tail and nothing is handed to `os.Remove`. -/
theorem newFile_prunes_iff (sl : SeanLogger) (w : World) (env : Env)
    (hs : Started sl) (hc : env.createErr = none) :
    ∃ e sl' w', newFile sl w env = some (e, sl', w') ∧
      sl'.logFileCount = wrapU64 (sl.logFileCount + 1) ∧
      sl'.MaxLogFileCount = sl.MaxLogFileCount ∧
      pruneFileCalls w'.trace = pruneFileCalls w.trace +
        (if sl'.logFileCount ≥ sl'.MaxLogFileCount then 1 else 0) ∧
      (sl'.logFileCount ≥ sl'.MaxLogFileCount →
        ∃ oldest rest,
          sl.logFileNames ++ [env.TimeStampFileName sl.baseLogName LOG_EXTENSION]
            = oldest :: rest ∧
          sl'.logFileNames = rest ∧
          removedNames w'.trace = removedNames w.trace ++ [oldest] ∧
          e = env.removeErr ∧
          (env.removeErr = none → w'.files oldest = none)) ∧
      (¬ sl'.logFileCount ≥ sl'.MaxLogFileCount →
        sl'.logFileNames =
          sl.logFileNames ++ [env.TimeStampFileName sl.baseLogName LOG_EXTENSION] ∧
        removedNames w'.trace = removedNames w.trace) := by
  unfold Started at hs
  obtain ⟨b, hb⟩ := Option.isSome_iff_exists.mp hs
  obtain ⟨ho1, ho2, -, -⟩ := rotatedWorld_observed sl w env b hc
  by_cases hp : wrapU64 (sl.logFileCount + 1) ≥ sl.MaxLogFileCount
  · obtain ⟨x, rest, hx⟩ : ∃ x rest,
        sl.logFileNames ++ [env.TimeStampFileName sl.baseLogName LOG_EXTENSION] = x :: rest := by
      cases hl : sl.logFileNames with
      | nil => exact ⟨_, [], rfl⟩
      | cons y ys => exact ⟨y, _, rfl⟩
    refine ⟨_, _, _, newFile_prune sl w env b x rest hc hb hp hx, rfl, rfl, ?_, ?_, ?_⟩
    · have hp' : (rotated sl (env.TimeStampFileName sl.baseLogName LOG_EXTENSION)).logFileCount
          ≥ (rotated sl (env.TimeStampFileName sl.baseLogName LOG_EXTENSION)).MaxLogFileCount := hp
      rw [if_pos hp']
      have ho1' := ho1
      unfold pruneFileCalls at ho1'
      cases hr : env.removeErr <;>
        simp [osRemove, hr, World.emit, pruneFileCalls, ho1']
    · intro _
      refine ⟨x, rest, hx, rfl, ?_, rfl, ?_⟩
      · cases hr : env.removeErr <;>
          simp [osRemove, hr, World.emit, removedNames, List.filterMap_append] <;>
          exact ho2
      · intro hr
        simp [osRemove, hr]
    · intro hnp
      exact absurd hp hnp
  · refine ⟨_, _, _, newFile_no_prune sl w env b hc hb hp, rfl, rfl, ?_, ?_, ?_⟩
    · have hp' : ¬ (rotated sl (env.TimeStampFileName sl.baseLogName LOG_EXTENSION)).logFileCount
          ≥ (rotated sl (env.TimeStampFileName sl.baseLogName LOG_EXTENSION)).MaxLogFileCount := hp
      rw [if_neg hp', ho1]
      rfl
    · intro hyes
      exact absurd hyes hp
    · intro _
      exact ⟨rfl, ho2⟩

/-- C3 at a concrete input: `MaxLogFileCount = 1`, first rotation of a started
writer; the first file is pruned. -/
theorem newFile_prunes_iff_witness :
    Started pruneStart.2.1 ∧ (envAt 101 "-101").createErr = none ∧
    ∃ e sl' w', newFile pruneStart.2.1 pruneStart.2.2 (envAt 101 "-101") = some (e, sl', w') ∧
      sl'.logFileCount = wrapU64 (pruneStart.2.1.logFileCount + 1) ∧
      sl'.MaxLogFileCount = pruneStart.2.1.MaxLogFileCount ∧
      pruneFileCalls w'.trace = pruneFileCalls pruneStart.2.2.trace +
        (if sl'.logFileCount ≥ sl'.MaxLogFileCount then 1 else 0) ∧
      (sl'.logFileCount ≥ sl'.MaxLogFileCount →
        ∃ oldest rest,
          pruneStart.2.1.logFileNames ++
            [(envAt 101 "-101").TimeStampFileName pruneStart.2.1.baseLogName LOG_EXTENSION]
            = oldest :: rest ∧
          sl'.logFileNames = rest ∧
          removedNames w'.trace = removedNames pruneStart.2.2.trace ++ [oldest] ∧
          e = (envAt 101 "-101").removeErr ∧
          ((envAt 101 "-101").removeErr = none → w'.files oldest = none)) ∧
      (¬ sl'.logFileCount ≥ sl'.MaxLogFileCount →
        sl'.logFileNames = pruneStart.2.1.logFileNames ++
          [(envAt 101 "-101").TimeStampFileName pruneStart.2.1.baseLogName LOG_EXTENSION] ∧
        removedNames w'.trace = removedNames pruneStart.2.2.trace) :=
  ⟨by decide, rfl,
    newFile_prunes_iff pruneStart.2.1 pruneStart.2.2 (envAt 101 "-101") (by decide) rfl⟩

/-- C4 as stated fails: with `MaxLogFileCount = 0` (and `MaxLogMessageCount = 1`)
the first `LogMessage` call rotates and prunes, and the history then holds one
name, more than `MaxLogFileCount`. -/
theorem history_exceeds_zero_bound :
    ∃ sl w, run zeroFilesStart.2.1 zeroFilesStart.2.2 [(envAt 101 "-101", "m1")] = some (sl, w) ∧
      sl.MaxLogFileCount = 0 ∧ pruneFileCalls w.trace = 1 ∧
      sl.logFileNames = ["app-101.log"] ∧
      ¬ (sl.logFileNames.length ≤ sl.MaxLogFileCount) := by
  have hev : (run zeroFilesStart.2.1 zeroFilesStart.2.2 [(envAt 101 "-101", "m1")]).map
        (fun p => (pruneFileCalls p.2.trace, p.1.logFileNames, p.1.MaxLogFileCount))
      = some (1, ["app-101.log"], 0) := by decide
  cases hr : run zeroFilesStart.2.1 zeroFilesStart.2.2 [(envAt 101 "-101", "m1")] with
  | none => simp [hr] at hev
  | some p =>
    obtain ⟨sl, w⟩ := p
    simp only [hr, Option.map_some', Option.some.injEq, Prod.mk.injEq] at hev
    obtain ⟨h1, h2, h3⟩ := hev
    refine ⟨sl, w, rfl, h3, h1, h2, ?_⟩
    rw [h2, h3]
    decide

/-- One `LogMessage` call keeps the length of the history equal to
`min (logFileCount + 1) (max MaxLogFileCount 1)`, as long as file creation
succeeds and `logFileCount` does not wrap around. -/
theorem LogMessage_history_step (sl : SeanLogger) (w : World) (env : Env) (message : String)
    (hs : Started sl) (hc : env.createErr = none) (hfc : sl.logFileCount + 1 < 2 ^ 64)
    (hlen : sl.logFileNames.length = min (sl.logFileCount + 1) (max sl.MaxLogFileCount 1)) :
    ∃ sl' w', LogMessage sl w env message = some (sl', w') ∧ Started sl' ∧
      sl'.MaxLogFileCount = sl.MaxLogFileCount ∧
      sl'.logFileCount ≤ sl.logFileCount + 1 ∧
      sl'.logFileNames.length = min (sl'.logFileCount + 1) (max sl'.MaxLogFileCount 1) := by
  unfold Started at hs
  obtain ⟨b, hb⟩ := Option.isSome_iff_exists.mp hs
  obtain ⟨b', w1, -, -, -, -, -, hLM⟩ := LogMessage_started sl w env message b hb
  by_cases hcond : wrapU64 (sl.logMessageCount + 1) ≥ sl.MaxLogMessageCount ∨
      wrapI64 (sl.logDuration + wrapI64 (env.now - sl.logStamp)) ≥ sl.MaxLogDuration
  · obtain ⟨e, sl', w', evs, hnf, hsl', -, -⟩ :=
      newFile_created (logged sl env b') w1 env b' hc rfl
    have hcount : sl'.logFileCount = sl.logFileCount + 1 := by
      rw [hsl']
      exact wrapU64_of_lt _ hfc
    have hmaxf : sl'.MaxLogFileCount = sl.MaxLogFileCount := by rw [hsl']; rfl
    refine ⟨sl', w', by rw [hLM, if_pos hcond, hnf]; rfl, by rw [hsl']; rfl, hmaxf,
      by omega, ?_⟩
    rw [hcount, hmaxf]
    have hnames : sl'.logFileNames =
        if wrapU64 (sl.logFileCount + 1) ≥ sl.MaxLogFileCount then
          (sl.logFileNames ++ [env.TimeStampFileName sl.baseLogName LOG_EXTENSION]).tail
        else sl.logFileNames ++ [env.TimeStampFileName sl.baseLogName LOG_EXTENSION] := by
      rw [hsl']; rfl
    rw [hnames, wrapU64_of_lt _ hfc]
    split
    · rename_i hge
      simp only [List.length_tail, List.length_append, List.length_singleton,
        Nat.add_sub_cancel, hlen]
      omega
    · rename_i hlt
      simp only [List.length_append, List.length_singleton, hlen]
      omega
  · exact ⟨logged sl env b', w1, by rw [hLM, if_neg hcond], rfl, rfl, Nat.le_succ _, hlen⟩

/-- C4, amended: a fresh writer is started once and then receives fewer than
`2 ^ 64` `LogMessage` calls, every file creation succeeding.  At the end of the
run (hence after each call, whether or not a prune has occurred) the history
holds at most `max MaxLogFileCount 1` names; so it holds at most
`MaxLogFileCount` names whenever `MaxLogFileCount ≥ 1`. -/
theorem history_length_bounded (maxFiles maxMessages : Nat) (maxDuration : Int)
    (files : String → Option String) (env0 : Env) (logBaseName : String) (calls : List Call)
    (h0 : env0.createErr = none) (hcalls : ∀ c ∈ calls, c.1.createErr = none)
    (hlen : calls.length < 2 ^ 64) :
    ∃ sl w,
      run (startFresh maxFiles maxMessages maxDuration files env0 logBaseName).2.1
        (startFresh maxFiles maxMessages maxDuration files env0 logBaseName).2.2 calls
        = some (sl, w) ∧
      sl.MaxLogFileCount = maxFiles ∧
      sl.logFileNames.length ≤ max maxFiles 1 ∧
      (1 ≤ maxFiles → sl.logFileNames.length ≤ sl.MaxLogFileCount) := by
  obtain ⟨sl, w, hrun, -, hm, -, hl⟩ := run_induction
    (fun pre sl w => Started sl ∧ sl.MaxLogFileCount = maxFiles ∧
      sl.logFileCount ≤ pre.length ∧
      sl.logFileNames.length = min (sl.logFileCount + 1) (max sl.MaxLogFileCount 1))
    (startFresh maxFiles maxMessages maxDuration files env0 logBaseName).2.1
    (startFresh maxFiles maxMessages maxDuration files env0 logBaseName).2.2 calls
    (by
      simp [startFresh, StartLog, osCreate, h0, fresh, Started])
    (by
      intro pre c sl w hpre hrun ⟨hs, hm, hcnt, hinv⟩
      have hpl : (pre ++ [c]).length ≤ calls.length := hpre.length_le
      simp only [List.length_append, List.length_singleton] at hpl
      obtain ⟨sl', w', hLM, hs', hm', hcnt', hinv'⟩ :=
        LogMessage_history_step sl w c.1 c.2 hs
          (hcalls c (last_mem_of_isPrefix pre c calls hpre)) (by omega) hinv
      refine ⟨sl', w', hLM, hs', hm'.trans hm, ?_, hinv'⟩
      simp only [List.length_append, List.length_singleton]
      omega)
  refine ⟨sl, w, hrun, hm, ?_, ?_⟩
  · rw [hl, hm]
    omega
  · intro h1
    rw [hl]
    omega

/-- C4 (amended) at a concrete input: scenario 1 with its six calls. -/
theorem history_length_bounded_witness :
    ∃ sl w,
      run (startFresh 2 3 1000 (fun _ => none) (envAt 100 "-100") "app").2.1
        (startFresh 2 3 1000 (fun _ => none) (envAt 100 "-100") "app").2.2 scenario1Calls
        = some (sl, w) ∧
      sl.MaxLogFileCount = 2 ∧
      sl.logFileNames.length ≤ max 2 1 ∧
      (1 ≤ 2 → sl.logFileNames.length ≤ sl.MaxLogFileCount) :=
  history_length_bounded 2 3 1000 (fun _ => none) (envAt 100 "-100") "app" scenario1Calls
    rfl (by decide) (by decide)

/-! ## Scenario 1 -/

theorem Close_files (w : World) (f : Option File) : (Close w f).files = w.files := by
  cases f <;> rfl

/-- Which files exist after a rotation whose creation has succeeded, up to
the pruning test: the new one and those that existed. -/
theorem rotatedWorld_isSome (sl : SeanLogger) (w : World) (env : Env) (b : Writer)
    (hc : env.createErr = none) (n : String) :
    ((rotatedWorld sl w env b).files n).isSome =
      if n = env.TimeStampFileName sl.baseLogName LOG_EXTENSION then true
      else (w.files n).isSome := by
  obtain ⟨-, -, -, hsome⟩ := Flush_spec
    (osCreate (w.emit .callNewFile) env
      (env.TimeStampFileName sl.baseLogName LOG_EXTENSION)).2 env b
  unfold rotatedWorld
  rw [Close_files, hsome]
  by_cases hn : n = env.TimeStampFileName sl.baseLogName LOG_EXTENSION <;>
    simp [osCreate, hc, hn, World.emit]

/-- A `LogMessage` call below both bounds, in terms of the steering fields:
the count grows by one, the duration by the time elapsed; nothing is pruned
and no file appears or disappears. -/
theorem Control_stays (sl : SeanLogger) (w : World) (env : Env) (message : String)
    (maxFiles maxMessages : Nat) (maxDuration : Int) (base : String) (fileCount : Nat)
    (history : List String) (count : Nat) (duration stamp : Int) (active : String)
    (h : Control sl maxFiles maxMessages maxDuration base fileCount history count duration
      stamp active)
    (hcount : count + 1 < maxMessages) (hrange : count + 1 < 2 ^ 64)
    (h1 : inI64 (env.now - stamp)) (h2 : inI64 (duration + (env.now - stamp)))
    (hdur : duration + (env.now - stamp) < maxDuration) :
    ∃ sl' w', LogMessage sl w env message = some (sl', w') ∧
      Control sl' maxFiles maxMessages maxDuration base fileCount history (count + 1)
        (duration + (env.now - stamp)) env.now active ∧
      pruneFileCalls w'.trace = pruneFileCalls w.trace ∧
      removedNames w'.trace = removedNames w.trace ∧
      ∀ n, (w'.files n).isSome = (w.files n).isSome := by
  obtain ⟨hmf, hmm, hmd, hbase, hfc, hhist, hcnt, hd, hst, hlog, b, hb⟩ := h
  obtain ⟨b', w1, -, ⟨-, hp1, -, hr1, -⟩, -, hsome, -, hLM⟩ :=
    LogMessage_started sl w env message b hb
  have hc1 : wrapU64 (sl.logMessageCount + 1) = count + 1 := by
    rw [hcnt]; exact wrapU64_of_lt _ hrange
  have hd1 : wrapI64 (sl.logDuration + wrapI64 (env.now - sl.logStamp))
      = duration + (env.now - stamp) := by
    rw [hd, hst, wrapI64_of_inI64 _ h1, wrapI64_of_inI64 _ h2]
  have hcond : ¬ (wrapU64 (sl.logMessageCount + 1) ≥ sl.MaxLogMessageCount ∨
      wrapI64 (sl.logDuration + wrapI64 (env.now - sl.logStamp)) ≥ sl.MaxLogDuration) := by
    rw [hc1, hd1, hmm, hmd]
    omega
  refine ⟨logged sl env b', w1, by rw [hLM, if_neg hcond],
    ⟨hmf, hmm, hmd, hbase, hfc, hhist, hc1, hd1, rfl, hlog, b', rfl⟩, hp1, hr1, hsome⟩

/-- A `LogMessage` call that reaches the bound on the messages, creation and
removal succeeding, in terms of the steering fields: the count is 0 afterwards,
the file count has grown by one, the new name is appended to the history and
is the active file; when the file count has reached its bound the head of the
history is removed, handed to `os.Remove` and no longer exists. -/
theorem Control_rotates (sl : SeanLogger) (w : World) (env : Env) (message : String)
    (maxFiles maxMessages : Nat) (maxDuration : Int) (base : String) (fileCount : Nat)
    (history : List String) (count : Nat) (duration stamp : Int) (active : String)
    (h : Control sl maxFiles maxMessages maxDuration base fileCount history count duration
      stamp active)
    (hcount : count + 1 ≥ maxMessages) (hrange : count + 1 < 2 ^ 64)
    (hfrange : fileCount + 1 < 2 ^ 64)
    (h1 : inI64 (env.now - stamp)) (h2 : inI64 (duration + (env.now - stamp)))
    (hc : env.createErr = none) (hr : env.removeErr = none) :
    ∃ sl' w', LogMessage sl w env message = some (sl', w') ∧
      Control sl' maxFiles maxMessages maxDuration base (fileCount + 1)
        (if fileCount + 1 ≥ maxFiles then
          (history ++ [env.TimeStampFileName base LOG_EXTENSION]).tail
         else history ++ [env.TimeStampFileName base LOG_EXTENSION])
        0 (duration + (env.now - stamp)) env.now
        (env.TimeStampFileName base LOG_EXTENSION) ∧
      pruneFileCalls w'.trace =
        pruneFileCalls w.trace + (if fileCount + 1 ≥ maxFiles then 1 else 0) ∧
      removedNames w'.trace = removedNames w.trace ++
        (if fileCount + 1 ≥ maxFiles then
          ((history ++ [env.TimeStampFileName base LOG_EXTENSION]).head?).toList
         else []) ∧
      ∀ n, (w'.files n).isSome =
        if fileCount + 1 ≥ maxFiles ∧
            (history ++ [env.TimeStampFileName base LOG_EXTENSION]).head? = some n then false
        else if n = env.TimeStampFileName base LOG_EXTENSION then true
        else (w.files n).isSome := by
  obtain ⟨hmf, hmm, hmd, hbase, hfc, hhist, hcnt, hd, hst, hlog, b, hb⟩ := h
  obtain ⟨b', w1, -, ⟨-, hp1, -, hr1, -⟩, -, hsome, -, hLM⟩ :=
    LogMessage_started sl w env message b hb
  have hc1 : wrapU64 (sl.logMessageCount + 1) = count + 1 := by
    rw [hcnt]; exact wrapU64_of_lt _ hrange
  have hd1 : wrapI64 (sl.logDuration + wrapI64 (env.now - sl.logStamp))
      = duration + (env.now - stamp) := by
    rw [hd, hst, wrapI64_of_inI64 _ h1, wrapI64_of_inI64 _ h2]
  have hf1 : wrapU64 (sl.logFileCount + 1) = fileCount + 1 := by
    rw [hfc]; exact wrapU64_of_lt _ hfrange
  have hcond : wrapU64 (sl.logMessageCount + 1) ≥ sl.MaxLogMessageCount ∨
      wrapI64 (sl.logDuration + wrapI64 (env.now - sl.logStamp)) ≥ sl.MaxLogDuration := by
    left
    rw [hc1, hmm]
    exact hcount
  have hname : env.TimeStampFileName (logged sl env b').baseLogName LOG_EXTENSION
      = env.TimeStampFileName base LOG_EXTENSION := by
    show env.TimeStampFileName sl.baseLogName LOG_EXTENSION = _
    rw [hbase]
  obtain ⟨ho1, ho2, -, -⟩ := rotatedWorld_observed (logged sl env b') w1 env b' hc
  have hex := rotatedWorld_isSome (logged sl env b') w1 env b' hc
  rw [hname] at hex
  rw [hLM, if_pos hcond]
  by_cases hp : fileCount + 1 ≥ maxFiles
  · have hp' : wrapU64 ((logged sl env b').logFileCount + 1)
        ≥ (logged sl env b').MaxLogFileCount := by
      show wrapU64 (sl.logFileCount + 1) ≥ sl.MaxLogFileCount
      rw [hf1, hmf]; exact hp
    obtain ⟨x, rest, hx⟩ : ∃ x rest,
        history ++ [env.TimeStampFileName base LOG_EXTENSION] = x :: rest := by
      cases hl : history with
      | nil => exact ⟨_, [], rfl⟩
      | cons y ys => exact ⟨y, _, rfl⟩
    have hx' : (logged sl env b').logFileNames ++
        [env.TimeStampFileName (logged sl env b').baseLogName LOG_EXTENSION] = x :: rest := by
      rw [hname]
      show sl.logFileNames ++ _ = _
      rw [hhist]; exact hx
    rw [newFile_prune (logged sl env b') w1 env b' x rest hc rfl hp' hx']
    rw [if_pos hp, if_pos hp, if_pos hp, hx]
    refine ⟨_, _, rfl, ⟨hmf, hmm, hmd, hbase, hf1, rfl, rfl, hd1, rfl, ?_, _, rfl⟩, ?_, ?_, ?_⟩
    · show some (File.mk (env.TimeStampFileName (logged sl env b').baseLogName LOG_EXTENSION))
        = _
      rw [hname]
    · simp only [osRemove, hr, World.emit, pruneFileCalls_append, ho1, hp1]
      simp [pruneFileCalls]
    · simp only [osRemove, hr, World.emit, removedNames_append, ho2, hr1]
      simp [removedNames]
    · intro n
      by_cases hn : n = x
      · subst hn
        simp [osRemove, hr, hp]
      · have hn' : ¬ (x = n) := fun hh => hn hh.symm
        have hfile : (osRemove (((rotatedWorld (logged sl env b') w1 env b').emit
            .callPruneFile).emit (.stdout ("Deleting oldest log file: %v " ++ x ++ "\n")))
            env x).2.files n = (rotatedWorld (logged sl env b') w1 env b').files n := by
          simp [osRemove, hr, hn, World.emit]
        rw [hfile, hex n, hsome n]
        simp [hn']
  · have hp' : ¬ wrapU64 ((logged sl env b').logFileCount + 1)
        ≥ (logged sl env b').MaxLogFileCount := by
      show ¬ wrapU64 (sl.logFileCount + 1) ≥ sl.MaxLogFileCount
      rw [hf1, hmf]; exact hp
    rw [newFile_no_prune (logged sl env b') w1 env b' hc rfl hp']
    rw [if_neg hp, if_neg hp, if_neg hp]
    simp only [Nat.add_zero, List.append_nil]
    refine ⟨_, _, rfl, ⟨hmf, hmm, hmd, hbase, hf1, ?_, rfl, hd1, rfl, ?_, _, rfl⟩, ?_, ?_, ?_⟩
    · show sl.logFileNames ++
        [env.TimeStampFileName (logged sl env b').baseLogName LOG_EXTENSION] = _
      rw [hname, hhist]
    · show some (File.mk (env.TimeStampFileName (logged sl env b').baseLogName LOG_EXTENSION))
        = _
      rw [hname]
    · rw [ho1, hp1]
    · rw [ho2, hr1]
    · intro n
      rw [hex n, hsome n]
      simp [hp]

/-- `Control_stays` with the clock reading and the new duration named. -/
theorem Control_stays_at (sl : SeanLogger) (w : World) (env : Env) (message : String)
    (maxFiles maxMessages : Nat) (maxDuration : Int) (base : String) (fileCount : Nat)
    (history : List String) (count : Nat) (duration stamp : Int) (active : String)
    (now duration' : Int)
    (h : Control sl maxFiles maxMessages maxDuration base fileCount history count duration
      stamp active)
    (hnow : env.now = now) (hd : duration' = duration + (now - stamp))
    (hcount : count + 1 < maxMessages) (hrange : count + 1 < 2 ^ 64)
    (h1 : inI64 (now - stamp)) (h2 : inI64 duration') (hdur : duration' < maxDuration) :
    ∃ sl' w', LogMessage sl w env message = some (sl', w') ∧
      Control sl' maxFiles maxMessages maxDuration base fileCount history (count + 1)
        duration' now active ∧
      pruneFileCalls w'.trace = pruneFileCalls w.trace ∧
      removedNames w'.trace = removedNames w.trace ∧
      ∀ n, (w'.files n).isSome = (w.files n).isSome := by
  subst hnow hd
  exact Control_stays sl w env message maxFiles maxMessages maxDuration base fileCount history
    count duration stamp active h hcount hrange h1 h2 hdur

/-- `Control_rotates` below the bound on the files, with the clock reading,
the new duration and the new name named. -/
theorem Control_rotates_keep (sl : SeanLogger) (w : World) (env : Env) (message : String)
    (maxFiles maxMessages : Nat) (maxDuration : Int) (base : String) (fileCount : Nat)
    (history : List String) (count : Nat) (duration stamp : Int) (active : String)
    (now duration' : Int) (f : String)
    (h : Control sl maxFiles maxMessages maxDuration base fileCount history count duration
      stamp active)
    (hnow : env.now = now) (hd : duration' = duration + (now - stamp))
    (hf : env.TimeStampFileName base LOG_EXTENSION = f)
    (hcount : count + 1 ≥ maxMessages) (hrange : count + 1 < 2 ^ 64)
    (hfrange : fileCount + 1 < 2 ^ 64) (hkeep : ¬ fileCount + 1 ≥ maxFiles)
    (h1 : inI64 (now - stamp)) (h2 : inI64 duration')
    (hc : env.createErr = none) (hr : env.removeErr = none) :
    ∃ sl' w', LogMessage sl w env message = some (sl', w') ∧
      Control sl' maxFiles maxMessages maxDuration base (fileCount + 1) (history ++ [f])
        0 duration' now f ∧
      pruneFileCalls w'.trace = pruneFileCalls w.trace ∧
      removedNames w'.trace = removedNames w.trace ∧
      ∀ n, (w'.files n).isSome = if n = f then true else (w.files n).isSome := by
  subst hnow hd hf
  obtain ⟨sl', w', hLM, hC, hp, hrm, hfiles⟩ := Control_rotates sl w env message maxFiles
    maxMessages maxDuration base fileCount history count duration stamp active h hcount hrange
    hfrange h1 h2 hc hr
  rw [if_neg hkeep] at hC hp hrm
  refine ⟨sl', w', hLM, hC, by simpa using hp, by simpa using hrm, fun n => ?_⟩
  rw [hfiles n]
  simp [hkeep]

/-- `Control_rotates` at the bound on the files, with the clock reading, the
new duration, the new name and the head of the history named. -/
theorem Control_rotates_prune (sl : SeanLogger) (w : World) (env : Env) (message : String)
    (maxFiles maxMessages : Nat) (maxDuration : Int) (base : String) (fileCount : Nat)
    (history : List String) (count : Nat) (duration stamp : Int) (active : String)
    (now duration' : Int) (f x : String) (rest : List String)
    (h : Control sl maxFiles maxMessages maxDuration base fileCount history count duration
      stamp active)
    (hnow : env.now = now) (hd : duration' = duration + (now - stamp))
    (hf : env.TimeStampFileName base LOG_EXTENSION = f) (hx : history ++ [f] = x :: rest)
    (hcount : count + 1 ≥ maxMessages) (hrange : count + 1 < 2 ^ 64)
    (hfrange : fileCount + 1 < 2 ^ 64) (hprune : fileCount + 1 ≥ maxFiles)
    (h1 : inI64 (now - stamp)) (h2 : inI64 duration')
    (hc : env.createErr = none) (hr : env.removeErr = none) :
    ∃ sl' w', LogMessage sl w env message = some (sl', w') ∧
      Control sl' maxFiles maxMessages maxDuration base (fileCount + 1) rest
        0 duration' now f ∧
      pruneFileCalls w'.trace = pruneFileCalls w.trace + 1 ∧
      removedNames w'.trace = removedNames w.trace ++ [x] ∧
      ∀ n, (w'.files n).isSome =
        if n = x then false else if n = f then true else (w.files n).isSome := by
  subst hnow hd hf
  obtain ⟨sl', w', hLM, hC, hp, hrm, hfiles⟩ := Control_rotates sl w env message maxFiles
    maxMessages maxDuration base fileCount history count duration stamp active h hcount hrange
    hfrange h1 h2 hc hr
  rw [if_pos hprune, hx] at hC hrm
  rw [if_pos hprune] at hp
  refine ⟨sl', w', hLM, hC, hp, by simpa using hrm, fun n => ?_⟩
  rw [hfiles n, hx]
  by_cases hn : n = x
  · subst hn; simp [hprune]
  · have hn' : ¬ (x = n) := fun hh => hn hh.symm
    simp [hn, hn', hprune]

/-- C5 (scenario 1): `MaxLogMessageCount = 3`, `MaxLogFileCount = 2`, the clock
never advances as far as `MaxLogDuration`; a fresh writer is started (creating
`file1`), every system call succeeds, and the rotations generate `file2` and
`file3`, the three names distinct.  After the third `LogMessage` call the
active file is `file2`, the history is `file1, file2`, `pruneFile` was never
entered and `file1` exists; after the sixth call the active file is `file3`,
the history is `file2, file3`, `file1` is the one name handed to `os.Remove`
and it no longer exists, while `file2` and `file3` exist. -/
theorem scenario1_rotations (files : String → Option String) (logBaseName : String)
    (maxDuration : Int) (file1 file2 file3 n1 n2 n4 n5 : String)
    (m1 m2 m3 m4 m5 m6 : String) (t0 t1 t2 t3 t4 t5 t6 : Int)
    (h12 : file1 ≠ file2) (h13 : file1 ≠ file3) (h23 : file2 ≠ file3)
    (ht1 : t0 ≤ t1) (ht2 : t1 ≤ t2) (ht3 : t2 ≤ t3) (ht4 : t3 ≤ t4) (ht5 : t4 ≤ t5)
    (ht6 : t5 ≤ t6) (hdur : t6 - t0 < maxDuration) (hmax : maxDuration < 2 ^ 63) :
    (∃ sl w,
      run (startFresh 2 3 maxDuration files (envNamed t0 file1) logBaseName).2.1
        (startFresh 2 3 maxDuration files (envNamed t0 file1) logBaseName).2.2
        [(envNamed t1 n1, m1), (envNamed t2 n2, m2), (envNamed t3 file2, m3)] = some (sl, w) ∧
      sl.log = some ⟨file2⟩ ∧ sl.logFileNames = [file1, file2] ∧
      pruneFileCalls w.trace = 0 ∧ removedNames w.trace = [] ∧ (w.files file1).isSome) ∧
    (∃ sl w,
      run (startFresh 2 3 maxDuration files (envNamed t0 file1) logBaseName).2.1
        (startFresh 2 3 maxDuration files (envNamed t0 file1) logBaseName).2.2
        [(envNamed t1 n1, m1), (envNamed t2 n2, m2), (envNamed t3 file2, m3),
         (envNamed t4 n4, m4), (envNamed t5 n5, m5), (envNamed t6 file3, m6)] = some (sl, w) ∧
      sl.log = some ⟨file3⟩ ∧ sl.logFileNames = [file2, file3] ∧
      removedNames w.trace = [file1] ∧ w.files file1 = none ∧
      (w.files file2).isSome ∧ (w.files file3).isSome) := by
  have hC0 : Control (startFresh 2 3 maxDuration files (envNamed t0 file1) logBaseName).2.1
      2 3 maxDuration logBaseName 0 [file1] 0 0 t0 file1 :=
    ⟨rfl, rfl, rfl, rfl, rfl, rfl, rfl, rfl, rfl, rfl, _, rfl⟩
  have hp0 : pruneFileCalls
      (startFresh 2 3 maxDuration files (envNamed t0 file1) logBaseName).2.2.trace = 0 := rfl
  have hr0 : removedNames
      (startFresh 2 3 maxDuration files (envNamed t0 file1) logBaseName).2.2.trace = [] := rfl
  have hf0 : ∀ n, ((startFresh 2 3 maxDuration files (envNamed t0 file1)
      logBaseName).2.2.files n).isSome = if n = file1 then true else (files n).isSome := by
    intro n
    by_cases hn : n = file1 <;> simp [startFresh, StartLog, osCreate, envNamed, hn]
  obtain ⟨s1, w1, hL1, hC1, hp1, hr1, hf1⟩ := Control_stays_at _
    (startFresh 2 3 maxDuration files (envNamed t0 file1) logBaseName).2.2
    (envNamed t1 n1) m1 2 3 maxDuration logBaseName 0 [file1] 0 0 t0 file1 t1 (t1 - t0)
    hC0 rfl (by omega) (by decide) (by decide) ⟨by omega, by omega⟩ ⟨by omega, by omega⟩
    (by omega)
  obtain ⟨s2, w2, hL2, hC2, hp2, hr2, hf2⟩ := Control_stays_at s1 w1
    (envNamed t2 n2) m2 2 3 maxDuration logBaseName 0 [file1] 1 (t1 - t0) t1 file1 t2 (t2 - t0)
    hC1 rfl (by omega) (by decide) (by decide) ⟨by omega, by omega⟩ ⟨by omega, by omega⟩
    (by omega)
  obtain ⟨s3, w3, hL3, hC3, hp3, hr3, hf3⟩ := Control_rotates_keep s2 w2
    (envNamed t3 file2) m3 2 3 maxDuration logBaseName 0 [file1] 2 (t2 - t0) t2 file1 t3
    (t3 - t0) file2 hC2 rfl (by omega) rfl (by decide) (by decide) (by decide) (by decide)
    ⟨by omega, by omega⟩ ⟨by omega, by omega⟩ rfl rfl
  have hrun3 : run (startFresh 2 3 maxDuration files (envNamed t0 file1) logBaseName).2.1
      (startFresh 2 3 maxDuration files (envNamed t0 file1) logBaseName).2.2
      [(envNamed t1 n1, m1), (envNamed t2 n2, m2), (envNamed t3 file2, m3)] = some (s3, w3) := by
    simp only [run, List.foldl_cons, List.foldl_nil, Option.some_bind, hL1, hL2, hL3]
  constructor
  · refine ⟨s3, w3, hrun3, hC3.2.2.2.2.2.2.2.2.2.1, hC3.2.2.2.2.2.1, ?_, ?_, ?_⟩
    · rw [hp3, hp2, hp1, hp0]
    · rw [hr3, hr2, hr1, hr0]
    · rw [hf3, hf2, hf1, hf0]
      simp [h12]
  · obtain ⟨s4, w4, hL4, hC4, hp4, hr4, hf4⟩ := Control_stays_at s3 w3
      (envNamed t4 n4) m4 2 3 maxDuration logBaseName 1 [file1, file2] 0 (t3 - t0) t3 file2 t4
      (t4 - t0) hC3 rfl (by omega) (by decide) (by decide) ⟨by omega, by omega⟩
      ⟨by omega, by omega⟩ (by omega)
    obtain ⟨s5, w5, hL5, hC5, hp5, hr5, hf5⟩ := Control_stays_at s4 w4
      (envNamed t5 n5) m5 2 3 maxDuration logBaseName 1 [file1, file2] 1 (t4 - t0) t4 file2 t5
      (t5 - t0) hC4 rfl (by omega) (by decide) (by decide) ⟨by omega, by omega⟩
      ⟨by omega, by omega⟩ (by omega)
    obtain ⟨s6, w6, hL6, hC6, hp6, hr6, hf6⟩ := Control_rotates_prune s5 w5
      (envNamed t6 file3) m6 2 3 maxDuration logBaseName 1 [file1, file2] 2 (t5 - t0) t5 file2
      t6 (t6 - t0) file3 file1 [file2, file3] hC5 rfl (by omega) rfl rfl (by decide)
      (by decide) (by decide) (by decide) ⟨by omega, by omega⟩ ⟨by omega, by omega⟩ rfl rfl
    have hrun6 : run (startFresh 2 3 maxDuration files (envNamed t0 file1) logBaseName).2.1
        (startFresh 2 3 maxDuration files (envNamed t0 file1) logBaseName).2.2
        [(envNamed t1 n1, m1), (envNamed t2 n2, m2), (envNamed t3 file2, m3),
         (envNamed t4 n4, m4), (envNamed t5 n5, m5), (envNamed t6 file3, m6)]
        = some (s6, w6) := by
      simp only [run, List.foldl_cons, List.foldl_nil, Option.some_bind, hL1, hL2, hL3, hL4,
        hL5, hL6]
    refine ⟨s6, w6, hrun6, hC6.2.2.2.2.2.2.2.2.2.1, hC6.2.2.2.2.2.1, ?_, ?_, ?_, ?_⟩
    · rw [hr6, hr5, hr4, hr3, hr2, hr1, hr0]
      rfl
    · have := hf6 file1
      simpa using this
    · rw [hf6, hf5, hf4, hf3]
      simp [h12.symm, h23]
    · rw [hf6]
      simp [h13.symm]

/-- C5 at concrete names, messages and clock readings. -/
theorem scenario1_rotations_witness :
    (∃ sl w,
      run (startFresh 2 3 1000 (fun _ => none) (envNamed 100 "file1") "app").2.1
        (startFresh 2 3 1000 (fun _ => none) (envNamed 100 "file1") "app").2.2
        [(envNamed 101 "x", "m1"), (envNamed 102 "x", "m2"), (envNamed 103 "file2", "m3")]
        = some (sl, w) ∧
      sl.log = some ⟨"file2"⟩ ∧ sl.logFileNames = ["file1", "file2"] ∧
      pruneFileCalls w.trace = 0 ∧ removedNames w.trace = [] ∧ (w.files "file1").isSome) ∧
    (∃ sl w,
      run (startFresh 2 3 1000 (fun _ => none) (envNamed 100 "file1") "app").2.1
        (startFresh 2 3 1000 (fun _ => none) (envNamed 100 "file1") "app").2.2
        [(envNamed 101 "x", "m1"), (envNamed 102 "x", "m2"), (envNamed 103 "file2", "m3"),
         (envNamed 104 "x", "m4"), (envNamed 105 "x", "m5"), (envNamed 106 "file3", "m6")]
        = some (sl, w) ∧
      sl.log = some ⟨"file3"⟩ ∧ sl.logFileNames = ["file2", "file3"] ∧
      removedNames w.trace = ["file1"] ∧ w.files "file1" = none ∧
      (w.files "file2").isSome ∧ (w.files "file3").isSome) :=
  scenario1_rotations (fun _ => none) "app" 1000 "file1" "file2" "file3" "x" "x" "x" "x"
    "m1" "m2" "m3" "m4" "m5" "m6" 100 101 102 103 104 105 106
    (by decide) (by decide) (by decide) (by decide) (by decide) (by decide) (by decide)
    (by decide) (by decide) (by decide) (by decide)

/-! ## The duration accumulator across a rotation -/

/-- A rotation whose file creation succeeds leaves `logDuration` and `logStamp`
as they were. -/
theorem newFile_keeps_logDuration (sl : SeanLogger) (w : World) (env : Env)
    (hs : Started sl) (hc : env.createErr = none) :
    ∃ e sl' w', newFile sl w env = some (e, sl', w') ∧
      sl'.logDuration = sl.logDuration ∧ sl'.logStamp = sl.logStamp ∧
      sl'.logMessageCount = 0 := by
  unfold Started at hs
  obtain ⟨b, hb⟩ := Option.isSome_iff_exists.mp hs
  obtain ⟨e, sl', w', evs, hnf, hsl', -, -⟩ := newFile_created sl w env b hc hb
  exact ⟨e, sl', w', hnf, by rw [hsl']; rfl, by rw [hsl']; rfl, by rw [hsl']; rfl⟩

/-- C6 fails on the code: in scenario 2 (`MaxLogDuration = 5`, started at clock
reading 100) the call at 106 enters `newFile` once, the creation succeeds and
`logMessageCount` is reset to 0, but `logDuration` is 6 after the rotation,
not 0. -/
theorem rotation_leaves_logDuration :
    (LogMessage scenario2Start.2.1 scenario2Start.2.2 (envAt 106 "-106") "hello").map
        (fun p => (newFileCalls p.2.trace, createdNames p.2.trace, p.1.log,
          p.1.logMessageCount, p.1.logDuration))
      = some (1, ["app-100.log", "app-106.log"], some ⟨"app-106.log"⟩, 0, 6) := by
  decide

/-! ## A rotation whose file creation fails -/

theorem writtenBytes_quiet_free (name : String) (evs : List Event)
    (h : ∀ e ∈ evs, ∀ n d ok, e ≠ Event.write n d ok) : writtenBytes name evs = "" := by
  induction evs with
  | nil => rfl
  | cons e evs ih =>
    have ih' := ih (fun e' he' => h e' (List.mem_cons_of_mem _ he'))
    have he := h e (List.mem_cons_self _ _)
    cases e with
    | write n d ok => exact absurd rfl (he n d ok)
    | _ => simpa [writtenBytes] using ih'

/-- The first half of `LogMessage` on a started writer without an earlier error
when the writes succeed: every byte of the message and of the former buffer
has been written to the writer's file or is in the buffer. -/
theorem LogMessage_started_ok (sl : SeanLogger) (w : World) (env : Env) (message : String)
    (b : Writer) (hb : sl.writer = some b) (herr : b.err = none) (hw : env.writeErr = none) :
    ∃ b' w1,
      (newFileCalls w1.trace = newFileCalls w.trace ∧
        pruneFileCalls w1.trace = pruneFileCalls w.trace ∧
        createdNames w1.trace = createdNames w.trace ∧
        removedNames w1.trace = removedNames w.trace ∧
        closedFiles w1.trace = closedFiles w.trace) ∧
      b'.wr = b.wr ∧ b'.err = none ∧
      (∀ n, n ≠ b.wr.name → w1.files n = w.files n) ∧
      (w1.files b.wr.name).map (fun c => c ++ b'.buf)
        = (w.files b.wr.name).map (fun c => c ++ (b.buf ++ (message ++ "\n"))) ∧
      (∃ evs, w1.trace = w.trace ++ evs ∧
        writtenBytes b.wr.name evs ++ b'.buf = b.buf ++ (message ++ "\n")) ∧
      LogMessage sl w env message =
        if wrapU64 (sl.logMessageCount + 1) ≥ sl.MaxLogMessageCount ∨
            wrapI64 (sl.logDuration + wrapI64 (env.now - sl.logStamp)) ≥ sl.MaxLogDuration then
          (newFile (logged sl env b') w1 env).map fun r => (r.2.1, r.2.2)
        else some (logged sl env b', w1) := by
  obtain ⟨⟨evs, h1, hq⟩, hwr, hoth, -⟩ :=
    Write_spec (w.emit .callLogMessage) env b (message ++ "\n")
  obtain ⟨-, herr', hfile, evs', h1', hbytes⟩ :=
    Write_ok (w.emit .callLogMessage) env b (message ++ "\n") herr hw
  have htr : (Writer.Write (w.emit .callLogMessage) env b (message ++ "\n")).2.2.trace
      = w.trace ++ (.callLogMessage :: evs) := by
    rw [h1]
    simp [World.emit]
  have hq' : ∀ e ∈ Event.callLogMessage :: evs, quiet e := by
    intro e he
    rcases List.mem_cons.mp he with h | h
    · exact Or.inl h
    · exact hq e h
  refine ⟨_, _, ?_, hwr, herr', hoth, hfile, ⟨.callLogMessage :: evs', ?_, ?_⟩,
    LogMessage_written sl w env message b hb⟩
  · rw [htr]
    exact quiet_trace w.trace _ hq'
  · rw [h1']
    simp [World.emit]
  · simpa [writtenBytes] using hbytes

/-- C9: on a started writer, when `os.Create` fails during a rotation,
`newFile` returns that error, leaves every field of the writer as it was and
its only events are its entry and the failed creation (nothing is flushed or
closed, the files are as before).  After the enclosing `LogMessage` call the
writer differs from the former one in the buffered writer's state,
`logMessageCount`, `logDuration` and `logStamp` only: the active file, the
history and `logFileCount` are unchanged, the buffered writer is still the one
on the old file, no file was closed or handed to `os.Remove`, no file appears
or disappears and the files other than the old one are untouched;
`logMessageCount` and `logDuration` have the values `LogMessage` gave them
before the rotation attempt.  The message is not lost: when the writer carried no earlier error
and the writes succeeded, the bytes written to the old file during the call
followed by the bytes left in the buffer are the bytes buffered before
followed by the message and a newline. -/
theorem rotation_create_fails (sl : SeanLogger) (w : World) (env : Env) (message : String)
    (err : Error) (b : Writer) (hb : sl.writer = some b) (hc : env.createErr = some err) :
    (∃ w', newFile sl w env = some (some err, sl, w') ∧ w'.files = w.files ∧
      w'.trace = w.trace ++
        [.callNewFile, .create (env.TimeStampFileName sl.baseLogName LOG_EXTENSION) false]) ∧
    (∃ sl' w' b', LogMessage sl w env message = some (sl', w') ∧
      sl' = logged sl env b' ∧
      sl'.log = sl.log ∧ sl'.logFileNames = sl.logFileNames ∧
      sl'.logFileCount = sl.logFileCount ∧ sl'.baseLogName = sl.baseLogName ∧
      sl'.writer = some b' ∧ b'.wr = b.wr ∧
      sl'.logMessageCount = wrapU64 (sl.logMessageCount + 1) ∧
      sl'.logDuration = wrapI64 (sl.logDuration + wrapI64 (env.now - sl.logStamp)) ∧
      sl'.logStamp = env.now ∧
      closedFiles w'.trace = closedFiles w.trace ∧
      removedNames w'.trace = removedNames w.trace ∧
      (∀ n, (w'.files n).isSome = (w.files n).isSome) ∧
      (∀ n, n ≠ b.wr.name → w'.files n = w.files n) ∧
      (b.err = none → env.writeErr = none →
        b'.err = none ∧
        ∃ evs, w'.trace = w.trace ++ evs ∧
          writtenBytes b.wr.name evs ++ b'.buf = b.buf ++ (message ++ "\n"))) := by
  constructor
  · exact ⟨_, newFile_create_fails sl w env err hc, rfl, by simp [World.emit]⟩
  · have hmain : ∀ (b' : Writer) (w1 : World),
        closedFiles w1.trace = closedFiles w.trace →
        removedNames w1.trace = removedNames w.trace →
        (LogMessage sl w env message =
          if wrapU64 (sl.logMessageCount + 1) ≥ sl.MaxLogMessageCount ∨
              wrapI64 (sl.logDuration + wrapI64 (env.now - sl.logStamp)) ≥ sl.MaxLogDuration then
            (newFile (logged sl env b') w1 env).map fun r => (r.2.1, r.2.2)
          else some (logged sl env b', w1)) →
        ∃ w', LogMessage sl w env message = some (logged sl env b', w') ∧
          w'.files = w1.files ∧
          closedFiles w'.trace = closedFiles w.trace ∧
          removedNames w'.trace = removedNames w.trace ∧
          ∃ tail, w'.trace = w1.trace ++ tail ∧ ∀ name, writtenBytes name tail = "" := by
      intro b' w1 hcl hrm hLM
      by_cases hcond : wrapU64 (sl.logMessageCount + 1) ≥ sl.MaxLogMessageCount ∨
          wrapI64 (sl.logDuration + wrapI64 (env.now - sl.logStamp)) ≥ sl.MaxLogDuration
      · refine ⟨(w1.emit .callNewFile).emit
            (.create (env.TimeStampFileName sl.baseLogName LOG_EXTENSION) false),
          by rw [hLM, if_pos hcond, newFile_create_fails _ w1 env err hc]; rfl, rfl, ?_, ?_,
          [.callNewFile, .create (env.TimeStampFileName sl.baseLogName LOG_EXTENSION) false],
          by simp [World.emit], fun name => by simp [writtenBytes]⟩
        · simp only [World.emit, closedFiles_append, hcl]
          simp [closedFiles]
        · simp only [World.emit, removedNames_append, hrm]
          simp [removedNames]
      · exact ⟨w1, by rw [hLM, if_neg hcond], rfl, hcl, hrm, [], by simp,
          fun name => rfl⟩
    obtain ⟨b', w1, -, ⟨-, -, -, hrm, hcl⟩, hwr, hsome, hoth, hLM⟩ :=
      LogMessage_started sl w env message b hb
    obtain ⟨w', hres, hfiles, hcl', hrm', -⟩ := hmain b' w1 hcl hrm hLM
    refine ⟨logged sl env b', w', b', hres, rfl, rfl, rfl, rfl, rfl, rfl, hwr, rfl, rfl, rfl,
      hcl', hrm', ?_, ?_, ?_⟩
    · intro n; rw [hfiles]; exact hsome n
    · intro n hn; rw [hfiles]; exact hoth n hn
    · intro herr hw
      obtain ⟨b2, w2, ⟨-, -, -, hrm2, hcl2⟩, -, herr2, -, -, ⟨evs, htr, hbytes⟩, hLM2⟩ :=
        LogMessage_started_ok sl w env message b hb herr hw
      obtain ⟨w3, hres3, -, -, -, tail, htail, hnone⟩ := hmain b2 w2 hcl2 hrm2 hLM2
      rw [hres] at hres3
      simp only [Option.some.injEq, Prod.mk.injEq] at hres3
      obtain ⟨hsl, rfl⟩ := hres3
      have hbb : b' = b2 := by
        have : (logged sl env b').writer = (logged sl env b2).writer := by rw [hsl]
        exact Option.some.inj this
      subst hbb
      refine ⟨herr2, evs ++ tail, by rw [htail, htr, List.append_assoc], ?_⟩
      rw [writtenBytes_append, hnone, String.append_empty]
      exact hbytes

/-- C9 at a concrete input: scenario 2, the rotation due at clock reading 106
meets a failing `os.Create`.  The message `hello` is in the buffer of the old
file's writer; a message of 5000 bytes is on the old file and the buffer is
empty.  In both cases the old file is still the active one. -/
theorem rotation_create_fails_witness :
    scenario2Start.2.1.writer = some (NewWriter ⟨"app-100.log"⟩) ∧
    (envCreateFails 106 "-106" "disk full").createErr = some "disk full" ∧
    (LogMessage scenario2Start.2.1 scenario2Start.2.2
        (envCreateFails 106 "-106" "disk full") "hello").map
      (fun p => (p.1.log, p.1.writer, p.1.logFileNames, p.1.logMessageCount, p.1.logDuration))
      = some (some ⟨"app-100.log"⟩, some ⟨⟨"app-100.log"⟩, "hello\n", none⟩,
          ["app-100.log"], 1, 6) ∧
    (LogMessage scenario2Start.2.1 scenario2Start.2.2
        (envCreateFails 106 "-106" "disk full") longMessage).map
      (fun p => (p.1.log, p.1.writer, p.2.files "app-100.log"))
      = some (some ⟨"app-100.log"⟩, some ⟨⟨"app-100.log"⟩, "", none⟩,
          some (longMessage ++ "\n")) ∧
    (∃ sl' w' b', LogMessage scenario2Start.2.1 scenario2Start.2.2
        (envCreateFails 106 "-106" "disk full") "hello" = some (sl', w') ∧
      sl' = logged scenario2Start.2.1 (envCreateFails 106 "-106" "disk full") b' ∧
      sl'.log = scenario2Start.2.1.log ∧ sl'.logFileNames = scenario2Start.2.1.logFileNames ∧
      sl'.logFileCount = scenario2Start.2.1.logFileCount ∧
      sl'.baseLogName = scenario2Start.2.1.baseLogName ∧
      sl'.writer = some b' ∧ b'.wr = (NewWriter ⟨"app-100.log"⟩).wr ∧
      sl'.logMessageCount = wrapU64 (scenario2Start.2.1.logMessageCount + 1) ∧
      sl'.logDuration = wrapI64 (scenario2Start.2.1.logDuration +
        wrapI64 ((envCreateFails 106 "-106" "disk full").now - scenario2Start.2.1.logStamp)) ∧
      sl'.logStamp = (envCreateFails 106 "-106" "disk full").now ∧
      closedFiles w'.trace = closedFiles scenario2Start.2.2.trace ∧
      removedNames w'.trace = removedNames scenario2Start.2.2.trace ∧
      (∀ n, (w'.files n).isSome = (scenario2Start.2.2.files n).isSome) ∧
      (∀ n, n ≠ (NewWriter ⟨"app-100.log"⟩).wr.name → w'.files n = scenario2Start.2.2.files n) ∧
      ((NewWriter ⟨"app-100.log"⟩).err = none →
        (envCreateFails 106 "-106" "disk full").writeErr = none →
        b'.err = none ∧
        ∃ evs, w'.trace = scenario2Start.2.2.trace ++ evs ∧
          writtenBytes (NewWriter ⟨"app-100.log"⟩).wr.name evs ++ b'.buf
            = (NewWriter ⟨"app-100.log"⟩).buf ++ ("hello" ++ "\n"))) :=
  ⟨rfl, rfl, by decide, scenario2_longMessage,
    (rotation_create_fails scenario2Start.2.1 scenario2Start.2.2
      (envCreateFails 106 "-106" "disk full") "hello" "disk full"
      (NewWriter ⟨"app-100.log"⟩) rfl rfl).2⟩

/-! ## Round trip of the messages -/

theorem runLogged_fst (sl : SeanLogger) (w : World) (calls : List Call) :
    (runLogged sl w calls).1 = run sl w calls := by
  induction calls using List.reverseRecOn with
  | nil => rfl
  | append_singleton pre c ih =>
    rw [run_concat, ← ih]
    unfold runLogged
    rw [List.foldl_append]
    simp only [List.foldl_cons, List.foldl_nil]
    split
    · rename_i h
      rw [h]
      rfl
    · rename_i p h
      rw [h]
      rfl

theorem submissions_concat (sl0 : SeanLogger) (w0 : World) (pre : List Call) (c : Call)
    (sl : SeanLogger) (w : World) (h : run sl0 w0 pre = some (sl, w)) :
    submissions sl0 w0 (pre ++ [c]) = submissions sl0 w0 pre ++ [(sl.log, c.2)] := by
  have h1 := runLogged_fst sl0 w0 pre
  rw [h] at h1
  unfold submissions runLogged at *
  rw [List.foldl_append]
  simp only [List.foldl_cons, List.foldl_nil]
  rw [h1]

theorem expectedContent_concat_same (subs : List (Option File × String)) (a m : String) :
    expectedContent (subs ++ [(some ⟨a⟩, m)]) a = expectedContent subs a ++ (m ++ "\n") := by
  simp [expectedContent, List.filter_append, String.join, List.foldl_append]

theorem expectedContent_concat_other (subs : List (Option File × String)) (a n m : String)
    (h : n ≠ a) :
    expectedContent (subs ++ [(some ⟨a⟩, m)]) n = expectedContent subs n := by
  have : ¬ (a = n) := fun hh => h hh.symm
  simp [expectedContent, List.filter_append, this]

theorem expectedContent_unused (subs : List (Option File × String)) (n : String)
    (h : ∀ p ∈ subs, p.1 ≠ some ⟨n⟩) : expectedContent subs n = "" := by
  have : subs.filter (fun p => p.1 = some ⟨n⟩) = [] := by
    rw [List.filter_eq_nil_iff]
    intro p hp
    simpa using h p hp
  simp [expectedContent, this, String.join]

/-- A rotation whose file creation succeeds, seen through the names: one name
is created, `newFile` is entered once, and the removed names followed by the
history are the former ones followed by the new name. -/
theorem newFile_created_observed (sl : SeanLogger) (w : World) (env : Env) (b : Writer)
    (hc : env.createErr = none) (hb : sl.writer = some b) :
    ∃ e sl' w', newFile sl w env = some (e, sl', w') ∧
      sl' = { rotated sl (env.TimeStampFileName sl.baseLogName LOG_EXTENSION) with
          logFileNames :=
            if wrapU64 (sl.logFileCount + 1) ≥ sl.MaxLogFileCount then
              (sl.logFileNames ++ [env.TimeStampFileName sl.baseLogName LOG_EXTENSION]).tail
            else sl.logFileNames ++ [env.TimeStampFileName sl.baseLogName LOG_EXTENSION] } ∧
      createdNames w'.trace =
        createdNames w.trace ++ [env.TimeStampFileName sl.baseLogName LOG_EXTENSION] ∧
      newFileCalls w'.trace = newFileCalls w.trace + 1 ∧
      removedNames w'.trace ++ sl'.logFileNames =
        removedNames w.trace ++
          (sl.logFileNames ++ [env.TimeStampFileName sl.baseLogName LOG_EXTENSION]) := by
  obtain ⟨-, hrem, hcre, hnfc⟩ := rotatedWorld_observed sl w env b hc
  by_cases hp : wrapU64 (sl.logFileCount + 1) ≥ sl.MaxLogFileCount
  · obtain ⟨x, rest, hx⟩ : ∃ x rest,
        sl.logFileNames ++ [env.TimeStampFileName sl.baseLogName LOG_EXTENSION] = x :: rest := by
      cases hl : sl.logFileNames with
      | nil => exact ⟨_, [], rfl⟩
      | cons y ys => exact ⟨y, _, rfl⟩
    obtain ⟨ok, hrm⟩ := osRemove_trace (((rotatedWorld sl w env b).emit .callPruneFile).emit
      (.stdout ("Deleting oldest log file: %v " ++ x ++ "\n"))) env x
    refine ⟨_, _, _, newFile_prune sl w env b x rest hc hb hp hx, ?_, ?_, ?_, ?_⟩
    · rw [if_pos hp, hx]; rfl
    · rw [hrm]
      simp only [World.emit, createdNames_append, hcre]
      simp [createdNames]
    · rw [hrm]
      simp only [World.emit, newFileCalls_append, hnfc]
      simp [newFileCalls]
    · rw [hrm]
      simp only [World.emit, removedNames_append, hrem]
      rw [hx]
      simp [removedNames]
  · refine ⟨_, _, _, newFile_no_prune sl w env b hc hb hp, ?_, hcre, hnfc, ?_⟩
    · rw [if_neg hp]; rfl
    · rw [hrem]; rfl

/-- The file store after a rotation in which every system call succeeds, up
to the pruning test: the buffered bytes are on the old file, which was closed
with them, and the new file is empty. -/
theorem rotatedWorld_ok (sl : SeanLogger) (w : World) (env : Env) (b : Writer) (a : String)
    (hl : sl.log = some ⟨a⟩) (hwr : b.wr = ⟨a⟩) (herr : b.err = none)
    (hc : env.createErr = none) (hw : env.writeErr = none)
    (haf : a ≠ env.TimeStampFileName sl.baseLogName LOG_EXTENSION) :
    (∀ n, (rotatedWorld sl w env b).files n =
      rotatedFiles w.files a (env.TimeStampFileName sl.baseLogName LOG_EXTENSION) b.buf n) ∧
    closedFiles (rotatedWorld sl w env b).trace =
      closedFiles w.trace ++ [(a, (w.files a).map (fun c => c ++ b.buf))] := by
  have hname : b.wr.name = a := by rw [hwr]
  obtain ⟨⟨evs, htr, hq⟩, -, hoth, -⟩ := Flush_spec
    (osCreate (w.emit .callNewFile) env
      (env.TimeStampFileName sl.baseLogName LOG_EXTENSION)).2 env b
  obtain ⟨-, hfile, -⟩ := Flush_ok
    (osCreate (w.emit .callNewFile) env
      (env.TimeStampFileName sl.baseLogName LOG_EXTENSION)).2 env b herr hw
  rw [hname] at hfile hoth
  have h0f : ∀ n, (osCreate (w.emit .callNewFile) env
      (env.TimeStampFileName sl.baseLogName LOG_EXTENSION)).2.files n =
      if n = env.TimeStampFileName sl.baseLogName LOG_EXTENSION then some "" else w.files n := by
    intro n
    simp [osCreate, hc, World.emit]
  have h0t : (osCreate (w.emit .callNewFile) env
      (env.TimeStampFileName sl.baseLogName LOG_EXTENSION)).2.trace =
      w.trace ++ [.callNewFile,
        .create (env.TimeStampFileName sl.baseLogName LOG_EXTENSION) true] := by
    simp [osCreate, hc, World.emit]
  have hfa : (Flush (osCreate (w.emit .callNewFile) env
      (env.TimeStampFileName sl.baseLogName LOG_EXTENSION)).2 env b).2.2.files a =
      (w.files a).map (fun c => c ++ b.buf) := by
    rw [hfile, h0f, if_neg haf]
  constructor
  · intro n
    unfold rotatedWorld
    rw [Close_files]
    unfold rotatedFiles
    by_cases hn : n = a
    · rw [if_pos hn, hn]; exact hfa
    · rw [if_neg hn, hoth n hn, h0f]
  · unfold rotatedWorld
    rw [hl]
    show closedFiles ((Flush (osCreate (w.emit Event.callNewFile) env _).2 env b).2.2.trace ++
      [Event.close a ((Flush (osCreate (w.emit Event.callNewFile) env _).2 env b).2.2.files a)])
      = _
    rw [closedFiles_append, htr, h0t, (quiet_trace _ evs hq).2.2.2.2, closedFiles_append, hfa]
    simp [closedFiles]

/-- A rotating `LogMessage` call in an environment where every system call
succeeds, on a writer without an earlier error whose new file name differs
from the active one: the writer and the file store afterwards. -/
theorem LogMessage_rotation_ok (sl : SeanLogger) (w : World) (env : Env) (message : String)
    (a : String) (b : Writer) (hb : sl.writer = some b) (hwr : b.wr = ⟨a⟩)
    (herr : b.err = none) (hl : sl.log = some ⟨a⟩)
    (hc : env.createErr = none) (hw : env.writeErr = none) (hr : env.removeErr = none)
    (hcond : wrapU64 (sl.logMessageCount + 1) ≥ sl.MaxLogMessageCount ∨
      wrapI64 (sl.logDuration + wrapI64 (env.now - sl.logStamp)) ≥ sl.MaxLogDuration)
    (haf : a ≠ env.TimeStampFileName sl.baseLogName LOG_EXTENSION) :
    ∃ sl' w', LogMessage sl w env message = some (sl', w') ∧
      sl'.log = some ⟨env.TimeStampFileName sl.baseLogName LOG_EXTENSION⟩ ∧
      sl'.writer = some (NewWriter ⟨env.TimeStampFileName sl.baseLogName LOG_EXTENSION⟩) ∧
      createdNames w'.trace =
        createdNames w.trace ++ [env.TimeStampFileName sl.baseLogName LOG_EXTENSION] ∧
      closedFiles w'.trace = closedFiles w.trace ++
        [(a, (w.files a).map (fun c => c ++ (b.buf ++ (message ++ "\n"))))] ∧
      ((sl'.logFileNames =
            sl.logFileNames ++ [env.TimeStampFileName sl.baseLogName LOG_EXTENSION] ∧
          ∀ n, w'.files n = rotatedFiles w.files a
            (env.TimeStampFileName sl.baseLogName LOG_EXTENSION)
            (b.buf ++ (message ++ "\n")) n) ∨
        (∃ x, x :: sl'.logFileNames =
            sl.logFileNames ++ [env.TimeStampFileName sl.baseLogName LOG_EXTENSION] ∧
          ∀ n, w'.files n = if n = x then none else
            rotatedFiles w.files a (env.TimeStampFileName sl.baseLogName LOG_EXTENSION)
              (b.buf ++ (message ++ "\n")) n)) := by
  obtain ⟨b', w1, ⟨-, -, hcre1, -, hclo1⟩, hwr', herr', hoth, hfile, -, hLM⟩ :=
    LogMessage_started_ok sl w env message b hb herr hw
  have hname : b.wr.name = a := by rw [hwr]
  rw [hname] at hoth hfile
  obtain ⟨hfiles, hclosed⟩ := rotatedWorld_ok (logged sl env b') w1 env b' a hl
    (hwr'.trans hwr) herr' hc hw haf
  obtain ⟨-, -, hcreated, -⟩ := rotatedWorld_observed (logged sl env b') w1 env b' hc
  have hbase : (logged sl env b').baseLogName = sl.baseLogName := rfl
  rw [hbase] at hfiles hcreated
  rw [hfile, hclo1] at hclosed
  rw [hcre1] at hcreated
  have hsame : ∀ n, rotatedFiles w1.files a
      (env.TimeStampFileName sl.baseLogName LOG_EXTENSION) b'.buf n =
      rotatedFiles w.files a (env.TimeStampFileName sl.baseLogName LOG_EXTENSION)
        (b.buf ++ (message ++ "\n")) n := by
    intro n
    unfold rotatedFiles
    by_cases hn : n = a
    · rw [if_pos hn, if_pos hn, hn]; exact hfile
    · rw [if_neg hn, if_neg hn, hoth n hn]
  rw [hLM, if_pos hcond]
  by_cases hp : wrapU64 (sl.logFileCount + 1) ≥ sl.MaxLogFileCount
  · obtain ⟨x, rest, hx⟩ : ∃ x rest,
        sl.logFileNames ++ [env.TimeStampFileName sl.baseLogName LOG_EXTENSION] = x :: rest := by
      cases hl : sl.logFileNames with
      | nil => exact ⟨_, [], rfl⟩
      | cons y ys => exact ⟨y, _, rfl⟩
    rw [newFile_prune (logged sl env b') w1 env b' x rest hc rfl hp hx]
    refine ⟨_, _, rfl, rfl, rfl, ?_, ?_, Or.inr ⟨x, hx.symm, ?_⟩⟩
    · simp only [osRemove, hr, World.emit, createdNames_append, hcreated]
      simp [createdNames]
    · simp only [osRemove, hr, World.emit, closedFiles_append, hclosed]
      simp [closedFiles]
    · intro n
      simp only [osRemove, hr, World.emit]
      by_cases hn : n = x
      · rw [if_pos hn, if_pos hn]
      · rw [if_neg hn, if_neg hn, hfiles n, hsame n]
  · rw [newFile_no_prune (logged sl env b') w1 env b' hc rfl hp]
    refine ⟨_, _, rfl, rfl, rfl, hcreated, hclosed, Or.inl ⟨rfl, ?_⟩⟩
    intro n
    show (rotatedWorld (logged sl env b') w1 env b').files n = _
    rw [hfiles n, hsame n]

/-- A `LogMessage` call on a started writer returns a started writer and only
adds events, as long as the file creation succeeds; a name is created exactly
when the call rotates. -/
theorem LogMessage_total (sl : SeanLogger) (w : World) (env : Env) (message : String)
    (hs : Started sl) (hc : env.createErr = none) :
    ∃ sl' w' evs, LogMessage sl w env message = some (sl', w') ∧ Started sl' ∧
      w'.trace = w.trace ++ evs ∧
      ((wrapU64 (sl.logMessageCount + 1) ≥ sl.MaxLogMessageCount ∨
          wrapI64 (sl.logDuration + wrapI64 (env.now - sl.logStamp)) ≥ sl.MaxLogDuration) →
        createdNames w'.trace =
          createdNames w.trace ++ [env.TimeStampFileName sl.baseLogName LOG_EXTENSION]) := by
  unfold Started at hs
  obtain ⟨b, hb⟩ := Option.isSome_iff_exists.mp hs
  obtain ⟨b', w1, ⟨evs1, htr⟩, ⟨-, -, hcre1, -, -⟩, -, -, -, hLM⟩ :=
    LogMessage_started sl w env message b hb
  by_cases hcond : wrapU64 (sl.logMessageCount + 1) ≥ sl.MaxLogMessageCount ∨
      wrapI64 (sl.logDuration + wrapI64 (env.now - sl.logStamp)) ≥ sl.MaxLogDuration
  · obtain ⟨e, sl', w', evs, hnf, hsl', htr', -⟩ :=
      newFile_created (logged sl env b') w1 env b' hc rfl
    obtain ⟨e2, sl2, w2, hnf2, -, hcre2, -, -⟩ :=
      newFile_created_observed (logged sl env b') w1 env b' hc rfl
    rw [hnf] at hnf2
    simp only [Option.some.injEq, Prod.mk.injEq] at hnf2
    obtain ⟨-, -, rfl⟩ := hnf2
    refine ⟨sl', w', evs1 ++ .callNewFile :: evs,
      by rw [hLM, if_pos hcond, hnf]; rfl, by rw [hsl']; rfl, ?_, fun _ => ?_⟩
    · rw [htr', htr, List.append_assoc]
    · rw [hcre2, hcre1]; rfl
  · exact ⟨logged sl env b', w1, evs1, by rw [hLM, if_neg hcond], rfl, htr,
      fun h => absurd h hcond⟩

/-- The invariant is kept by a call that does not rotate. -/
theorem RoundTrip_stays (files0 : String → Option String)
    (subs : List (Option File × String)) (sl : SeanLogger) (w : World) (env : Env)
    (message : String) (hinv : RoundTrip files0 subs sl w)
    (hnd : (createdNames w.trace).Nodup) (hw : env.writeErr = none)
    (hcond : ¬ (wrapU64 (sl.logMessageCount + 1) ≥ sl.MaxLogMessageCount ∨
      wrapI64 (sl.logDuration + wrapI64 (env.now - sl.logStamp)) ≥ sl.MaxLogDuration)) :
    ∃ sl' w', LogMessage sl w env message = some (sl', w') ∧
      RoundTrip files0 (subs ++ [(sl.log, message)]) sl' w' := by
  obtain ⟨a, b, c, hl, hb, hwr, herr, hfa, hcont, hlast, hsub, hcr, hcl, hhist, hother, hsubs⟩ :=
    hinv
  obtain ⟨b', w1, ⟨-, -, hcre, -, hclo⟩, hwr', herr', hoth, hfile, -, hLM⟩ :=
    LogMessage_started_ok sl w env message b hb herr hw
  have hname : b.wr.name = a := by rw [hwr]
  rw [hname] at hoth hfile
  rw [hfa] at hfile
  have hac : a ∈ createdNames w.trace := by rw [hcr]; simp
  have hanc : a ∉ (closedFiles w.trace).map Prod.fst := by
    rw [hcr] at hnd
    intro hmem
    exact (List.nodup_append.mp hnd).2.2 hmem (List.mem_singleton_self a)
  obtain ⟨c', hc1, hc2⟩ : ∃ c', w1.files a = some c' ∧
      c' ++ b'.buf = c ++ (b.buf ++ (message ++ "\n")) := by
    cases h : w1.files a with
    | none => rw [h] at hfile; simp at hfile
    | some c' =>
      rw [h] at hfile
      simp only [Option.map_some', Option.some.injEq] at hfile
      exact ⟨c', rfl, hfile⟩
  refine ⟨logged sl env b', w1, by rw [hLM, if_neg hcond], ?_⟩
  refine ⟨a, b', c', hl, rfl, hwr'.trans hwr, herr', hc1, ?_, hlast, ?_, ?_, ?_, ?_, ?_, ?_⟩
  · rw [hl, expectedContent_concat_same, ← hcont, hc2, String.append_assoc]
  · rw [hcre]; exact hsub
  · rw [hcre, hclo]; exact hcr
  · intro p hp
    rw [hclo] at hp
    have hne : p.1 ≠ a := fun h => hanc (by rw [← h]; exact List.mem_map_of_mem _ hp)
    rw [hl, expectedContent_concat_other _ _ _ _ hne]
    exact hcl p hp
  · intro n hn hna
    rw [hl, expectedContent_concat_other _ _ _ _ hna, hoth n hna]
    exact hhist n hn hna
  · intro n hn
    rw [hcre] at hn
    have hna : n ≠ a := fun h => hn (h ▸ hac)
    rw [hoth n hna]
    exact hother n hn
  · intro p hp
    rw [hcre]
    rcases List.mem_append.mp hp with h | h
    · exact hsubs p h
    · rw [List.mem_singleton] at h
      exact ⟨a, by rw [h, hl], hac⟩

/-- The invariant is kept by a call that rotates, when the new name was never
created before. -/
theorem RoundTrip_rotates (files0 : String → Option String)
    (subs : List (Option File × String)) (sl : SeanLogger) (w : World) (env : Env)
    (message : String) (hinv : RoundTrip files0 subs sl w)
    (hc : env.createErr = none) (hw : env.writeErr = none) (hr : env.removeErr = none)
    (hcond : wrapU64 (sl.logMessageCount + 1) ≥ sl.MaxLogMessageCount ∨
      wrapI64 (sl.logDuration + wrapI64 (env.now - sl.logStamp)) ≥ sl.MaxLogDuration)
    (hnd : (createdNames w.trace).Nodup)
    (hfnew : env.TimeStampFileName sl.baseLogName LOG_EXTENSION ∉ createdNames w.trace) :
    ∃ sl' w', LogMessage sl w env message = some (sl', w') ∧
      RoundTrip files0 (subs ++ [(sl.log, message)]) sl' w' := by
  obtain ⟨a, b, c, hl, hb, hwr, herr, hfa, hcont, hlast, hsub, hcr, hcl, hhist, hother, hsubs⟩ :=
    hinv
  have hac : a ∈ createdNames w.trace := by rw [hcr]; simp
  have haf : a ≠ env.TimeStampFileName sl.baseLogName LOG_EXTENSION :=
    fun h => hfnew (h ▸ hac)
  obtain ⟨sl', w', hLM, hl', hb', hcre, hclo, hshape⟩ :=
    LogMessage_rotation_ok sl w env message a b hb hwr herr hl hc hw hr hcond haf
  refine ⟨sl', w', hLM, ?_⟩
  generalize hf : env.TimeStampFileName sl.baseLogName LOG_EXTENSION = f at *
  have hnd' : (createdNames w.trace ++ [f]).Nodup := by
    rw [List.nodup_append]
    refine ⟨hnd, List.nodup_singleton f, ?_⟩
    intro x hx hx'
    rw [List.mem_singleton] at hx'
    exact hfnew (hx' ▸ hx)
  have hanc : a ∉ (closedFiles w.trace).map Prod.fst := by
    rw [hcr] at hnd
    intro hmem
    exact (List.nodup_append.mp hnd).2.2 hmem (List.mem_singleton_self a)
  have hflushed : rotatedFiles w.files a f (b.buf ++ (message ++ "\n")) a
      = some (expectedContent (subs ++ [(some ⟨a⟩, message)]) a) := by
    unfold rotatedFiles
    rw [if_pos rfl, hfa, expectedContent_concat_same, ← hcont, String.append_assoc]
    rfl
  have hclosedNow : (w.files a).map (fun c => c ++ (b.buf ++ (message ++ "\n")))
      = some (expectedContent (subs ++ [(some ⟨a⟩, message)]) a) := by
    rw [hfa, expectedContent_concat_same, ← hcont, String.append_assoc]
    rfl
  have hkept : ∀ n, n ≠ a → n ≠ f →
      rotatedFiles w.files a f (b.buf ++ (message ++ "\n")) n = w.files n := by
    intro n h1 h2
    simp [rotatedFiles, h1, h2]
  have hnewfile : rotatedFiles w.files a f (b.buf ++ (message ++ "\n")) f = some "" := by
    simp [rotatedFiles, haf.symm]
  have hfull : (sl.logFileNames ++ [f]).Sublist (createdNames w.trace ++ [f]) :=
    List.Sublist.append hsub (List.Sublist.refl _)
  have hfullnd : (sl.logFileNames ++ [f]).Nodup := hnd'.sublist hfull
  obtain ⟨ys, hys⟩ := List.getLast?_eq_some_iff.mp hlast
  -- the shape of the new history and of the files, with or without pruning
  have hunified : sl'.logFileNames.Sublist (sl.logFileNames ++ [f]) ∧
      sl'.logFileNames.getLast? = some f ∧
      (∀ n, (n ∈ sl'.logFileNames ∨ n ∉ createdNames w.trace) →
        w'.files n = rotatedFiles w.files a f (b.buf ++ (message ++ "\n")) n) := by
    rcases hshape with ⟨h1, h2⟩ | ⟨x, h1, h2⟩
    · refine ⟨by rw [h1], by rw [h1]; exact List.getLast?_concat _, ?_⟩
      intro n _
      rw [h2 n]
    · have hxnd : (x :: sl'.logFileNames).Nodup := by rw [h1]; exact hfullnd
      have hxhist : x ∈ sl.logFileNames := by
        rw [hys] at h1 ⊢
        cases ys with
        | nil =>
          simp only [List.nil_append, List.cons_append, List.cons.injEq] at h1
          rw [h1.1]; simp
        | cons y ys' =>
          simp only [List.cons_append, List.cons.injEq] at h1
          rw [h1.1]; simp
      have hxc : x ∈ createdNames w.trace := hsub.subset hxhist
      refine ⟨?_, ?_, ?_⟩
      · rw [← h1]; exact List.sublist_cons_self _ _
      · have : (x :: sl'.logFileNames).getLast? = some f := by
          rw [h1]; exact List.getLast?_concat _
        cases hL : sl'.logFileNames with
        | nil =>
          rw [hL] at h1
          rw [hys] at h1
          cases ys with
          | nil => simp at h1
          | cons y ys' =>
            simp only [List.cons_append, List.cons.injEq] at h1
            have := h1.2
            cases ys' <;> simp at this
        | cons z zs =>
          rw [hL, List.getLast?_cons_cons] at this
          exact this
      · intro n hn
        have hnx : n ≠ x := by
          rcases hn with hn | hn
          · intro h
            exact (List.nodup_cons.mp hxnd).1 (h ▸ hn)
          · intro h
            exact hn (h ▸ hxc)
        rw [h2 n, if_neg hnx]
  obtain ⟨hL1, hL2, hL3⟩ := hunified
  have hfmem : f ∈ sl'.logFileNames := List.mem_of_getLast?_eq_some hL2
  rw [hl]
  refine ⟨f, NewWriter ⟨f⟩, "", hl', hb', rfl, rfl, ?_, ?_, hL2, ?_, ?_, ?_, ?_, ?_, ?_⟩
  · rw [hL3 f (Or.inl hfmem), hnewfile]
  · rw [expectedContent_unused]
    · rfl
    · intro p hp
      rcases List.mem_append.mp hp with h | h
      · obtain ⟨n, h1, h2⟩ := hsubs p h
        rw [h1]
        intro heq
        simp only [Option.some.injEq, File.mk.injEq] at heq
        exact hfnew (heq ▸ h2)
      · rw [List.mem_singleton] at h
        rw [h]
        intro heq
        simp only [Option.some.injEq, File.mk.injEq] at heq
        exact haf heq
  · rw [hcre]; exact hL1.trans hfull
  · rw [hcre, hclo, hcr]; simp
  · intro p hp
    rw [hclo] at hp
    rcases List.mem_append.mp hp with h | h
    · have hne : p.1 ≠ a := fun h' => hanc (by rw [← h']; exact List.mem_map_of_mem _ h)
      rw [expectedContent_concat_other _ _ _ _ hne]
      exact hcl p h
    · rw [List.mem_singleton] at h
      rw [h]
      exact hclosedNow
  · intro n hn hnf
    rw [hL3 n (Or.inl hn)]
    have hnh : n ∈ sl.logFileNames := by
      have := hL1.subset hn
      rcases List.mem_append.mp this with h | h
      · exact h
      · exact absurd (List.mem_singleton.mp h) hnf
    by_cases hna : n = a
    · rw [hna]; exact hflushed
    · rw [hkept n hna hnf, expectedContent_concat_other _ _ _ _ hna]
      exact hhist n hnh hna
  · intro n hn
    rw [hcre] at hn
    have hn1 : n ∉ createdNames w.trace := fun h => hn (List.mem_append_left _ h)
    have hn2 : n ≠ f := fun h => hn (by rw [h]; simp)
    have hn3 : n ≠ a := fun h => hn1 (h ▸ hac)
    rw [hL3 n (Or.inr hn1), hkept n hn3 hn2]
    exact hother n hn1
  · intro p hp
    rcases List.mem_append.mp hp with h | h
    · obtain ⟨n, h1, h2⟩ := hsubs p h
      exact ⟨n, h1, by rw [hcre]; exact List.mem_append_left _ h2⟩
    · rw [List.mem_singleton] at h
      exact ⟨a, by rw [h], by rw [hcre]; exact List.mem_append_left _ hac⟩

/-- C10 (round trip): a fresh writer is started once and then receives any
sequence of `LogMessage` calls, every system call succeeding.  The run
returns; if the names handed to `os.Create` were pairwise distinct, then at its
end (hence after each call), with `a` the active file:
* the files created before `a` are exactly the files closed so far, in order,
  and each was closed holding exactly the messages submitted while it was the
  active file (the rotating one included), each followed by a newline, in
  submission order;
* every name still in the history other than `a` still holds that content;
* the buffered writer is on `a` and carries no error, and the bytes of `a` on
  disk followed by the bytes still in the buffer are exactly the messages
  submitted to `a`, each followed by a newline, in submission order;
* every message was submitted to a file created by the writer, and no other
  file of the store was changed. -/
theorem messages_round_trip (maxFiles maxMessages : Nat) (maxDuration : Int)
    (files : String → Option String) (env0 : Env) (logBaseName : String) (calls : List Call)
    (h0 : env0.createErr = none)
    (hcalls : ∀ c ∈ calls, c.1.createErr = none ∧ c.1.writeErr = none ∧ c.1.removeErr = none) :
    ∃ sl w,
      run (startFresh maxFiles maxMessages maxDuration files env0 logBaseName).2.1
        (startFresh maxFiles maxMessages maxDuration files env0 logBaseName).2.2 calls
        = some (sl, w) ∧
      ((createdNames w.trace).Nodup →
        ∃ a b c, sl.log = some ⟨a⟩ ∧
          createdNames w.trace = (closedFiles w.trace).map Prod.fst ++ [a] ∧
          (∀ p ∈ closedFiles w.trace, p.2 = some (expectedContent
            (submissions (startFresh maxFiles maxMessages maxDuration files env0 logBaseName).2.1
              (startFresh maxFiles maxMessages maxDuration files env0 logBaseName).2.2 calls)
            p.1)) ∧
          (∀ n ∈ sl.logFileNames, n ≠ a → w.files n = some (expectedContent
            (submissions (startFresh maxFiles maxMessages maxDuration files env0 logBaseName).2.1
              (startFresh maxFiles maxMessages maxDuration files env0 logBaseName).2.2 calls)
            n)) ∧
          sl.writer = some b ∧ b.wr = ⟨a⟩ ∧ b.err = none ∧ w.files a = some c ∧
          c ++ b.buf = expectedContent
            (submissions (startFresh maxFiles maxMessages maxDuration files env0 logBaseName).2.1
              (startFresh maxFiles maxMessages maxDuration files env0 logBaseName).2.2 calls)
            a ∧
          (∀ p ∈ submissions
              (startFresh maxFiles maxMessages maxDuration files env0 logBaseName).2.1
              (startFresh maxFiles maxMessages maxDuration files env0 logBaseName).2.2 calls,
            ∃ n, p.1 = some ⟨n⟩ ∧ n ∈ createdNames w.trace) ∧
          (∀ n, n ∉ createdNames w.trace → w.files n = files n)) := by
  obtain ⟨sl, w, hrun, -, hP⟩ := run_induction
    (fun pre sl w => Started sl ∧ ((createdNames w.trace).Nodup →
      RoundTrip files
        (submissions (startFresh maxFiles maxMessages maxDuration files env0 logBaseName).2.1
          (startFresh maxFiles maxMessages maxDuration files env0 logBaseName).2.2 pre) sl w))
    (startFresh maxFiles maxMessages maxDuration files env0 logBaseName).2.1
    (startFresh maxFiles maxMessages maxDuration files env0 logBaseName).2.2 calls
    (by
      refine ⟨by simp [startFresh, StartLog, osCreate, h0, Started], fun _ => ?_⟩
      refine ⟨env0.TimeStampFileName logBaseName LOG_EXTENSION,
        NewWriter ⟨env0.TimeStampFileName logBaseName LOG_EXTENSION⟩, "", ?_⟩
      simp [startFresh, StartLog, osCreate, h0, fresh, NewWriter, submissions, runLogged,
        expectedContent, String.join, createdNames, closedFiles]
      intro n h1 h2
      exact absurd h2 h1)
    (by
      intro pre c sl w hpre hrun ⟨hs, hinv⟩
      obtain ⟨hc, hw, hr⟩ := hcalls c (last_mem_of_isPrefix pre c calls hpre)
      obtain ⟨sl', w', evs, hLM, hs', htr, hcreated⟩ := LogMessage_total sl w c.1 c.2 hs hc
      refine ⟨sl', w', hLM, hs', ?_⟩
      intro hnd'
      have hnd : (createdNames w.trace).Nodup := by
        rw [htr, createdNames_append] at hnd'
        exact (List.nodup_append.mp hnd').1
      rw [submissions_concat _ _ pre c sl w hrun]
      by_cases hcond : wrapU64 (sl.logMessageCount + 1) ≥ sl.MaxLogMessageCount ∨
          wrapI64 (sl.logDuration + wrapI64 (c.1.now - sl.logStamp)) ≥ sl.MaxLogDuration
      · have hfnew : c.1.TimeStampFileName sl.baseLogName LOG_EXTENSION ∉
            createdNames w.trace := by
          rw [hcreated hcond] at hnd'
          intro hmem
          exact (List.nodup_append.mp hnd').2.2 hmem (List.mem_singleton_self _)
        obtain ⟨sl2, w2, hLM2, h2⟩ :=
          RoundTrip_rotates files _ sl w c.1 c.2 (hinv hnd) hc hw hr hcond hnd hfnew
        rw [hLM] at hLM2
        simp only [Option.some.injEq, Prod.mk.injEq] at hLM2
        obtain ⟨rfl, rfl⟩ := hLM2
        exact h2
      · obtain ⟨sl2, w2, hLM2, h2⟩ :=
          RoundTrip_stays files _ sl w c.1 c.2 (hinv hnd) hnd hw hcond
        rw [hLM] at hLM2
        simp only [Option.some.injEq, Prod.mk.injEq] at hLM2
        obtain ⟨rfl, rfl⟩ := hLM2
        exact h2)
  refine ⟨sl, w, hrun, fun hnd => ?_⟩
  obtain ⟨a, b, c, hl, hb, hwr, herr, hfa, hcont, -, -, hcr, hcl, hhist, hother, hsubs⟩ :=
    hP hnd
  exact ⟨a, b, c, hl, hcr, hcl, hhist, hb, hwr, herr, hfa, hcont, hsubs, hother⟩

/-- C10 at concrete inputs.  The first five calls of scenario 1: the two
names created are distinct, the file rotated away was closed holding its three
messages, the two later messages are in the buffer of the second file, and
the conclusion of the round trip holds.  One message of 5000 bytes: it is on
the active file and the buffer is empty.  Two messages of 2499 bytes: the
first 4096 bytes of the two lines are on the active file and the other 904
are in the buffer. -/
theorem messages_round_trip_witness :
    (∃ sl w,
      run scenario1Start.2.1 scenario1Start.2.2 (scenario1Calls.take 5) = some (sl, w) ∧
      (createdNames w.trace).Nodup ∧
      closedFiles w.trace = [("app-100.log", some "m1\nm2\nm3\n")] ∧
      sl.writer = some ⟨⟨"app-103.log"⟩, "m4\nm5\n", none⟩ ∧
      ∃ a b c, sl.log = some ⟨a⟩ ∧
        createdNames w.trace = (closedFiles w.trace).map Prod.fst ++ [a] ∧
        (∀ p ∈ closedFiles w.trace, p.2 = some (expectedContent
          (submissions scenario1Start.2.1 scenario1Start.2.2 (scenario1Calls.take 5)) p.1)) ∧
        (∀ n ∈ sl.logFileNames, n ≠ a → w.files n = some (expectedContent
          (submissions scenario1Start.2.1 scenario1Start.2.2 (scenario1Calls.take 5)) n)) ∧
        sl.writer = some b ∧ b.wr = ⟨a⟩ ∧ b.err = none ∧ w.files a = some c ∧
        c ++ b.buf = expectedContent
          (submissions scenario1Start.2.1 scenario1Start.2.2 (scenario1Calls.take 5)) a ∧
        (∀ p ∈ submissions scenario1Start.2.1 scenario1Start.2.2 (scenario1Calls.take 5),
          ∃ n, p.1 = some ⟨n⟩ ∧ n ∈ createdNames w.trace) ∧
        (∀ n, n ∉ createdNames w.trace → w.files n = (fun _ => none) n)) ∧
    (run scenario1Start.2.1 scenario1Start.2.2 [(envAt 101 "-101", longMessage)]).map
      (fun p => (p.1.writer, p.2.files "app-100.log", createdNames p.2.trace))
      = some (some ⟨⟨"app-100.log"⟩, "", none⟩, some (longMessage ++ "\n"),
          ["app-100.log"]) ∧
    (run scenario1Start.2.1 scenario1Start.2.2
        [(envAt 101 "-101", halfMessage), (envAt 102 "-102", halfMessage)]).map
      (fun p => (p.1.writer, p.2.files "app-100.log", createdNames p.2.trace))
      = some (some ⟨⟨"app-100.log"⟩, dropBytes 1596 (halfMessage ++ "\n"), none⟩,
          some ((halfMessage ++ "\n") ++ takeBytes 1596 (halfMessage ++ "\n")),
          ["app-100.log"]) ∧
    ((halfMessage ++ "\n") ++ takeBytes 1596 (halfMessage ++ "\n")).length = 4096 ∧
    (dropBytes 1596 (halfMessage ++ "\n")).length = 904 := by
  refine ⟨?_, scenario1_longMessage, scenario1_halfMessages⟩
  obtain ⟨sl, w, hrun, h⟩ := messages_round_trip 2 3 1000 (fun _ => none)
    (envAt 100 "-100") "app" (scenario1Calls.take 5) rfl (by decide)
  have hev : (run scenario1Start.2.1 scenario1Start.2.2 (scenario1Calls.take 5)).map
      (fun p => (createdNames p.2.trace, closedFiles p.2.trace, p.1.writer)) =
      some (["app-100.log", "app-103.log"],
        [("app-100.log", some "m1\nm2\nm3\n")],
        some ⟨⟨"app-103.log"⟩, "m4\nm5\n", none⟩) := by
    decide
  have hrun' : run scenario1Start.2.1 scenario1Start.2.2 (scenario1Calls.take 5)
      = some (sl, w) := hrun
  rw [hrun'] at hev
  simp only [Option.map_some', Option.some.injEq, Prod.mk.injEq] at hev
  have hnd : (createdNames w.trace).Nodup := by rw [hev.1]; decide
  exact ⟨sl, w, hrun', hnd, hev.2.1, hev.2.2, h hnd⟩

/-! ## The file counter -/

/-- One `LogMessage` call on a started writer, whatever the environment
answers: it returns a started writer whose `logFileCount` is the former one or
the former one incremented. -/
theorem LogMessage_logFileCount (sl : SeanLogger) (w : World) (env : Env) (message : String)
    (hs : Started sl) :
    ∃ sl' w', LogMessage sl w env message = some (sl', w') ∧ Started sl' ∧
      (sl'.logFileCount = sl.logFileCount ∨
        sl'.logFileCount = wrapU64 (sl.logFileCount + 1)) := by
  unfold Started at hs
  obtain ⟨b, hb⟩ := Option.isSome_iff_exists.mp hs
  obtain ⟨b', w1, -, -, -, -, -, hLM⟩ := LogMessage_started sl w env message b hb
  by_cases hcond : wrapU64 (sl.logMessageCount + 1) ≥ sl.MaxLogMessageCount ∨
      wrapI64 (sl.logDuration + wrapI64 (env.now - sl.logStamp)) ≥ sl.MaxLogDuration
  · cases hc : env.createErr with
    | some err =>
      exact ⟨logged sl env b', _,
        by rw [hLM, if_pos hcond, newFile_create_fails _ w1 env err hc]; rfl, rfl, Or.inl rfl⟩
    | none =>
      obtain ⟨e, sl', w', evs, hnf, hsl', -, -⟩ :=
        newFile_created (logged sl env b') w1 env b' hc rfl
      exact ⟨sl', w', by rw [hLM, if_pos hcond, hnf]; rfl, by rw [hsl']; rfl,
        Or.inr (by rw [hsl']; rfl)⟩
  · exact ⟨logged sl env b', w1, by rw [hLM, if_neg hcond], rfl, Or.inl rfl⟩

/-- C11: from any started writer (such as `StartLog` leaves it) and for any
sequence of `LogMessage` calls, whatever the outcomes of the system calls: the
run up to any call returns, the call returns, and if `logFileCount` was below
`2 ^ 64 - 1` before the call it is not smaller after it.  And `pruneFile`,
whenever it returns, leaves `logFileCount` as it was. -/
theorem logFileCount_never_decreases (sl0 : SeanLogger) (w0 : World) (calls : List Call)
    (hs : Started sl0) :
    (∀ pre c, pre ++ [c] <+: calls →
      ∃ sl1 w1 sl2 w2, run sl0 w0 pre = some (sl1, w1) ∧
        LogMessage sl1 w1 c.1 c.2 = some (sl2, w2) ∧
        run sl0 w0 (pre ++ [c]) = some (sl2, w2) ∧
        (sl1.logFileCount < 2 ^ 64 - 1 → sl1.logFileCount ≤ sl2.logFileCount)) ∧
    (∀ sl w env r, pruneFile sl w env = some r → r.2.1.logFileCount = sl.logFileCount) := by
  constructor
  · intro pre c hpre
    obtain ⟨sl1, w1, hrun, hs1⟩ := run_induction (fun _ sl _ => Started sl) sl0 w0 pre hs
      (by
        intro pre' c' sl w _ _ hst
        obtain ⟨sl', w', hLM, hs', -⟩ := LogMessage_logFileCount sl w c'.1 c'.2 hst
        exact ⟨sl', w', hLM, hs'⟩)
    obtain ⟨sl2, w2, hLM, -, hcount⟩ := LogMessage_logFileCount sl1 w1 c.1 c.2 hs1
    refine ⟨sl1, w1, sl2, w2, hrun, hLM, by rw [run_concat, hrun]; exact hLM, ?_⟩
    intro hlt
    rcases hcount with h | h
    · rw [h]
    · rw [h, wrapU64_of_lt _ (by omega)]
      omega
  · intro sl w env r hr
    unfold pruneFile at hr
    cases hl : sl.logFileNames with
    | nil => simp [hl] at hr
    | cons x rest =>
      simp only [hl, Option.some.injEq] at hr
      rw [← hr]

/-- C11 at a concrete input: scenario 1 with its six calls. -/
theorem logFileCount_never_decreases_witness :
    Started scenario1Start.2.1 ∧
    (∀ pre c, pre ++ [c] <+: scenario1Calls →
      ∃ sl1 w1 sl2 w2, run scenario1Start.2.1 scenario1Start.2.2 pre = some (sl1, w1) ∧
        LogMessage sl1 w1 c.1 c.2 = some (sl2, w2) ∧
        run scenario1Start.2.1 scenario1Start.2.2 (pre ++ [c]) = some (sl2, w2) ∧
        (sl1.logFileCount < 2 ^ 64 - 1 → sl1.logFileCount ≤ sl2.logFileCount)) :=
  ⟨by decide,
    (logFileCount_never_decreases scenario1Start.2.1 scenario1Start.2.2 scenario1Calls
      (by decide)).1⟩

/-! ## `pruneFile` on its own -/

/-- C15: on a writer whose history is `x :: rest`, `pruneFile` returns; the
writer it leaves differs from the former one in the history only, which is
`rest`, whether `os.Remove` succeeds or fails; the name handed to `os.Remove`
is `x`, and the value returned is the result of that `os.Remove` (no error
when it succeeds, its error when it fails). -/
theorem pruneFile_removes_head (sl : SeanLogger) (w : World) (env : Env) (x : String)
    (rest : List String) (h : sl.logFileNames = x :: rest) :
    pruneFile sl w env =
      some ((osRemove ((w.emit .callPruneFile).emit
              (.stdout ("Deleting oldest log file: %v " ++ x ++ "\n"))) env x).1,
            { sl with logFileNames := rest },
            (osRemove ((w.emit .callPruneFile).emit
              (.stdout ("Deleting oldest log file: %v " ++ x ++ "\n"))) env x).2) ∧
    (osRemove ((w.emit .callPruneFile).emit
      (.stdout ("Deleting oldest log file: %v " ++ x ++ "\n"))) env x).1 = env.removeErr ∧
    removedNames (osRemove ((w.emit .callPruneFile).emit
      (.stdout ("Deleting oldest log file: %v " ++ x ++ "\n"))) env x).2.trace
      = removedNames w.trace ++ [x] := by
  refine ⟨by simp [pruneFile, h], ?_, ?_⟩
  · cases hr : env.removeErr <;> simp [osRemove, hr]
  · cases hr : env.removeErr <;>
      simp [osRemove, hr, World.emit, removedNames, List.filterMap_append]

/-- C15 at a concrete input: `os.Remove` fails, the head of the history is
removed all the same and the error is returned. -/
theorem pruneFile_removes_head_witness :
    ({ fresh 2 3 5 with logFileNames := ["a.log", "b.log"], logFileCount := 4 }
      : SeanLogger).logFileNames = "a.log" :: ["b.log"] ∧
    (pruneFile { fresh 2 3 5 with logFileNames := ["a.log", "b.log"], logFileCount := 4 }
        noFiles { envAt 100 "-100" with removeErr := some "permission denied" }).map
      (fun r => (r.1, r.2.1))
      = some (some "permission denied",
          { fresh 2 3 5 with logFileNames := ["b.log"], logFileCount := 4 }) := by
  refine ⟨rfl, ?_⟩
  rw [(pruneFile_removes_head
    { fresh 2 3 5 with logFileNames := ["a.log", "b.log"], logFileCount := 4 }
    noFiles { envAt 100 "-100" with removeErr := some "permission denied" }
    "a.log" ["b.log"] rfl).1]
  rfl

/-! ## `StartLog` on a writer that was used before -/

/-- C19: a successful `StartLog`, on any writer, leaves `logMessageCount` and
the three bounds as they were, and the history afterwards is the former
history with one name appended, so that every former entry keeps its place. -/
theorem StartLog_frame (sl : SeanLogger) (w : World) (env : Env) (logBaseName : String)
    (h : env.createErr = none) :
    (StartLog sl w env logBaseName).1 = none ∧
    (StartLog sl w env logBaseName).2.1.logMessageCount = sl.logMessageCount ∧
    (StartLog sl w env logBaseName).2.1.MaxLogFileCount = sl.MaxLogFileCount ∧
    (StartLog sl w env logBaseName).2.1.MaxLogMessageCount = sl.MaxLogMessageCount ∧
    (StartLog sl w env logBaseName).2.1.MaxLogDuration = sl.MaxLogDuration ∧
    (StartLog sl w env logBaseName).2.1.logFileNames =
      sl.logFileNames ++ [env.TimeStampFileName logBaseName LOG_EXTENSION] ∧
    sl.logFileNames <+: (StartLog sl w env logBaseName).2.1.logFileNames := by
  simp [StartLog, osCreate, h]

/-- C19 at a concrete input: a writer with message count 2 and one name in its
history is started again and keeps both. -/
theorem StartLog_frame_witness :
    (envAt 200 "-200").createErr = none ∧
    (StartLog { fresh 2 3 5 with logMessageCount := 2, logFileNames := ["app-100.log"] }
      noFiles (envAt 200 "-200") "app").2.1.logMessageCount = 2 ∧
    (StartLog { fresh 2 3 5 with logMessageCount := 2, logFileNames := ["app-100.log"] }
      noFiles (envAt 200 "-200") "app").2.1.logFileNames = ["app-100.log", "app-200.log"] :=
  ⟨rfl,
    (StartLog_frame { fresh 2 3 5 with logMessageCount := 2, logFileNames := ["app-100.log"] }
      noFiles (envAt 200 "-200") "app" rfl).2.1,
    (StartLog_frame { fresh 2 3 5 with logMessageCount := 2, logFileNames := ["app-100.log"] }
      noFiles (envAt 200 "-200") "app" rfl).2.2.2.2.2.1⟩

/-! ## Pruning never meets an empty history -/

/-- C16: `pruneFile` panics exactly on an empty history, and `newFile` never
calls it on one.  For every writer, `newFile` panics only when no buffered
writer is installed (at `Flush`, before the history is touched).  When a writer
is installed, the creation succeeds and the pruning test holds, `newFile`
calls `pruneFile` on the writer whose history is the former history with the
new name appended: that history is not empty, `pruneFile` returns, and its
result is the result of `newFile`. -/
theorem newFile_prunes_nonempty (sl : SeanLogger) (w : World) (env : Env) :
    (∀ sl1 w1 env1, pruneFile sl1 w1 env1 = none ↔ sl1.logFileNames = []) ∧
    (newFile sl w env = none → sl.writer = none) ∧
    (∀ b, sl.writer = some b → env.createErr = none →
      wrapU64 (sl.logFileCount + 1) ≥ sl.MaxLogFileCount →
      (rotated sl (env.TimeStampFileName sl.baseLogName LOG_EXTENSION)).logFileNames ≠ [] ∧
      (pruneFile (rotated sl (env.TimeStampFileName sl.baseLogName LOG_EXTENSION))
        (rotatedWorld sl w env b) env).isSome ∧
      newFile sl w env =
        pruneFile (rotated sl (env.TimeStampFileName sl.baseLogName LOG_EXTENSION))
          (rotatedWorld sl w env b) env) := by
  refine ⟨?_, ?_, ?_⟩
  · intro sl1 w1 env1
    unfold pruneFile
    cases hl : sl1.logFileNames <;> simp
  · intro hnone
    cases hb : sl.writer with
    | none => rfl
    | some b =>
      obtain ⟨e, sl', w', evs, hnf, -⟩ := newFile_trace sl w env b hb
      rw [hnf] at hnone
      exact absurd hnone (by simp)
  · intro b hb hc hp
    have hne : (rotated sl (env.TimeStampFileName sl.baseLogName LOG_EXTENSION)).logFileNames
        ≠ [] := by
      simp [rotated]
    refine ⟨hne, ?_, ?_⟩
    · unfold pruneFile
      cases hl : (rotated sl (env.TimeStampFileName sl.baseLogName LOG_EXTENSION)).logFileNames
        with
      | nil => exact absurd hl hne
      | cons x rest => simp
    · simp only [newFile, osCreate, hc, hb, rotated, rotatedWorld]
      rw [if_pos hp]
      split
      · rename_i h; rw [h]
      · rename_i h; rw [h]
      · rename_i h; rw [h]

/-- C16 at a concrete input: a started writer whose history is empty, with
`MaxLogFileCount = 0`; the rotation appends the new name and prunes it again
without a panic. -/
theorem newFile_prunes_nonempty_witness :
    emptyHistoryWriter.logFileNames = [] ∧
    (newFile emptyHistoryWriter noFiles (envAt 100 "-100")).map
      (fun r => (r.1, r.2.1.logFileNames, removedNames r.2.2.trace))
      = some (none, [], ["-100.log"]) := by
  refine ⟨rfl, ?_⟩
  rw [((newFile_prunes_nonempty emptyHistoryWriter noFiles (envAt 100 "-100")).2.2
    (NewWriter ⟨"active.log"⟩) rfl rfl (by decide)).2.2]
  decide

/-! ## `LogMessage` on a writer that was not started -/

/-- C14 as stated fails: on a fresh writer whose `StartLog` failed, `LogMessage`
does not end in an error result; it panics on the nil buffered writer. -/
theorem LogMessage_after_failed_start_panics :
    (StartLog (fresh 2 3 5) noFiles (envCreateFails 100 "-100" "permission denied") "app").1
      = some "permission denied" ∧
    LogMessage
      (StartLog (fresh 2 3 5) noFiles (envCreateFails 100 "-100" "permission denied") "app").2.1
      (StartLog (fresh 2 3 5) noFiles (envCreateFails 100 "-100" "permission denied") "app").2.2
      (envAt 101 "-101") "hello" = none :=
  ⟨rfl, rfl⟩

/-- C14, amended: on a fresh writer, never started or with a `StartLog` whose
`os.Create` failed, no buffered writer is installed, and every `LogMessage`
call panics: `fmt.Fprintln`, the first statement to use the writer, dereferences
the nil buffered writer, before any field is assigned.  A failed `StartLog`
leaves the writer as fresh as it was. -/
theorem LogMessage_unstarted_panics (maxFiles maxMessages : Nat) (maxDuration : Int)
    (w : World) (env0 env : Env) (logBaseName message : String) (err : Error)
    (h : env0.createErr = some err) :
    (fresh maxFiles maxMessages maxDuration).writer = none ∧
    (StartLog (fresh maxFiles maxMessages maxDuration) w env0 logBaseName).2.1
      = fresh maxFiles maxMessages maxDuration ∧
    (∀ w1, Fprintln w1 env (fresh maxFiles maxMessages maxDuration).writer message = none) ∧
    LogMessage (fresh maxFiles maxMessages maxDuration) w env message = none ∧
    LogMessage (StartLog (fresh maxFiles maxMessages maxDuration) w env0 logBaseName).2.1
      (StartLog (fresh maxFiles maxMessages maxDuration) w env0 logBaseName).2.2
      env message = none := by
  simp [StartLog, osCreate, h, LogMessage, Fprintln, fresh]

/-- C14 (amended) at a concrete input. -/
theorem LogMessage_unstarted_panics_witness :
    (envCreateFails 100 "-100" "permission denied").createErr = some "permission denied" ∧
    LogMessage (fresh 2 3 5) noFiles (envAt 101 "-101") "hello" = none ∧
    LogMessage
      (StartLog (fresh 2 3 5) noFiles (envCreateFails 100 "-100" "permission denied") "app").2.1
      (StartLog (fresh 2 3 5) noFiles (envCreateFails 100 "-100" "permission denied") "app").2.2
      (envAt 101 "-101") "hello" = none :=
  ⟨rfl,
    (LogMessage_unstarted_panics 2 3 5 noFiles (envCreateFails 100 "-100" "permission denied")
      (envAt 101 "-101") "app" "hello" "permission denied" rfl).2.2.2.1,
    (LogMessage_unstarted_panics 2 3 5 noFiles (envCreateFails 100 "-100" "permission denied")
      (envAt 101 "-101") "app" "hello" "permission denied" rfl).2.2.2.2⟩

/-! ## Errors inside `LogMessage` -/

/-- C13 fails on the code.  In scenario 2 the call at clock reading 106 meets a
failing `os.Create` (first line), a failing write of the message to the old
file, which happens when the rotation flushes the buffer and whose error
`newFile` drops (second line), and, on the writer with `MaxLogFileCount = 1` at
clock reading 1200, a failing `os.Remove` (third line); each failure is in the
trace, and in each case the caller of `LogMessage` receives what it receives
from the call in which every system call succeeds. -/
theorem LogMessage_swallows_errors :
    (Event.create "app-106.log" false ∈
        ((LogMessage scenario2Start.2.1 scenario2Start.2.2
          (envCreateFails 106 "-106" "disk full") "hello").map fun p => p.2.trace).getD [] ∧
      callerSees (LogMessage scenario2Start.2.1 scenario2Start.2.2
          (envCreateFails 106 "-106" "disk full") "hello")
        = callerSees (LogMessage scenario2Start.2.1 scenario2Start.2.2
          (envAt 106 "-106") "hello")) ∧
    (Event.write "app-100.log" "hello\n" false ∈
        ((LogMessage scenario2Start.2.1 scenario2Start.2.2
          (envWriteFails 106 "-106" "disk full") "hello").map fun p => p.2.trace).getD [] ∧
      callerSees (LogMessage scenario2Start.2.1 scenario2Start.2.2
          (envWriteFails 106 "-106" "disk full") "hello")
        = callerSees (LogMessage scenario2Start.2.1 scenario2Start.2.2
          (envAt 106 "-106") "hello")) ∧
    (Event.remove "app-100.log" false ∈
        ((LogMessage pruneStart.2.1 pruneStart.2.2
          (envRemoveFails 1200 "-1200" "permission denied") "hello").map
            fun p => p.2.trace).getD [] ∧
      callerSees (LogMessage pruneStart.2.1 pruneStart.2.2
          (envRemoveFails 1200 "-1200" "permission denied") "hello")
        = callerSees (LogMessage pruneStart.2.1 pruneStart.2.2
          (envAt 1200 "-1200") "hello")) := by
  refine ⟨⟨by decide, by decide⟩, ⟨by decide, by decide⟩, ⟨by decide, by decide⟩⟩

/-! ## The history as a queue of the created names -/

/-- One `LogMessage` call on a started writer, whatever the environment
answers, keeps the removed names followed by the history a sublist of the
names handed to `os.Create`. -/
theorem LogMessage_queue_step (sl : SeanLogger) (w : World) (env : Env) (message : String)
    (hs : Started sl)
    (hq : (removedNames w.trace ++ sl.logFileNames).Sublist (createdNames w.trace)) :
    ∃ sl' w', LogMessage sl w env message = some (sl', w') ∧ Started sl' ∧
      (removedNames w'.trace ++ sl'.logFileNames).Sublist (createdNames w'.trace) := by
  unfold Started at hs
  obtain ⟨b, hb⟩ := Option.isSome_iff_exists.mp hs
  obtain ⟨b', w1, -, ⟨-, -, hcre1, hrem1, -⟩, -, -, -, hLM⟩ :=
    LogMessage_started sl w env message b hb
  by_cases hcond : wrapU64 (sl.logMessageCount + 1) ≥ sl.MaxLogMessageCount ∨
      wrapI64 (sl.logDuration + wrapI64 (env.now - sl.logStamp)) ≥ sl.MaxLogDuration
  · cases hc : env.createErr with
    | some err =>
      refine ⟨logged sl env b',
        (w1.emit .callNewFile).emit
          (.create (env.TimeStampFileName sl.baseLogName LOG_EXTENSION) false),
        by rw [hLM, if_pos hcond, newFile_create_fails _ w1 env err hc]; rfl, rfl, ?_⟩
      have h1 : removedNames ((w1.emit .callNewFile).emit
          (.create (env.TimeStampFileName sl.baseLogName LOG_EXTENSION) false)).trace
          = removedNames w.trace := by
        simp only [World.emit, removedNames_append, hrem1]
        simp [removedNames]
      have h2 : createdNames ((w1.emit .callNewFile).emit
          (.create (env.TimeStampFileName sl.baseLogName LOG_EXTENSION) false)).trace
          = createdNames w.trace ++ [env.TimeStampFileName sl.baseLogName LOG_EXTENSION] := by
        simp only [World.emit, createdNames_append, hcre1]
        simp [createdNames]
      rw [h1, h2]
      exact hq.trans (List.sublist_append_left _ _)
    | none =>
      obtain ⟨e, sl', w', hnf, hsl', hcre, -, hqueue⟩ :=
        newFile_created_observed (logged sl env b') w1 env b' hc rfl
      refine ⟨sl', w', by rw [hLM, if_pos hcond, hnf]; rfl, by rw [hsl']; rfl, ?_⟩
      rw [hqueue, hcre, hrem1, hcre1, ← List.append_assoc]
      exact List.Sublist.append hq (List.Sublist.refl _)
  · refine ⟨logged sl env b', w1, by rw [hLM, if_neg hcond], rfl, ?_⟩
    rw [hrem1, hcre1]
    exact hq

/-- C12: a fresh writer is started once and then receives any sequence of
`LogMessage` calls, whatever the outcomes of the later system calls.  The run
returns; if the names handed to `os.Create` (the names the generator returned)
were pairwise distinct, then at its end (hence after each call) the history
has no duplicates and holds no name that `pruneFile` has removed. -/
theorem history_distinct_from_pruned (maxFiles maxMessages : Nat) (maxDuration : Int)
    (files : String → Option String) (env0 : Env) (logBaseName : String) (calls : List Call)
    (h0 : env0.createErr = none) :
    ∃ sl w,
      run (startFresh maxFiles maxMessages maxDuration files env0 logBaseName).2.1
        (startFresh maxFiles maxMessages maxDuration files env0 logBaseName).2.2 calls
        = some (sl, w) ∧
      ((createdNames w.trace).Nodup →
        sl.logFileNames.Nodup ∧ ∀ n ∈ removedNames w.trace, n ∉ sl.logFileNames) := by
  obtain ⟨sl, w, hrun, -, hq⟩ := run_induction
    (fun _ sl w => Started sl ∧
      (removedNames w.trace ++ sl.logFileNames).Sublist (createdNames w.trace))
    (startFresh maxFiles maxMessages maxDuration files env0 logBaseName).2.1
    (startFresh maxFiles maxMessages maxDuration files env0 logBaseName).2.2 calls
    (by simp [startFresh, StartLog, osCreate, h0, fresh, Started, removedNames, createdNames])
    (by
      intro pre c sl w _ _ ⟨hs, hq⟩
      exact LogMessage_queue_step sl w c.1 c.2 hs hq)
  refine ⟨sl, w, hrun, fun hnd => ?_⟩
  have hnd' : (removedNames w.trace ++ sl.logFileNames).Nodup := hnd.sublist hq
  obtain ⟨-, h2, h3⟩ := List.nodup_append.mp hnd'
  exact ⟨h2, fun n hn hmem => h3 hn hmem⟩

/-- C12 at a concrete input: scenario 1 with its six calls; the three names
created are distinct, the first one was pruned and is not in the history. -/
theorem history_distinct_from_pruned_witness :
    ∃ sl w,
      run scenario1Start.2.1 scenario1Start.2.2 scenario1Calls = some (sl, w) ∧
      (createdNames w.trace).Nodup ∧
      removedNames w.trace = ["app-100.log"] ∧
      sl.logFileNames = ["app-103.log", "app-106.log"] ∧
      sl.logFileNames.Nodup ∧ ∀ n ∈ removedNames w.trace, n ∉ sl.logFileNames := by
  obtain ⟨sl, w, hrun, h⟩ := history_distinct_from_pruned 2 3 1000 (fun _ => none)
    (envAt 100 "-100") "app" scenario1Calls rfl
  have hev : (run scenario1Start.2.1 scenario1Start.2.2 scenario1Calls).map
      (fun p => (createdNames p.2.trace, removedNames p.2.trace, p.1.logFileNames)) =
      some (["app-100.log", "app-103.log", "app-106.log"], ["app-100.log"],
        ["app-103.log", "app-106.log"]) := by
    decide
  have hrun' : run scenario1Start.2.1 scenario1Start.2.2 scenario1Calls = some (sl, w) := hrun
  rw [hrun'] at hev
  simp only [Option.map_some', Option.some.injEq, Prod.mk.injEq] at hev
  have hnd : (createdNames w.trace).Nodup := by rw [hev.1]; decide
  exact ⟨sl, w, hrun', hnd, hev.2.1, hev.2.2, h hnd⟩

/-! ## The exact content of the history -/

/-- One `LogMessage` call whose file creation succeeds keeps the history the
last `min (logFileCount + 1) (max MaxLogFileCount 1)` names created, as long as
the number of rotations stays below `2 ^ 64`. -/
theorem LogMessage_lastNames_step (sl : SeanLogger) (w : World) (env : Env) (message : String)
    (hs : Started sl) (hc : env.createErr = none) :
    ∃ sl' w', LogMessage sl w env message = some (sl', w') ∧ Started sl' ∧
      sl'.MaxLogFileCount = sl.MaxLogFileCount ∧
      newFileCalls w.trace ≤ newFileCalls w'.trace ∧
      (newFileCalls w'.trace < 2 ^ 64 →
        sl.logFileCount = newFileCalls w.trace →
        (createdNames w.trace).length = newFileCalls w.trace + 1 →
        sl.logFileNames <:+ createdNames w.trace →
        sl.logFileNames.length = min (sl.logFileCount + 1) (max sl.MaxLogFileCount 1) →
        (∃ a, sl.log = some ⟨a⟩ ∧ (createdNames w.trace).getLast? = some a) →
        sl'.logFileCount = newFileCalls w'.trace ∧
        (createdNames w'.trace).length = newFileCalls w'.trace + 1 ∧
        sl'.logFileNames <:+ createdNames w'.trace ∧
        sl'.logFileNames.length = min (sl'.logFileCount + 1) (max sl'.MaxLogFileCount 1) ∧
        (∃ a, sl'.log = some ⟨a⟩ ∧ (createdNames w'.trace).getLast? = some a)) := by
  unfold Started at hs
  obtain ⟨b, hb⟩ := Option.isSome_iff_exists.mp hs
  obtain ⟨b', w1, -, ⟨hnf1, -, hcre1, -, -⟩, -, -, -, hLM⟩ :=
    LogMessage_started sl w env message b hb
  by_cases hcond : wrapU64 (sl.logMessageCount + 1) ≥ sl.MaxLogMessageCount ∨
      wrapI64 (sl.logDuration + wrapI64 (env.now - sl.logStamp)) ≥ sl.MaxLogDuration
  · obtain ⟨e, sl', w', hnf, hsl', hcre, hcalls, -⟩ :=
      newFile_created_observed (logged sl env b') w1 env b' hc rfl
    generalize hf : env.TimeStampFileName (logged sl env b').baseLogName LOG_EXTENSION = f at *
    have hmaxf : sl'.MaxLogFileCount = sl.MaxLogFileCount := by rw [hsl']; rfl
    refine ⟨sl', w', by rw [hLM, if_pos hcond, hnf]; rfl, by rw [hsl']; rfl, hmaxf,
      by rw [hcalls, hnf1]; omega, ?_⟩
    intro hlt hcount hlen hsuf hhist _
    rw [hcalls, hnf1] at hlt ⊢
    have hfc : sl.logFileCount + 1 < 2 ^ 64 := by omega
    have hcount' : sl'.logFileCount = sl.logFileCount + 1 := by
      rw [hsl']; exact wrapU64_of_lt _ hfc
    have hnames : sl'.logFileNames =
        if wrapU64 (sl.logFileCount + 1) ≥ sl.MaxLogFileCount then
          (sl.logFileNames ++ [f]).tail
        else sl.logFileNames ++ [f] := by
      rw [hsl']; rfl
    have hsuf' : sl.logFileNames ++ [f] <:+ createdNames w.trace ++ [f] := by
      obtain ⟨t, ht⟩ := hsuf
      exact ⟨t, by rw [← List.append_assoc, ht]⟩
    refine ⟨by omega, by rw [hcre, hcre1]; simp [hlen], ?_, ?_, ⟨f, by rw [hsl']; rfl, ?_⟩⟩
    · rw [hcre, hcre1, hnames]
      split
      · exact (List.tail_suffix _).trans hsuf'
      · exact hsuf'
    · rw [hcount', hmaxf, hnames, wrapU64_of_lt _ hfc]
      split
      · simp only [List.length_tail, List.length_append, List.length_singleton,
          Nat.add_sub_cancel, hhist]
        omega
      · simp only [List.length_append, List.length_singleton, hhist]
        omega
    · rw [hcre]; exact List.getLast?_concat _
  · refine ⟨logged sl env b', w1, by rw [hLM, if_neg hcond], rfl, rfl, by rw [hnf1], ?_⟩
    intro _ hcount hlen hsuf hhist hlast
    rw [hnf1, hcre1]
    exact ⟨hcount, hlen, hsuf, hhist, hlast⟩

/-- C17: a fresh writer is started once and then receives any sequence of
`LogMessage` calls, every file creation succeeding.  The run returns; with `r`
the number of rotations (entries of `newFile`), if `r < 2 ^ 64` then `r + 1`
names were created and the history is exactly the last
`min (r + 1) (max MaxLogFileCount 1)` of them, in creation order; with
`MaxLogFileCount = 0` the history holds just the name of the active file. -/
theorem history_is_last_names (maxFiles maxMessages : Nat) (maxDuration : Int)
    (files : String → Option String) (env0 : Env) (logBaseName : String) (calls : List Call)
    (h0 : env0.createErr = none) (hcalls : ∀ c ∈ calls, c.1.createErr = none) :
    ∃ sl w,
      run (startFresh maxFiles maxMessages maxDuration files env0 logBaseName).2.1
        (startFresh maxFiles maxMessages maxDuration files env0 logBaseName).2.2 calls
        = some (sl, w) ∧
      (newFileCalls w.trace < 2 ^ 64 →
        (createdNames w.trace).length = newFileCalls w.trace + 1 ∧
        sl.logFileNames = (createdNames w.trace).drop
          ((createdNames w.trace).length - min (newFileCalls w.trace + 1) (max maxFiles 1)) ∧
        (maxFiles = 0 → ∃ a, sl.log = some ⟨a⟩ ∧ sl.logFileNames = [a])) := by
  obtain ⟨sl, w, hrun, -, hm, hP⟩ := run_induction
    (fun _ sl w => Started sl ∧ sl.MaxLogFileCount = maxFiles ∧
      (newFileCalls w.trace < 2 ^ 64 →
        sl.logFileCount = newFileCalls w.trace ∧
        (createdNames w.trace).length = newFileCalls w.trace + 1 ∧
        sl.logFileNames <:+ createdNames w.trace ∧
        sl.logFileNames.length = min (sl.logFileCount + 1) (max sl.MaxLogFileCount 1) ∧
        (∃ a, sl.log = some ⟨a⟩ ∧ (createdNames w.trace).getLast? = some a)))
    (startFresh maxFiles maxMessages maxDuration files env0 logBaseName).2.1
    (startFresh maxFiles maxMessages maxDuration files env0 logBaseName).2.2 calls
    (by
      refine ⟨by simp [startFresh, StartLog, osCreate, h0, Started],
        by simp [startFresh, StartLog, osCreate, h0, fresh], fun _ => ?_⟩
      simp [startFresh, StartLog, osCreate, h0, fresh, newFileCalls, createdNames])
    (by
      intro pre c sl w hpre _ ⟨hs, hm, hinv⟩
      obtain ⟨sl', w', hLM, hs', hm', hmono, hstep⟩ :=
        LogMessage_lastNames_step sl w c.1 c.2 hs
          (hcalls c (last_mem_of_isPrefix pre c calls hpre))
      refine ⟨sl', w', hLM, hs', hm'.trans hm, fun hlt => ?_⟩
      obtain ⟨h1, h2, h3, h4, h5⟩ := hinv (by omega)
      exact hstep hlt h1 h2 h3 h4 h5)
  refine ⟨sl, w, hrun, fun hlt => ?_⟩
  obtain ⟨h1, h2, h3, h4, a, h5, h6⟩ := hP hlt
  have hdrop := List.suffix_iff_eq_drop.mp h3
  rw [h4, h1, hm] at hdrop
  refine ⟨h2, hdrop, fun hz => ⟨a, h5, ?_⟩⟩
  have hlen1 : sl.logFileNames.length = 1 := by rw [h4, hm, hz]; omega
  obtain ⟨x, hx⟩ := List.length_eq_one.mp hlen1
  have hne : sl.logFileNames ≠ [] := by rw [hx]; simp
  have hlast := h3.getLast hne
  have hx' : sl.logFileNames.getLast? = some x := by rw [hx]; rfl
  have hcl : (createdNames w.trace).getLast? = some x := by
    rw [List.getLast?_eq_getLast _ (fun hnil => by rw [hnil] at h2; simp at h2), ← hlast,
      ← List.getLast?_eq_getLast _ hne, hx']
  rw [h6] at hcl
  rw [hx, Option.some.inj hcl]

/-- C17 at a concrete input: scenario 1 with its six calls; two rotations,
three names, and the history is the last two of them. -/
theorem history_is_last_names_witness :
    ∃ sl w,
      run scenario1Start.2.1 scenario1Start.2.2 scenario1Calls = some (sl, w) ∧
      newFileCalls w.trace = 2 ∧
      createdNames w.trace = ["app-100.log", "app-103.log", "app-106.log"] ∧
      (createdNames w.trace).length = newFileCalls w.trace + 1 ∧
      sl.logFileNames = (createdNames w.trace).drop
        ((createdNames w.trace).length - min (newFileCalls w.trace + 1) (max 2 1)) ∧
      (2 = 0 → ∃ a, sl.log = some ⟨a⟩ ∧ sl.logFileNames = [a]) := by
  obtain ⟨sl, w, hrun, h⟩ := history_is_last_names 2 3 1000 (fun _ => none)
    (envAt 100 "-100") "app" scenario1Calls rfl (by decide)
  have hev : (run scenario1Start.2.1 scenario1Start.2.2 scenario1Calls).map
      (fun p => (newFileCalls p.2.trace, createdNames p.2.trace)) =
      some (2, ["app-100.log", "app-103.log", "app-106.log"]) := by
    decide
  have hrun' : run scenario1Start.2.1 scenario1Start.2.2 scenario1Calls = some (sl, w) := hrun
  rw [hrun'] at hev
  simp only [Option.map_some', Option.some.injEq, Prod.mk.injEq] at hev
  exact ⟨sl, w, hrun', hev.1, hev.2, h (by rw [hev.1]; decide)⟩

/-! ## The duration trigger stays on -/

/-- One `LogMessage` call on a started writer whose duration has reached its
bound, at a clock reading not earlier than the last one and without overflow,
whatever the outcomes of the system calls: `newFile` is entered once; the
duration grows by the time elapsed and is still at least the bound. -/
theorem LogMessage_sticky_step (sl : SeanLogger) (w : World) (env : Env) (message : String)
    (hs : Started sl) (hd : sl.logDuration ≥ sl.MaxLogDuration)
    (hnow : sl.logStamp ≤ env.now) (h1 : inI64 (env.now - sl.logStamp))
    (h2 : inI64 (sl.logDuration + (env.now - sl.logStamp))) :
    ∃ sl' w', LogMessage sl w env message = some (sl', w') ∧ Started sl' ∧
      newFileCalls w'.trace = newFileCalls w.trace + 1 ∧
      sl'.logDuration = sl.logDuration + (env.now - sl.logStamp) ∧
      sl'.logStamp = env.now ∧ sl'.MaxLogDuration = sl.MaxLogDuration := by
  unfold Started at hs
  obtain ⟨b, hb⟩ := Option.isSome_iff_exists.mp hs
  obtain ⟨b', w1, -, ⟨hnf1, -, -, -, -⟩, -, -, -, hLM⟩ :=
    LogMessage_started sl w env message b hb
  have hdur : wrapI64 (sl.logDuration + wrapI64 (env.now - sl.logStamp))
      = sl.logDuration + (env.now - sl.logStamp) := by
    rw [wrapI64_of_inI64 _ h1, wrapI64_of_inI64 _ h2]
  have hcond : wrapU64 (sl.logMessageCount + 1) ≥ sl.MaxLogMessageCount ∨
      wrapI64 (sl.logDuration + wrapI64 (env.now - sl.logStamp)) ≥ sl.MaxLogDuration := by
    right
    rw [hdur]
    omega
  cases hc : env.createErr with
  | some err =>
    refine ⟨logged sl env b',
      (w1.emit .callNewFile).emit
        (.create (env.TimeStampFileName sl.baseLogName LOG_EXTENSION) false),
      by rw [hLM, if_pos hcond, newFile_create_fails _ w1 env err hc]; rfl, rfl, ?_,
      hdur, rfl, rfl⟩
    simp only [World.emit, newFileCalls_append, hnf1]
    simp [newFileCalls]
  | none =>
    obtain ⟨e, sl', w', hnf, hsl', -, hcalls, -⟩ :=
      newFile_created_observed (logged sl env b') w1 env b' hc rfl
    refine ⟨sl', w', by rw [hLM, if_pos hcond, hnf]; rfl, by rw [hsl']; rfl,
      by rw [hcalls, hnf1], ?_, by rw [hsl']; rfl, by rw [hsl']; rfl⟩
    rw [hsl']
    exact hdur

/-- C18: on a started writer whose `logDuration` has reached `MaxLogDuration`,
for any sequence of later `LogMessage` calls whose clock readings never go
back and cause no `int64` overflow, whatever the outcomes of the system calls
(so however many rotations succeed): after any number of these calls, `newFile`
has been entered once per call, `logDuration` is still at least
`MaxLogDuration`, and `logDuration - logStamp` is what it was (`logDuration` is
`logStamp` minus a fixed starting time; a rotation changes neither). -/
theorem duration_trigger_sticks (calls : List Call) (sl : SeanLogger) (w : World)
    (hs : Started sl) (hd : sl.logDuration ≥ sl.MaxLogDuration)
    (hok : clocksOk sl.logStamp sl.logDuration calls) :
    ∀ pre, pre <+: calls →
      ∃ sl' w', run sl w pre = some (sl', w') ∧
        newFileCalls w'.trace = newFileCalls w.trace + pre.length ∧
        sl'.logDuration ≥ sl'.MaxLogDuration ∧
        sl'.logDuration - sl'.logStamp = sl.logDuration - sl.logStamp := by
  induction calls generalizing sl w with
  | nil =>
    intro pre hpre
    have : pre = [] := List.eq_nil_of_prefix_nil hpre
    subst this
    exact ⟨sl, w, rfl, rfl, hd, rfl⟩
  | cons c rest ih =>
    intro pre hpre
    obtain ⟨hnow, h1, h2, hrest⟩ := hok
    rcases List.prefix_cons_iff.mp hpre with hnil | ⟨t, ht, htpre⟩
    · subst hnil
      exact ⟨sl, w, rfl, rfl, hd, rfl⟩
    · subst ht
      obtain ⟨sl1, w1, hLM, hs1, hcalls1, hdur1, hstamp1, hmax1⟩ :=
        LogMessage_sticky_step sl w c.1 c.2 hs hd hnow h1 h2
      have hd1 : sl1.logDuration ≥ sl1.MaxLogDuration := by
        rw [hdur1, hmax1]; omega
      obtain ⟨sl', w', hrun, hcalls', hd', hdiff⟩ :=
        ih sl1 w1 hs1 hd1 (by rw [hstamp1, hdur1]; exact hrest) t htpre
      refine ⟨sl', w', by rw [run_cons, hLM]; exact hrun, ?_, hd', ?_⟩
      · rw [hcalls', hcalls1, List.length_cons]; omega
      · rw [hdiff, hdur1, hstamp1]; omega

/-- C18 at a concrete input: scenario 2 after its first call (`logDuration` is
6, the bound is 5), then three calls at clock readings 106, 107 and 110, one of
them with a failing `os.Create`: `newFile` is entered three more times. -/
theorem duration_trigger_sticks_witness :
    Started scenario2After.1 ∧
    scenario2After.1.logDuration ≥ scenario2After.1.MaxLogDuration ∧
    clocksOk scenario2After.1.logStamp scenario2After.1.logDuration scenario2Calls ∧
    ∃ sl' w', run scenario2After.1 scenario2After.2 scenario2Calls = some (sl', w') ∧
      newFileCalls w'.trace = newFileCalls scenario2After.2.trace + scenario2Calls.length ∧
      sl'.logDuration ≥ sl'.MaxLogDuration ∧
      sl'.logDuration - sl'.logStamp
        = scenario2After.1.logDuration - scenario2After.1.logStamp :=
  ⟨by decide, by decide, by decide,
    duration_trigger_sticks scenario2Calls scenario2After.1 scenario2After.2
      (by decide) (by decide) (by decide) scenario2Calls (List.prefix_refl _)⟩


end Logger
